import Mathlib

/-!
# vtkUnsignedIntArray: a verification development

A shallow embedding of `Common/vtkUnsignedIntArray.cxx` (revision 1.33) and the
properties of the array proved on it, followed by the tracking of the local
extrema in `Infovis/Testing/Cxx/TestRandomPOrderStatisticsMPI.cxx`.

## The model

* The free store is explicit: a `Heap` is a list of cells, one per address
  handed out by `new unsigned int[n]`; a cell is `some block` while the block
  is live and `none` once it was released (or when the allocation failed).
* A pointer `unsigned int*` is `Option Nat`: `none` is `NULL`, `some a` is the
  start of the block at address `a`.
* The source tests the result of `new` against `NULL`, so an allocation may
  fail: the heap carries an oracle `fails` that decides it, and an oracle
  `junk` for the indeterminate contents of a new block.
* `vtkIdType` and `int` values are mathematical integers (signed overflow is
  undefined in C++ and is not modelled).
* Every method is a function from the heap and the object to
  `Option (result)`: `none` stands for undefined behaviour (a release of a
  block that is not live, an access outside a live block, a negative length,
  a division by zero).
* A `float` or `double` value is represented by the rational number it
  denotes; the conversion of an `unsigned int` to `float` rounds to a 24-bit
  significand.
* The inline methods of `vtkUnsignedIntArray.h` and of the base class
  `vtkDataArray` are not part of the sources at hand; those that the methods
  below call are modelled from the specification and marked as such.
-/

namespace VTK

/-- The contents of one `unsigned int[]` block. -/
abbrev Block := List Nat

/-- The free store. `fails a` tells whether the allocation that would return
address `a` fails (yields `NULL`), and `junk a k` is the indeterminate value
found at index `k` of a new block at address `a`. -/
structure Heap where
  cells : List (Option Block)
  fails : Nat → Bool
  junk : Nat → Nat → Nat

/-- The live block at address `a`, if any. -/
def Heap.block (h : Heap) (a : Nat) : Option Block :=
  match h.cells[a]? with
  | some (some b) => some b
  | _ => none

/-- The indeterminate contents of a new block of `n` elements at the next
address; every element is a 32-bit value. -/
def Heap.fresh (h : Heap) (n : Nat) : Block :=
  (List.range n).map (fun k => h.junk h.cells.length k % 2 ^ 32)

/-- The expression `new unsigned int[n]`: the pointer returned (`none` when the
allocation fails) and the heap afterwards. A negative length is undefined. -/
def Heap.new (h : Heap) (n : Int) : Option (Option Nat × Heap) :=
  if n < 0 then none
  else if h.fails h.cells.length then
    some (none, { h with cells := h.cells ++ [none] })
  else
    some (some h.cells.length, { h with cells := h.cells ++ [some (h.fresh n.toNat)] })

/-- The statement `delete [] p` for a non-null `p`: defined only on a live block. -/
def Heap.delete (h : Heap) (a : Nat) : Option Heap :=
  match h.block a with
  | some _ => some { h with cells := h.cells.set a none }
  | none => none

/-- The call `memcpy(dst, src, n * sizeof(unsigned int))`. A count of zero
copies nothing; otherwise both pointers must be distinct live blocks of at
least `n` elements. -/
def Heap.memcpy (h : Heap) (dst src : Option Nat) (n : Int) : Option Heap :=
  if n = 0 then some h
  else if n < 0 then none
  else
    match dst, src with
    | some d, some s =>
      match h.block d, h.block s with
      | some bd, some bs =>
        if d ≠ s ∧ n.toNat ≤ bd.length ∧ n.toNat ≤ bs.length then
          some { h with cells := h.cells.set d (some (bs.take n.toNat ++ bd.drop n.toNat)) }
        else none
      | _, _ => none
    | _, _ => none

/-- The read `p[k]`. -/
def Heap.read (h : Heap) (p : Option Nat) (k : Int) : Option Nat :=
  match p with
  | none => none
  | some a =>
    match h.block a with
    | none => none
    | some b => if k < 0 then none else b[k.toNat]?

/-- The assignment `p[k] = v`. -/
def Heap.write (h : Heap) (p : Option Nat) (k : Int) (v : Nat) : Option Heap :=
  match p with
  | none => none
  | some a =>
    match h.block a with
    | none => none
    | some b =>
      if 0 ≤ k ∧ k.toNat < b.length then
        some { h with cells := h.cells.set a (some (b.set k.toNat v)) }
      else none

/-- The data members of a `vtkUnsignedIntArray` (those of `vtkDataArray`
included). `Tuple` is the conversion buffer `float *Tuple`. -/
structure vtkUnsignedIntArray where
  Array : Option Nat
  Size : Int
  MaxId : Int
  NumberOfComponents : Int
  SaveUserArray : Int
  TupleSize : Int
  Tuple : List ℚ

/-- The argument `vtkDataArray *sa` of `DeepCopy`: `NULL`, the object itself,
another unsigned int array, or an array of another data type. -/
inductive vtkDataArrayPtr where
  | null
  | self
  | unsignedInt (sa : vtkUnsignedIntArray)
  | otherType

/-- The constructor `vtkUnsignedIntArray(numComp)`. The base class constructor
leaves `Size = 0` and `MaxId = -1`; the indeterminate contents of
`new float[3]` are written as zeros. -/
def vtkUnsignedIntArray.ctor (numComp : Int) : vtkUnsignedIntArray :=
  { NumberOfComponents := if numComp < 1 then 1 else numComp
    Array := none
    TupleSize := 3
    Tuple := List.replicate 3 0
    SaveUserArray := 0
    Size := 0
    MaxId := -1 }

/-- The guarded release shared by the destructor, `SetArray`, `Allocate`,
`Initialize` and `DeepCopy`:
`if ((this->Array) && (!this->SaveUserArray)) delete [] this->Array;`. -/
def deleteOwned (h : Heap) (this : vtkUnsignedIntArray) : Option Heap :=
  match this.Array with
  | some a => if this.SaveUserArray = 0 then h.delete a else some h
  | none => some h

/-- The method `SetArray(array, size, save)`. -/
def SetArray (h : Heap) (this : vtkUnsignedIntArray) (array : Option Nat) (size : Int)
    (save : Int) : Option (Heap × vtkUnsignedIntArray) :=
  match deleteOwned h this with
  | none => none
  | some h1 =>
    some (h1, { this with Array := array, Size := size, MaxId := size - 1, SaveUserArray := save })

/-- The method `Allocate(sz, ext)`; the first component is the returned `int`. -/
def Allocate (h : Heap) (this : vtkUnsignedIntArray) (sz : Int) :
    Option (Int × Heap × vtkUnsignedIntArray) :=
  if sz > this.Size then
    match deleteOwned h this with
    | none => none
    | some h1 =>
      let size : Int := if sz > 0 then sz else 1
      match h1.new size with
      | none => none
      | some (none, h2) => some (0, h2, { this with Size := size, Array := none })
      | some (some a, h2) =>
        some (1, h2, { this with Size := size, Array := some a, SaveUserArray := 0, MaxId := -1 })
  else
    some (1, h, { this with MaxId := -1 })

/-- The method `Initialize()`. -/
def Initialize (h : Heap) (this : vtkUnsignedIntArray) : Option (Heap × vtkUnsignedIntArray) :=
  match deleteOwned h this with
  | none => none
  | some h1 => some (h1, { this with Array := none, Size := 0, MaxId := -1, SaveUserArray := 0 })

/-- The method `DeepCopy(sa)`. The copy of an array of another data type is
`vtkDataArray::DeepCopy`, which belongs to the base class and is passed in as
`superDeepCopy`. -/
def DeepCopy (superDeepCopy : Heap → vtkUnsignedIntArray → Option (Heap × vtkUnsignedIntArray))
    (h : Heap) (this : vtkUnsignedIntArray) (sa : vtkDataArrayPtr) :
    Option (Heap × vtkUnsignedIntArray) :=
  match sa with
  | .null => some (h, this)
  | .otherType => superDeepCopy h this
  | .self => some (h, this)
  | .unsignedInt sa =>
    match deleteOwned h this with
    | none => none
    | some h1 =>
      let this1 := { this with NumberOfComponents := sa.NumberOfComponents, MaxId := sa.MaxId,
                               Size := sa.Size, SaveUserArray := 0 }
      match h1.new this1.Size with
      | none => none
      | some (arr, h2) =>
        match h2.memcpy arr sa.Array this1.Size with
        | none => none
        | some h3 => some (h3, { this1 with Array := arr })

/-- The private method `ResizeAndExtend(sz)`; the first component is the
returned pointer. `newSize` is `none` on the branch that returns early. -/
def ResizeAndExtend (h : Heap) (this : vtkUnsignedIntArray) (sz : Int) :
    Option (Option Nat × Heap × vtkUnsignedIntArray) :=
  let newSize : Option Int :=
    if sz > this.Size then some (this.Size + sz)
    else if sz = this.Size then none
    else some sz
  match newSize with
  | none => some (this.Array, h, this)
  | some newSize =>
    if newSize ≤ 0 then
      match Initialize h this with
      | none => none
      | some (h1, this1) => some (none, h1, this1)
    else
      match h.new newSize with
      | none => none
      | some (none, h1) => some (none, h1, this)
      | some (some newArray, h1) =>
        let copied : Option Heap :=
          match this.Array with
          | some a =>
            match h1.memcpy (some newArray) (some a) (if sz < this.Size then sz else this.Size) with
            | none => none
            | some h2 => if this.SaveUserArray = 0 then h2.delete a else some h2
          | none => some h1
        match copied with
        | none => none
        | some h3 =>
          let this1 := if newSize < this.Size then { this with MaxId := newSize - 1 } else this
          some (some newArray, h3,
            { this1 with Size := newSize, Array := some newArray, SaveUserArray := 0 })

/-- The method `Resize(sz)`. -/
def Resize (h : Heap) (this : vtkUnsignedIntArray) (sz : Int) :
    Option (Heap × vtkUnsignedIntArray) :=
  let newSize : Int := sz * this.NumberOfComponents
  if newSize = this.Size then some (h, this)
  else if newSize ≤ 0 then Initialize h this
  else
    match h.new newSize with
    | none => none
    | some (none, h1) => some (h1, this)
    | some (some newArray, h1) =>
      let copied : Option Heap :=
        match this.Array with
        | some a =>
          match h1.memcpy (some newArray) (some a)
              (if newSize < this.Size then newSize else this.Size) with
          | none => none
          | some h2 => if this.SaveUserArray = 0 then h2.delete a else some h2
        | none => some h1
      match copied with
      | none => none
      | some h3 =>
        let this1 := if newSize < this.Size then { this with MaxId := newSize - 1 } else this
        some (h3, { this1 with Size := newSize, Array := some newArray, SaveUserArray := 0 })

/-- The destructor: the owned block is released. -/
def vtkUnsignedIntArray.dtor (h : Heap) (this : vtkUnsignedIntArray) : Option Heap :=
  deleteOwned h this

/-- Modelled from the spec: `SetNumberOfValues(number)` is declared in
`vtkUnsignedIntArray.h`, which is not part of the sources at hand. It is the
"value-count-set primitive" that sets the logical length to `number` scalar
slots: storage for `number` values is obtained with `Allocate` and the highest
written index becomes `number - 1`. -/
def SetNumberOfValues (h : Heap) (this : vtkUnsignedIntArray) (number : Int) :
    Option (Heap × vtkUnsignedIntArray) :=
  match Allocate h this number with
  | none => none
  | some (_, h1, this1) => some (h1, { this1 with MaxId := number - 1 })

/-- The method `SetNumberOfTuples(number)`. -/
def SetNumberOfTuples (h : Heap) (this : vtkUnsignedIntArray) (number : Int) :
    Option (Heap × vtkUnsignedIntArray) :=
  SetNumberOfValues h this (number * this.NumberOfComponents)

/-- Modelled from the spec: `GetNumberOfTuples()` belongs to the base class
`vtkDataArray`, which is not part of the sources at hand:
"`(highestWrittenIndex+1)/componentsPerTuple` gives tuple count". A division by
zero is undefined. -/
def GetNumberOfTuples (this : vtkUnsignedIntArray) : Option Int :=
  if this.NumberOfComponents = 0 then none
  else some ((this.MaxId + 1).tdiv this.NumberOfComponents)

/-- Modelled from the spec: `WritePointer(id, number)` is declared in
`vtkUnsignedIntArray.h`, which is not part of the sources at hand. It is the
"write-pointer/extend primitive": storage grows through `ResizeAndExtend` when
`id + number` exceeds the size, the highest written index is raised to
`id + number - 1` when that is larger, and the pointer `this->Array + id` is
returned (here: the base pointer and the offset `id`). -/
def WritePointer (h : Heap) (this : vtkUnsignedIntArray) (id number : Int) :
    Option ((Option Nat × Int) × Heap × vtkUnsignedIntArray) :=
  let newSize : Int := id + number
  let grown : Option (Heap × vtkUnsignedIntArray) :=
    if newSize > this.Size then
      match ResizeAndExtend h this newSize with
      | none => none
      | some (_, h1, this1) => some (h1, this1)
    else some (h, this)
  match grown with
  | none => none
  | some (h1, this1) =>
    let this2 := if newSize - 1 > this1.MaxId then { this1 with MaxId := newSize - 1 } else this1
    some ((this2.Array, id), h1, this2)

/-- The conversion `(unsigned int)x` of a floating-point value: the fraction is
dropped (rounding toward zero) and the integer is reduced modulo `2^32`. Inside
`[0, 2^32)` this is the conversion of the C++ standard; outside, the standard
leaves the result open and the model takes the wraparound that the
specification describes. -/
def toUnsignedInt (x : ℚ) : Nat :=
  ((x.num.tdiv x.den) % 2 ^ 32).toNat

/-- The number of binary digits of `u`, by halving at most `fuel` times. -/
def bitLengthAux : Nat → Nat → Nat
  | 0, _ => 0
  | fuel + 1, u => if u = 0 then 0 else bitLengthAux fuel (u / 2) + 1

/-- The number of binary digits of `u` (`0` for `u = 0`). -/
def bitLength (u : Nat) : Nat := bitLengthAux u u

/-- Rounding of a natural number to `p` significant bits, ties to even: the
value of an integer after conversion to a binary floating-point format with a
`p`-bit significand (the exponent range is not a limit for 32-bit inputs). -/
def roundToBits (p : Nat) (u : Nat) : Nat :=
  if u < 2 ^ p then u
  else
    let e := bitLength u - p
    let q := u / 2 ^ e
    let r := u % 2 ^ e
    let half := 2 ^ (e - 1)
    let q1 := if r < half then q else if half < r then q + 1 else if q % 2 = 0 then q else q + 1
    q1 * 2 ^ e

/-- The conversion `(float)u` of an `unsigned int` (24-bit significand). -/
def toFloat (u : Nat) : ℚ := (roundToBits 24 u : Nat)

/-- The conversion `(double)u` of an `unsigned int` (53-bit significand). -/
def toDouble (u : Nat) : ℚ := (roundToBits 53 u : Nat)

/-- The loop `for (j...) tuple[j] = (T)t[j];` with `t = arr + loc`, over the
indices `js`: the values written to the output buffer, in order. -/
def loadTuple (cast : Nat → ℚ) (h : Heap) (arr : Option Nat) (loc : Int) :
    List Nat → Option (List ℚ)
  | [] => some []
  | j :: js =>
    match h.read arr (loc + j) with
    | none => none
    | some v =>
      match loadTuple cast h arr loc js with
      | none => none
      | some out => some (cast v :: out)

/-- The loop `for (j...) t[j] = (unsigned int)tuple[j];` with `t = arr + loc`,
over the indices `js`. Reading past the end of the input tuple is undefined. -/
def storeTuple (arr : Option Nat) (loc : Int) (tuple : List ℚ) :
    List Nat → Heap → Option Heap
  | [], h => some h
  | j :: js, h =>
    match tuple[j]? with
    | none => none
    | some x =>
      match h.write arr (loc + j) (toUnsignedInt x) with
      | none => none
      | some h1 => storeTuple arr loc tuple js h1

/-- The loop of `GetTuple(i)` writing into the conversion buffer `Tuple`. -/
def fillTuple (h : Heap) (arr : Option Nat) (loc : Int) : List Nat → List ℚ → Option (List ℚ)
  | [], t => some t
  | j :: js, t =>
    match h.read arr (loc + j) with
    | none => none
    | some v => if j < t.length then fillTuple h arr loc js (t.set j (toFloat v)) else none

/-- The method `GetTuple(i)` returning the conversion buffer; the contents of a
new buffer are written as zeros. -/
def GetTuple (h : Heap) (this : vtkUnsignedIntArray) (i : Int) :
    Option (List ℚ × vtkUnsignedIntArray) :=
  let this1 :=
    if this.TupleSize < this.NumberOfComponents then
      { this with TupleSize := this.NumberOfComponents,
                  Tuple := List.replicate this.NumberOfComponents.toNat 0 }
    else this
  match fillTuple h this1.Array (this1.NumberOfComponents * i)
      (List.range this1.NumberOfComponents.toNat) this1.Tuple with
  | none => none
  | some t => some (t, { this1 with Tuple := t })

/-- The method `GetTuple(i, float *tuple)`: the values written to `tuple`. -/
def GetTuple_float (h : Heap) (this : vtkUnsignedIntArray) (i : Int) : Option (List ℚ) :=
  loadTuple toFloat h this.Array (this.NumberOfComponents * i)
    (List.range this.NumberOfComponents.toNat)

/-- The method `GetTuple(i, double *tuple)`: the values written to `tuple`. -/
def GetTuple_double (h : Heap) (this : vtkUnsignedIntArray) (i : Int) : Option (List ℚ) :=
  loadTuple toDouble h this.Array (this.NumberOfComponents * i)
    (List.range this.NumberOfComponents.toNat)

/-- The method `SetTuple(i, tuple)`; the `float` and the `double` overload have
the same body and the same model. -/
def SetTuple (h : Heap) (this : vtkUnsignedIntArray) (i : Int) (tuple : List ℚ) : Option Heap :=
  storeTuple this.Array (i * this.NumberOfComponents) tuple
    (List.range this.NumberOfComponents.toNat) h

/-- The method `InsertTuple(i, tuple)` (both overloads). -/
def InsertTuple (h : Heap) (this : vtkUnsignedIntArray) (i : Int) (tuple : List ℚ) :
    Option (Heap × vtkUnsignedIntArray) :=
  match WritePointer h this (i * this.NumberOfComponents) this.NumberOfComponents with
  | none => none
  | some (t, h1, this1) =>
    match storeTuple t.1 t.2 tuple (List.range this1.NumberOfComponents.toNat) h1 with
    | none => none
    | some h2 => some (h2, this1)

/-- The method `InsertNextTuple(tuple)` (both overloads); the first component
is the returned tuple index. The division by zero is undefined. -/
def InsertNextTuple (h : Heap) (this : vtkUnsignedIntArray) (tuple : List ℚ) :
    Option (Int × Heap × vtkUnsignedIntArray) :=
  match WritePointer h this (this.MaxId + 1) this.NumberOfComponents with
  | none => none
  | some (t, h1, this1) =>
    match storeTuple t.1 t.2 tuple (List.range this1.NumberOfComponents.toNat) h1 with
    | none => none
    | some h2 =>
      if this1.NumberOfComponents = 0 then none
      else some (this1.MaxId.tdiv this1.NumberOfComponents, h2, this1)

/-- Modelled from the spec: `GetValue(id)` is declared in
`vtkUnsignedIntArray.h`, which is not part of the sources at hand; it reads the
scalar slot `id` of the storage. -/
def GetValue (h : Heap) (this : vtkUnsignedIntArray) (id : Int) : Option Nat :=
  h.read this.Array id

/-- The method `GetComponent(i, j)`. -/
def GetComponent (h : Heap) (this : vtkUnsignedIntArray) (i j : Int) : Option ℚ :=
  match GetValue h this (i * this.NumberOfComponents + j) with
  | none => none
  | some v => some (toFloat v)

/-- Modelled from the spec: `SetValue(id, value)` is declared in
`vtkUnsignedIntArray.h`, which is not part of the sources at hand; it writes
the scalar slot `id` of the storage and requires the capacity to exist. -/
def SetValue (h : Heap) (this : vtkUnsignedIntArray) (id : Int) (value : Nat) : Option Heap :=
  h.write this.Array id value

/-- Modelled from the spec: `InsertValue(id, i)` is declared in
`vtkUnsignedIntArray.h`, which is not part of the sources at hand. It is the
value-level insertion that "grows storage if needed": storage grows through
`ResizeAndExtend(id + 1)` when `id` is not below the size, the slot is written,
and the highest written index is raised to `id` when that is larger. -/
def InsertValue (h : Heap) (this : vtkUnsignedIntArray) (id : Int) (i : Nat) :
    Option (Heap × vtkUnsignedIntArray) :=
  let grown : Option (Heap × vtkUnsignedIntArray) :=
    if id ≥ this.Size then
      match ResizeAndExtend h this (id + 1) with
      | none => none
      | some (_, h1, this1) => some (h1, this1)
    else some (h, this)
  match grown with
  | none => none
  | some (h1, this1) =>
    match h1.write this1.Array id i with
    | none => none
    | some h2 => some (h2, if id > this1.MaxId then { this1 with MaxId := id } else this1)

/-- The method `SetComponent(i, j, c)`. -/
def SetComponent (h : Heap) (this : vtkUnsignedIntArray) (i j : Int) (c : ℚ) : Option Heap :=
  SetValue h this (i * this.NumberOfComponents + j) (toUnsignedInt c)

/-- The method `InsertComponent(i, j, c)`. -/
def InsertComponent (h : Heap) (this : vtkUnsignedIntArray) (i j : Int) (c : ℚ) :
    Option (Heap × vtkUnsignedIntArray) :=
  InsertValue h this (i * this.NumberOfComponents + j) (toUnsignedInt c)

/-! ## The regression test of the parallel order statistics -/

/-- The statement "Update local extrema" of `RandomOrderStatistics` in
`Infovis/Testing/Cxx/TestRandomPOrderStatisticsMPI.cxx`, for one variable `i`
with `v = v[i]`, `min_l = min_l[i]` and `max_l = max_l[i]`:
`if (v < min_l) min_l = v; else if (v > max_l) max_l = v;`.
The result is the pair `(min_l, max_l)` after the statement. -/
def RandomOrderStatistics.updateLocalExtrema (v min_l max_l : Int) : Int × Int :=
  if v < min_l then (v, max_l)
  else if v > max_l then (min_l, v)
  else (min_l, max_l)

/-- The loop `for (r = 1; r < nVals; ++r)` of `RandomOrderStatistics`, for one
variable, over the values generated in the rounds `r = 1, 2, ...`, in order:
the pair `(min_l, max_l)` when the loop ends. -/
def RandomOrderStatistics.trackLocalExtrema (min_l max_l : Int) : List Int → Int × Int
  | [] => (min_l, max_l)
  | v :: later =>
    RandomOrderStatistics.trackLocalExtrema
      (RandomOrderStatistics.updateLocalExtrema v min_l max_l).1
      (RandomOrderStatistics.updateLocalExtrema v min_l max_l).2 later

/-- The local extrema of one variable as `RandomOrderStatistics` computes them:
`min_l` and `max_l` start at the first generated value and the loop runs over
the values generated later. -/
def RandomOrderStatistics.localExtrema (first : Int) (later : List Int) : Int × Int :=
  RandomOrderStatistics.trackLocalExtrema first first later

/-! ## Predicates on states -/

/-- The scalar stored at index `k` of the array, when there is one. -/
def scalarAt (h : Heap) (this : vtkUnsignedIntArray) (k : Nat) : Option Nat :=
  h.read this.Array k

/-- The storage pointer is `NULL` or designates a live block that holds at
least `Size` elements, and `Size` is not negative. -/
def StorageOk (h : Heap) (this : vtkUnsignedIntArray) : Prop :=
  0 ≤ this.Size ∧
    ∀ a, this.Array = some a → ∃ b, h.block a = some b ∧ this.Size ≤ (b.length : Int)

instance (h : Heap) (this : vtkUnsignedIntArray) : Decidable (StorageOk h this) :=
  decidable_of_iff
    ((decide (0 ≤ this.Size) &&
      (match this.Array with
       | none => true
       | some a =>
         match h.block a with
         | none => false
         | some b => decide (this.Size ≤ (b.length : Int)))) = true)
    (by
      unfold StorageOk
      cases hA : this.Array with
      | none => simp
      | some a =>
        cases hb : h.block a with
        | none => simp [hb]
        | some b => simp [hb])

/-- Every slot below `Size` is backed by memory: the storage is valid and a
null storage pointer comes with size zero. -/
def StorageBacked (h : Heap) (this : vtkUnsignedIntArray) : Prop :=
  StorageOk h this ∧ (this.Array = none → this.Size = 0)

instance (h : Heap) (this : vtkUnsignedIntArray) : Decidable (StorageBacked h this) :=
  decidable_of_iff
    (StorageOk h this ∧ (this.Array.isNone = true → this.Size = 0))
    (by
      unfold StorageBacked
      cases hA : this.Array <;> simp)

/-- A block that the array would release is live: if the storage pointer is
not null and the save flag is clear, the pointer designates a live block. -/
def OwnedLive (h : Heap) (this : vtkUnsignedIntArray) : Prop :=
  ∀ a, this.Array = some a → this.SaveUserArray = 0 → ∃ b, h.block a = some b

instance (h : Heap) (this : vtkUnsignedIntArray) : Decidable (OwnedLive h this) :=
  decidable_of_iff
    ((match this.Array with
      | none => true
      | some a => decide (this.SaveUserArray ≠ 0) || (h.block a).isSome) = true)
    (by
      unfold OwnedLive
      cases hA : this.Array with
      | none => simp
      | some a =>
        cases hb : h.block a with
        | none => simp [hb]
        | some b => simp [hb])

/-- The array owns its storage: the save flag is clear and the storage pointer
designates a live block of exactly `Size` elements. -/
def OwnsStorage (h : Heap) (this : vtkUnsignedIntArray) : Prop :=
  this.SaveUserArray = 0 ∧
    ∃ p b, this.Array = some p ∧ h.block p = some b ∧ (b.length : Int) = this.Size

/-- The array `this` does not own the block that `sa` uses as storage. -/
def NotOwnerOf (this sa : vtkUnsignedIntArray) : Prop :=
  ∀ a, sa.Array = some a → this.Array = some a → this.SaveUserArray ≠ 0

instance (this sa : vtkUnsignedIntArray) : Decidable (NotOwnerOf this sa) :=
  decidable_of_iff
    ((match sa.Array with
      | none => true
      | some a => decide (this.Array ≠ some a) || decide (this.SaveUserArray ≠ 0)) = true)
    (by
      unfold NotOwnerOf
      cases hA : sa.Array with
      | none => simp
      | some a =>
        by_cases hB : this.Array = some a
        · simp [hB]
        · simp [hB])

/-- The highest written index lies below the size. -/
def MaxIdBelowSize (this : vtkUnsignedIntArray) : Prop := this.MaxId < this.Size

instance (this : vtkUnsignedIntArray) : Decidable (MaxIdBelowSize this) :=
  inferInstanceAs (Decidable (this.MaxId < this.Size))

/-- No allocation fails, now or later. -/
def Heap.NeverFails (h : Heap) : Prop := ∀ a, h.fails a = false

/-! ## Closed forms used to state what the methods compute -/

/-- The heap after the guarded release of the owned block. -/
def released (h : Heap) (this : vtkUnsignedIntArray) : Heap :=
  match this.Array with
  | some a => if this.SaveUserArray = 0 then { h with cells := h.cells.set a none } else h
  | none => h

/-- The heap after a reallocation: a new block of `n` elements received the
first `cnt` elements of the old storage, and the old block was released when
the array owned it. -/
def reallocated (h : Heap) (this : vtkUnsignedIntArray) (n cnt : Nat) : Heap :=
  match this.Array with
  | some a =>
    let cells1 := h.cells ++ [some (((h.block a).getD []).take cnt ++ (h.fresh n).drop cnt)]
    { h with cells := if this.SaveUserArray = 0 then cells1.set a none else cells1 }
  | none => { h with cells := h.cells ++ [some (h.fresh n)] }

/-- Successive calls `InsertNextTuple(t)` for the tuples of a list, in order:
the pairs (returned index, `MaxId` after the call) and the final state. -/
def InsertNextTuples (h : Heap) (this : vtkUnsignedIntArray) :
    List (List ℚ) → Option (List (Int × Int) × Heap × vtkUnsignedIntArray)
  | [] => some ([], h, this)
  | t :: ts =>
    match InsertNextTuple h this t with
    | none => none
    | some (r, h1, this1) =>
      match InsertNextTuples h1 this1 ts with
      | none => none
      | some (rs, h2, this2) => some ((r, this1.MaxId) :: rs, h2, this2)

/-! ## Example states -/

/-- An empty heap on which no allocation fails. -/
def emptyHeap : Heap :=
  { cells := [], fails := fun _ => false, junk := fun _ _ => 0 }

/-- An example heap: one live block holding `5, 6, 7`; no allocation fails. -/
def exampleHeap : Heap :=
  { cells := [some [5, 6, 7]], fails := fun _ => false, junk := fun _ _ => 0 }

/-- An example array owning the block of `exampleHeap`, one component per tuple. -/
def exampleArray : vtkUnsignedIntArray :=
  { Array := some 0, Size := 3, MaxId := 2, NumberOfComponents := 1, SaveUserArray := 0,
    TupleSize := 3, Tuple := [0, 0, 0] }

/-- The example array read as pairs: two components per tuple. -/
def examplePairs : vtkUnsignedIntArray :=
  { exampleArray with NumberOfComponents := 2 }

/-- The example array after a single value was written: capacity three,
highest written index zero. -/
def exampleSparse : vtkUnsignedIntArray :=
  { exampleArray with MaxId := 0 }

/-- The example heap on which every allocation fails. -/
def failingHeap : Heap :=
  { exampleHeap with fails := fun _ => true }

/-- The example array when its block is borrowed: the save flag is set. -/
def exampleBorrowed : vtkUnsignedIntArray :=
  { exampleArray with SaveUserArray := 1 }

/-- An example heap: one live block of five elements; no allocation fails. -/
def exampleWideHeap : Heap :=
  { cells := [some [10, 20, 30, 40, 50]], fails := fun _ => false, junk := fun _ _ => 0 }

/-- An example array of one tuple of five components on the block of
`exampleWideHeap`, as the constructor leaves the conversion buffer: three
entries. -/
def exampleWide : vtkUnsignedIntArray :=
  { vtkUnsignedIntArray.ctor 5 with Array := some 0, Size := 5, MaxId := 4 }

/-! ## Lemmas about the free store -/

theorem Heap.block_lt {h : Heap} {a : Nat} {b : Block} (hb : h.block a = some b) :
    a < h.cells.length := by
  unfold Heap.block at hb
  by_contra hlt
  rw [List.getElem?_eq_none (by omega)] at hb
  simp at hb

theorem Heap.block_append (cells l : List (Option Block)) (f : Nat → Bool) (j : Nat → Nat → Nat)
    (a : Nat) (ha : a < cells.length) :
    (Heap.mk (cells ++ l) f j).block a = (Heap.mk cells f j).block a := by
  simp [Heap.block, List.getElem?_append_left ha]

theorem Heap.block_append_new (cells : List (Option Block)) (x : Option Block) (f : Nat → Bool)
    (j : Nat → Nat → Nat) :
    (Heap.mk (cells ++ [x]) f j).block cells.length = x := by
  cases x <;> simp [Heap.block]

theorem Heap.block_set_self (cells : List (Option Block)) (x : Option Block) (f : Nat → Bool)
    (j : Nat → Nat → Nat) (a : Nat) (ha : a < cells.length) :
    (Heap.mk (cells.set a x) f j).block a = x := by
  cases x <;> simp [Heap.block, List.getElem?_set, ha]

theorem Heap.block_set_other (cells : List (Option Block)) (x : Option Block) (f : Nat → Bool)
    (j : Nat → Nat → Nat) (a c : Nat) (hac : a ≠ c) :
    (Heap.mk (cells.set a x) f j).block c = (Heap.mk cells f j).block c := by
  simp [Heap.block, List.getElem?_set, hac]

theorem Heap.fresh_length (h : Heap) (n : Nat) : (h.fresh n).length = n := by
  simp [Heap.fresh]

theorem set_length_append {α : Type} (l : List α) (x y : α) :
    (l ++ [x]).set l.length y = l ++ [y] := by
  induction l with
  | nil => rfl
  | cons a l ih => simp [List.set, ih]

theorem Heap.delete_eq {h : Heap} {a : Nat} {b : Block} (hb : h.block a = some b) :
    h.delete a = some { h with cells := h.cells.set a none } := by
  simp [Heap.delete, hb]

theorem Heap.memcpy_eq {h : Heap} {d s : Nat} {bd bs : Block} {n : Int} (hn : 0 ≤ n)
    (hd : h.block d = some bd) (hs : h.block s = some bs) (hne : d ≠ s)
    (h1 : n.toNat ≤ bd.length) (h2 : n.toNat ≤ bs.length) :
    h.memcpy (some d) (some s) n =
      some { h with cells := h.cells.set d (some (bs.take n.toNat ++ bd.drop n.toNat)) } := by
  unfold Heap.memcpy
  by_cases h0 : n = 0
  · subst h0
    have hd' := hd
    unfold Heap.block at hd'
    have hlt := Heap.block_lt hd
    simp only [if_true, Int.toNat_zero, List.take_zero, List.drop_zero, List.nil_append]
    congr 1
    cases h with
    | mk cells f j =>
      simp only [Heap.mk.injEq, and_true]
      apply List.ext_getElem? 
      intro i
      rw [List.getElem?_set]
      by_cases hi : d = i
      · subst hi
        simp only [if_true, hlt]
        simp only at hd'
        split at hd'
        · rename_i heq
          simp at hd'
          rw [heq, hd']
        · simp at hd'
      · simp [hi]
  · have hneg : ¬ n < 0 := by omega
    simp [h0, hneg, hd, hs, hne, h1, h2]

theorem Heap.new_eq {h : Heap} {n : Int} (hn : 0 ≤ n) (hf : h.fails h.cells.length = false) :
    h.new n = some (some h.cells.length,
      { h with cells := h.cells ++ [some (h.fresh n.toNat)] }) := by
  have : ¬ n < 0 := by omega
  simp [Heap.new, this, hf]

theorem Heap.new_fail {h : Heap} {n : Int} (hn : 0 ≤ n) (hf : h.fails h.cells.length = true) :
    h.new n = some (none, { h with cells := h.cells ++ [none] }) := by
  have : ¬ n < 0 := by omega
  simp [Heap.new, this, hf]

/-- The copy-and-release step shared by the two resizing methods, in closed form. -/
theorem copy_release_eq (h : Heap) (this : vtkUnsignedIntArray) (n cnt : Int)
    (hok : StorageOk h this) (hcnt0 : 0 ≤ cnt) (hcntn : cnt ≤ n) (hcnts : cnt ≤ this.Size) :
    (match this.Array with
      | some a =>
        match (Heap.mk (h.cells ++ [some (h.fresh n.toNat)]) h.fails h.junk).memcpy
            (some h.cells.length) (some a) cnt with
        | none => none
        | some h2 => if this.SaveUserArray = 0 then h2.delete a else some h2
      | none => some (Heap.mk (h.cells ++ [some (h.fresh n.toNat)]) h.fails h.junk)) =
    some (reallocated h this n.toNat cnt.toNat) := by
  cases hA : this.Array with
  | none => simp [reallocated, hA]
  | some a =>
    obtain ⟨b, hb, hlen⟩ := hok.2 a hA
    have ha := Heap.block_lt hb
    have hb1 : (Heap.mk (h.cells ++ [some (h.fresh n.toNat)]) h.fails h.junk).block a = some b := by
      rw [Heap.block_append _ _ _ _ _ ha]; exact hb
    have hnew : (Heap.mk (h.cells ++ [some (h.fresh n.toNat)]) h.fails h.junk).block h.cells.length
        = some (h.fresh n.toNat) := Heap.block_append_new _ _ _ _
    have hm := Heap.memcpy_eq hcnt0 hnew hb1 (by omega) 
      (by rw [Heap.fresh_length]; omega) (by omega)
    simp only [hm, set_length_append]
    by_cases hs : this.SaveUserArray = 0
    · have hb2 : (Heap.mk (h.cells ++ [some (b.take cnt.toNat ++ (h.fresh n.toNat).drop cnt.toNat)])
          h.fails h.junk).block a = some b := by
        rw [Heap.block_append _ _ _ _ _ ha]; exact hb
      simp [hs, Heap.delete_eq hb2, reallocated, hA, hb]
    · simp [hs, reallocated, hA, hb]

theorem ResizeAndExtend_realloc (h : Heap) (this : vtkUnsignedIntArray) (sz newSize : Int)
    (hok : StorageOk h this) (hne : sz ≠ this.Size)
    (hN : newSize = if sz > this.Size then this.Size + sz else sz) (hpos : 0 < newSize)
    (hf : h.fails h.cells.length = false) :
    ResizeAndExtend h this sz =
      some (some h.cells.length, reallocated h this newSize.toNat (min sz this.Size).toNat,
        { this with MaxId := if newSize < this.Size then newSize - 1 else this.MaxId,
                    Size := newSize, Array := some h.cells.length, SaveUserArray := 0 }) := by
  have hsz := hok.1
  have hcnt : (if sz < this.Size then sz else this.Size) = min sz this.Size := by
    split <;> omega
  have hc := copy_release_eq h this newSize (min sz this.Size) hok (by split at hN <;> omega)
    (by split at hN <;> omega) (by omega)
  unfold ResizeAndExtend
  by_cases hgt : sz > this.Size
  · simp only [hgt, if_true] at hN ⊢
    subst hN
    have hnp : ¬ (this.Size + sz ≤ 0) := by omega
    simp only [hnp, if_false, Heap.new_eq (le_of_lt hpos) hf, hcnt, hc]
    have : ¬ (this.Size + sz < this.Size) := by omega
    simp [this]
  · simp only [hgt, if_false, hne] at hN ⊢
    subst hN
    have hnp : ¬ (newSize ≤ 0) := by omega
    simp only [hnp, if_false, Heap.new_eq (le_of_lt hpos) hf, hcnt, hc]
    split <;> rfl

theorem deleteOwned_eq (h : Heap) (this : vtkUnsignedIntArray)
    (hlive : OwnedLive h this) :
    deleteOwned h this = some (released h this) := by
  unfold deleteOwned released
  cases hA : this.Array with
  | none => rfl
  | some a =>
    by_cases hs : this.SaveUserArray = 0
    · obtain ⟨b, hb⟩ := hlive a hA hs
      simp [hs, Heap.delete_eq hb]
    · simp [hs]

theorem StorageOk.live {h : Heap} {this : vtkUnsignedIntArray} (hok : StorageOk h this) :
    OwnedLive h this := by
  intro a ha _
  obtain ⟨b, hb, _⟩ := hok.2 a ha
  exact ⟨b, hb⟩

theorem Initialize_eq (h : Heap) (this : vtkUnsignedIntArray)
    (hlive : OwnedLive h this) :
    Initialize h this = some (released h this,
      { this with Array := none, Size := 0, MaxId := -1, SaveUserArray := 0 }) := by
  simp [Initialize, deleteOwned_eq h this hlive]

theorem scalarAt_some {h : Heap} {this : vtkUnsignedIntArray} {k v : Nat}
    (hv : scalarAt h this k = some v) :
    ∃ a b, this.Array = some a ∧ h.block a = some b ∧ b[k]? = some v := by
  unfold scalarAt Heap.read at hv
  cases hA : this.Array with
  | none => simp [hA] at hv
  | some a =>
    cases hb : h.block a with
    | none => simp [hA, hb] at hv
    | some b =>
      simp [hA, hb] at hv
      exact ⟨a, b, rfl, hb, hv⟩

theorem scalarAt_of_block {h : Heap} {this : vtkUnsignedIntArray} {a : Nat} {b : Block} (k : Nat)
    (hA : this.Array = some a) (hb : h.block a = some b) : scalarAt h this k = b[k]? := by
  simp [scalarAt, Heap.read, hA, hb]

theorem reallocated_block_new (h : Heap) (this : vtkUnsignedIntArray) (n cnt : Nat) {a : Nat}
    {b : Block} (hA : this.Array = some a) (hb : h.block a = some b) :
    (reallocated h this n cnt).block h.cells.length =
      some (b.take cnt ++ (h.fresh n).drop cnt) := by
  have ha := Heap.block_lt hb
  unfold reallocated
  simp only [hA, hb, Option.getD_some]
  split
  · rw [Heap.block_set_other _ _ _ _ _ _ (by omega)]
    exact Heap.block_append_new _ _ _ _
  · exact Heap.block_append_new _ _ _ _

theorem released_length (h : Heap) (this : vtkUnsignedIntArray) :
    (released h this).cells.length = h.cells.length := by
  unfold released
  split
  · split <;> simp
  · rfl

theorem released_block_other (h : Heap) (this : vtkUnsignedIntArray) (c : Nat)
    (hc : this.Array = some c → this.SaveUserArray ≠ 0) :
    (released h this).block c = h.block c := by
  unfold released
  split
  · rename_i a hA
    split
    · rename_i hs
      have : a ≠ c := by
        intro hac
        subst hac
        exact hc hA hs
      exact Heap.block_set_other _ _ _ _ _ _ this
    · rfl
  · rfl

theorem Heap.set_block_self {h : Heap} {a : Nat} {b : Block} (hb : h.block a = some b) :
    ({ h with cells := h.cells.set a (some b) } : Heap) = h := by
  have hlt := Heap.block_lt hb
  cases h with
  | mk cells f j =>
    simp only [Heap.mk.injEq, and_true]
    apply List.ext_getElem?
    intro i
    rw [List.getElem?_set]
    unfold Heap.block at hb
    by_cases hi : a = i
    · subst hi
      simp only [if_true, hlt]
      simp only at hb
      split at hb
      · rename_i heq
        simp at hb
        rw [heq, hb]
      · simp at hb
    · simp [hi]

theorem storeTuple_range' (a : Nat) (loc : Int) (tuple : List ℚ) (hloc : 0 ≤ loc) :
    ∀ (n s : Nat) (h : Heap) (b : Block), h.block a = some b →
      loc.toNat + s + n ≤ b.length → s + n ≤ tuple.length →
      ∃ b1, storeTuple (some a) loc tuple (List.range' s n) h =
          some { h with cells := h.cells.set a (some b1) } ∧
        b1.length = b.length ∧
        ∀ k, b1[k]? = if loc.toNat + s ≤ k ∧ k < loc.toNat + s + n
          then (tuple[k - loc.toNat]?).map toUnsignedInt else b[k]? := by
  intro n
  induction n with
  | zero =>
    intro s h b hb _ _
    refine ⟨b, ?_, rfl, ?_⟩
    · simp only [List.range'_zero, storeTuple]
      rw [Heap.set_block_self hb]
    · intro k
      simp only [Nat.add_zero]
      rw [if_neg (by omega)]
  | succ n ih =>
    intro s h b hb hlen htl
    have hs : s < tuple.length := by omega
    have halt := Heap.block_lt hb
    have hw : h.write (some a) (loc + (s : Int)) (toUnsignedInt tuple[s]) =
        some { h with
          cells := h.cells.set a (some (b.set (loc.toNat + s) (toUnsignedInt tuple[s]))) } := by
      have h1 : (loc + (s : Int)).toNat = loc.toNat + s := by omega
      have h2 : 0 ≤ loc + (s : Int) := by omega
      have h3 : loc.toNat + s < b.length := by omega
      simp [Heap.write, hb, h1, h2, h3]
    have hb1 : (Heap.mk (h.cells.set a (some (b.set (loc.toNat + s) (toUnsignedInt tuple[s]))))
        h.fails h.junk).block a = some (b.set (loc.toNat + s) (toUnsignedInt tuple[s])) :=
      Heap.block_set_self _ _ _ _ _ halt
    obtain ⟨b1, he, hl, hk⟩ := ih (s + 1) _ _ hb1 (by simp; omega) (by omega)
    refine ⟨b1, ?_, by simpa using hl, ?_⟩
    · simp only [List.range', storeTuple, List.getElem?_eq_getElem hs, hw, he, List.set_set]
    · intro k
      rw [hk k, List.getElem?_set]
      by_cases hk1 : loc.toNat + (s + 1) ≤ k ∧ k < loc.toNat + (s + 1) + n
      · have : loc.toNat + s ≤ k ∧ k < loc.toNat + s + (n + 1) := by omega
        simp [hk1, this]
      · by_cases hk2 : loc.toNat + s = k
        · have : loc.toNat + s ≤ k ∧ k < loc.toNat + s + (n + 1) := by omega
          have h3 : loc.toNat + s < b.length := by omega
          have h4 : k - loc.toNat = s := by omega
          simp [hk1, this, hk2, h4, List.getElem?_eq_getElem hs]
          omega
        · have : ¬ (loc.toNat + s ≤ k ∧ k < loc.toNat + s + (n + 1)) := by omega
          simp [hk1, this, hk2]

theorem reallocated_fails (h : Heap) (this : vtkUnsignedIntArray) (n cnt : Nat) :
    (reallocated h this n cnt).fails = h.fails := by
  unfold reallocated
  split <;> rfl

theorem reallocated_length (h : Heap) (this : vtkUnsignedIntArray) (n cnt : Nat) :
    (reallocated h this n cnt).cells.length = h.cells.length + 1 := by
  unfold reallocated
  split
  · simp only
    split <;> simp
  · simp

theorem reallocated_block_null (h : Heap) (this : vtkUnsignedIntArray) (n cnt : Nat)
    (hA : this.Array = none) :
    (reallocated h this n cnt).block h.cells.length = some (h.fresh n) := by
  unfold reallocated
  simp only [hA]
  exact Heap.block_append_new _ _ _ _

theorem reallocated_backed (h : Heap) (this : vtkUnsignedIntArray) (n cnt : Nat)
    (hB : StorageBacked h this) (hc1 : cnt ≤ n) (hc2 : (cnt : Int) ≤ this.Size) :
    ∃ b1, (reallocated h this n cnt).block h.cells.length = some b1 ∧ b1.length = n ∧
      ∀ k, k < cnt → b1[k]? = scalarAt h this k := by
  cases hA : this.Array with
  | none =>
    have hz := hB.2 hA
    refine ⟨_, reallocated_block_null h this n cnt hA, Heap.fresh_length h n, ?_⟩
    intro k hk
    omega
  | some a =>
    obtain ⟨b, hb, hlen⟩ := hB.1.2 a hA
    refine ⟨_, reallocated_block_new h this n cnt hA hb, ?_, ?_⟩
    · simp [Heap.fresh_length]
      omega
    · intro k hk
      rw [scalarAt_of_block k hA hb, List.getElem?_append_left (by simp; omega),
        List.getElem?_take]
      simp [hk]

theorem WritePointer_fits (h : Heap) (this : vtkUnsignedIntArray) (id number : Int)
    (hfit : id + number ≤ this.Size) :
    WritePointer h this id number = some ((this.Array, id), h,
      { this with
        MaxId := if id + number - 1 > this.MaxId then id + number - 1 else this.MaxId }) := by
  unfold WritePointer
  have hng : ¬ (id + number > this.Size) := by omega
  simp only [hng, if_false]
  split <;> rfl

theorem WritePointer_grows (h : Heap) (this : vtkUnsignedIntArray) (id number : Int)
    (hok : StorageOk h this) (hgrow : this.Size < id + number)
    (hf : h.fails h.cells.length = false) :
    WritePointer h this id number = some ((some h.cells.length, id),
      reallocated h this (this.Size + (id + number)).toNat this.Size.toNat,
      { this with MaxId := if id + number - 1 > this.MaxId then id + number - 1 else this.MaxId,
                  Size := this.Size + (id + number), Array := some h.cells.length,
                  SaveUserArray := 0 }) := by
  have hsz := hok.1
  have hR := ResizeAndExtend_realloc h this (id + number) (this.Size + (id + number)) hok
    (by omega) (by simp [hgrow]) (by omega) hf
  have hmin : min (id + number) this.Size = this.Size := by omega
  have hlt : ¬ (this.Size + (id + number) < this.Size) := by omega
  unfold WritePointer
  simp only [gt_iff_lt, hgrow, if_true, hR, hmin, hlt, if_false]
  split <;> rfl

/-- Effect of `WritePointer(id, number)` followed by the store loop. -/
theorem writeTuple_step (h : Heap) (this : vtkUnsignedIntArray) (id number : Int)
    (tuple : List ℚ) (hB : StorageBacked h this)
    (hf : this.Size < id + number → h.fails h.cells.length = false)
    (hid : 0 ≤ id) (hnum : 1 ≤ number) (htl : number.toNat ≤ tuple.length) :
    ∃ h1 this1 h2, WritePointer h this id number = some ((this1.Array, id), h1, this1) ∧
      storeTuple this1.Array id tuple (List.range number.toNat) h1 = some h2 ∧
      this1.MaxId = max this.MaxId (id + number - 1) ∧
      this1.NumberOfComponents = this.NumberOfComponents ∧
      StorageBacked h2 this1 ∧ h2.fails = h.fails ∧ id + number ≤ this1.Size ∧
      (id + number ≤ this.Size → this1.Size = this.Size ∧ this1.Array = this.Array ∧
        this1.SaveUserArray = this.SaveUserArray ∧ h2.cells.length = h.cells.length) ∧
      (this.Size < id + number → this1.Size = this.Size + (id + number) ∧
        this1.SaveUserArray = 0) ∧
      (∀ k : Nat, (k : Int) < this.Size → ¬ (id ≤ (k : Int) ∧ (k : Int) < id + number) →
        scalarAt h2 this1 k = scalarAt h this k) ∧
      (∀ j : Nat, (j : Int) < number →
        scalarAt h2 this1 (id.toNat + j) = (tuple[j]?).map toUnsignedInt) := by
  have hsz := hB.1.1
  have hmax : (if id + number - 1 > this.MaxId then id + number - 1 else this.MaxId) =
      max this.MaxId (id + number - 1) := by
    split <;> omega
  by_cases hfit : id + number ≤ this.Size
  · cases hA : this.Array with
    | none => have hz := hB.2 hA; omega
    | some a =>
      obtain ⟨b, hb, hlen⟩ := hB.1.2 a hA
      obtain ⟨b1, hst, hl1, hk1⟩ := storeTuple_range' a id tuple hid number.toNat 0 h b hb
        (by omega) (by omega)
      rw [← List.range_eq_range'] at hst
      have hb2 : (Heap.mk (h.cells.set a (some b1)) h.fails h.junk).block a = some b1 :=
        Heap.block_set_self _ _ _ _ _ (Heap.block_lt hb)
      refine ⟨h, ({ this with MaxId :=
          if id + number - 1 > this.MaxId then id + number - 1 else this.MaxId } :
            vtkUnsignedIntArray), (Heap.mk (h.cells.set a (some b1)) h.fails h.junk),
        ?_, ?_, hmax, rfl, ⟨⟨hsz, ?_⟩, ?_⟩, rfl, hfit, ?_, ?_, ?_, ?_⟩
      · rw [WritePointer_fits h this id number hfit]
      · simpa [hA] using hst
      · intro a1 ha1
        have he : a1 = a := by simpa [hA] using ha1.symm
        subst he
        exact ⟨b1, hb2, by rw [hl1]; exact hlen⟩
      · intro hn
        simp [hA] at hn
      · intro _
        exact ⟨rfl, hA, rfl, by simp⟩
      · intro hc; omega
      · intro k hk hnot
        show scalarAt (Heap.mk (h.cells.set a (some b1)) h.fails h.junk) this k = _
        rw [scalarAt_of_block k hA hb2, scalarAt_of_block k hA hb, hk1 k, if_neg (by omega)]
      · intro j hj
        show scalarAt (Heap.mk (h.cells.set a (some b1)) h.fails h.junk) this _ = _
        rw [scalarAt_of_block _ hA hb2, hk1, if_pos (by omega)]
        simp
  · have hgrow : this.Size < id + number := by omega
    obtain ⟨b0, hb0, hl0, hk0⟩ := reallocated_backed h this (this.Size + (id + number)).toNat
      this.Size.toNat hB (by omega) (by omega)
    obtain ⟨b1, hst, hl1, hk1⟩ := storeTuple_range' h.cells.length id tuple hid number.toNat 0 _
      b0 hb0 (by omega) (by omega)
    rw [← List.range_eq_range'] at hst
    have hb2 := Heap.block_set_self
      (reallocated h this (this.Size + (id + number)).toNat this.Size.toNat).cells (some b1)
      (reallocated h this (this.Size + (id + number)).toNat this.Size.toNat).fails
      (reallocated h this (this.Size + (id + number)).toNat this.Size.toNat).junk
      h.cells.length (Heap.block_lt hb0)
    refine ⟨_, ({ this with
        MaxId := if id + number - 1 > this.MaxId then id + number - 1 else this.MaxId,
        Size := this.Size + (id + number), Array := some h.cells.length,
        SaveUserArray := 0 } : vtkUnsignedIntArray), _,
      WritePointer_grows h this id number hB.1 hgrow (hf hgrow), hst, hmax, rfl,
      ⟨⟨?_, ?_⟩, ?_⟩, ?_, ?_, ?_, ?_, ?_, ?_⟩
    · show 0 ≤ this.Size + (id + number)
      omega
    · intro a1 ha1
      have he : a1 = h.cells.length := by simpa using ha1.symm
      subst he
      refine ⟨b1, hb2, ?_⟩
      show this.Size + (id + number) ≤ _
      omega
    · intro hn
      simp at hn
    · exact reallocated_fails _ _ _ _
    · show id + number ≤ this.Size + (id + number)
      omega
    · intro hc; omega
    · intro _
      exact ⟨rfl, rfl⟩
    · intro k hk hnot
      rw [scalarAt_of_block k rfl hb2, hk1 k, if_neg (by omega), hk0 k (by omega)]
    · intro j hj
      rw [scalarAt_of_block _ rfl hb2, hk1, if_pos (by omega)]
      simp

theorem tdiv_last (m : Nat) (c : Int) (hc : 1 ≤ c) : (((m : Int) + 1) * c - 1).tdiv c = m := by
  have h1 : 0 ≤ ((m : Int) + 1) * c - 1 := by nlinarith
  rw [Int.tdiv_eq_ediv h1 (by omega)]
  have h2 : ((m : Int) + 1) * c - 1 = (c - 1) + c * m := by ring
  rw [h2, Int.add_mul_ediv_left _ _ (by omega), Int.ediv_eq_zero_of_lt (by omega) (by omega)]
  simp

theorem InsertNextTuple_step (h : Heap) (this : vtkUnsignedIntArray) (tuple : List ℚ)
    (hB : StorageBacked h this)
    (hf : this.Size < this.MaxId + 1 + this.NumberOfComponents → h.fails h.cells.length = false)
    (hc : 1 ≤ this.NumberOfComponents) (hm : -1 ≤ this.MaxId)
    (htl : this.NumberOfComponents.toNat ≤ tuple.length) :
    ∃ h2 this1, InsertNextTuple h this tuple =
        some ((this.MaxId + this.NumberOfComponents).tdiv this.NumberOfComponents, h2, this1) ∧
      this1.MaxId = this.MaxId + this.NumberOfComponents ∧
      this1.NumberOfComponents = this.NumberOfComponents ∧
      StorageBacked h2 this1 ∧ h2.fails = h.fails ∧
      this.MaxId + 1 + this.NumberOfComponents ≤ this1.Size ∧
      (this.MaxId + 1 + this.NumberOfComponents ≤ this.Size → this1.Size = this.Size ∧
        this1.Array = this.Array ∧ this1.SaveUserArray = this.SaveUserArray ∧
        h2.cells.length = h.cells.length) ∧
      (this.Size < this.MaxId + 1 + this.NumberOfComponents →
        this1.Size = this.Size + (this.MaxId + 1 + this.NumberOfComponents) ∧
        this1.SaveUserArray = 0) ∧
      (∀ k : Nat, (k : Int) < this.Size → (k : Int) ≤ this.MaxId →
        scalarAt h2 this1 k = scalarAt h this k) ∧
      (∀ j : Nat, (j : Int) < this.NumberOfComponents →
        scalarAt h2 this1 ((this.MaxId + 1).toNat + j) = (tuple[j]?).map toUnsignedInt) := by
  obtain ⟨h1, this1, h2, hW, hS, hmax, hcomp, hB2, hfails, hsize, hfit, hgrow, hold, hnew⟩ :=
    writeTuple_step h this (this.MaxId + 1) this.NumberOfComponents tuple hB hf (by omega) hc htl
  have hM : this1.MaxId = this.MaxId + this.NumberOfComponents := by
    rw [hmax]; omega
  have hne : ¬ this.NumberOfComponents = 0 := by omega
  refine ⟨h2, this1, ?_, hM, hcomp, hB2, hfails, hsize, hfit, hgrow, ?_, hnew⟩
  · unfold InsertNextTuple
    simp only [hW, hcomp, hS, hne, if_false, hM]
  · intro k hk hkm
    exact hold k hk (by omega)

theorem InsertNextTuples_spec (tuples : List (List ℚ)) :
    ∀ (h : Heap) (this : vtkUnsignedIntArray) (m : Nat), StorageBacked h this →
      1 ≤ this.NumberOfComponents → this.MaxId = (m : Int) * this.NumberOfComponents - 1 →
      (m : Int) * this.NumberOfComponents ≤ this.Size →
      (this.Size < ((m : Int) + tuples.length) * this.NumberOfComponents → h.NeverFails) →
      (∀ t ∈ tuples, this.NumberOfComponents.toNat ≤ t.length) →
      ∃ h1 this1, InsertNextTuples h this tuples =
          some ((List.range' m tuples.length).map
            (fun (i : Nat) => ((i : Int), ((i : Int) + 1) * this.NumberOfComponents - 1)),
            h1, this1) ∧
        this1.MaxId = ((m : Int) + tuples.length) * this.NumberOfComponents - 1 ∧
        this1.NumberOfComponents = this.NumberOfComponents ∧
        StorageBacked h1 this1 ∧
        ((m : Int) + tuples.length) * this.NumberOfComponents ≤ this1.Size ∧
        (((m : Int) + tuples.length) * this.NumberOfComponents ≤ this.Size →
          this1.Size = this.Size ∧ this1.Array = this.Array ∧
          this1.SaveUserArray = this.SaveUserArray) ∧
        (∀ k : Nat, (k : Int) < (m : Int) * this.NumberOfComponents →
          scalarAt h1 this1 k = scalarAt h this k) ∧
        (∀ i j : Nat, i < tuples.length → (j : Int) < this.NumberOfComponents →
          scalarAt h1 this1 ((m + i) * this.NumberOfComponents.toNat + j) =
            ((tuples[i]?).bind (fun t => t[j]?)).map toUnsignedInt) := by
  induction tuples with
  | nil =>
    intro h this m hB hc hM hS _ _
    refine ⟨h, this, rfl, by simpa using hM, rfl, hB, by simpa using hS, fun _ => ⟨rfl, rfl, rfl⟩,
      fun _ _ => rfl, ?_⟩
    intro i j hi
    simp at hi
  | cons t ts ih =>
    intro h this m hB hc hM hS hF hT
    have hlen : (((t :: ts).length : Nat) : Int) = (ts.length : Int) + 1 := by simp
    have hpos : 0 ≤ (ts.length : Int) * this.NumberOfComponents :=
      mul_nonneg (by omega) (by omega)
    have hexp : ((m : Int) + ((ts.length : Int) + 1)) * this.NumberOfComponents =
        (m : Int) * this.NumberOfComponents + this.NumberOfComponents +
          (ts.length : Int) * this.NumberOfComponents := by ring
    obtain ⟨h2, this1, hI, hM1, hC1, hB1, hf1, hsz1, hfit1, hgrow1, hold1, hnew1⟩ :=
      InsertNextTuple_step h this t hB
        (fun hlt => hF (by rw [hlen, hexp]; omega) _) hc (by rw [hM]; nlinarith)
        (hT t (List.mem_cons_self _ _))
    have hM1' : this1.MaxId = ((m + 1 : Nat) : Int) * this1.NumberOfComponents - 1 := by
      rw [hM1, hC1, hM]; push_cast; ring
    have hexp1 : (((m + 1 : Nat) : Int) + (ts.length : Int)) * this.NumberOfComponents =
        (m : Int) * this.NumberOfComponents + this.NumberOfComponents +
          (ts.length : Int) * this.NumberOfComponents := by push_cast; ring
    have hexp2 : ((m + 1 : Nat) : Int) * this.NumberOfComponents =
        (m : Int) * this.NumberOfComponents + this.NumberOfComponents := by push_cast; ring
    obtain ⟨h3, this2, hI2, hM2, hC2, hB2, hsz2, hfit2, hold2, hnew2⟩ :=
      ih h2 this1 (m + 1) hB1 (by rw [hC1]; exact hc) hM1'
        (by rw [hC1, hexp2]; rw [hM] at hsz1; omega)
        (by
          intro hlt a
          rw [hf1]
          refine hF ?_ a
          rw [hlen, hexp]
          rw [hC1, hexp1] at hlt
          by_contra hcon
          have hfitS : this.MaxId + 1 + this.NumberOfComponents ≤ this.Size := by
            rw [hM]; omega
          rw [(hfit1 hfitS).1] at hlt
          omega)
        (by
          intro t1 ht1
          rw [hC1]
          exact hT t1 (List.mem_cons_of_mem _ ht1))
    rw [hC1] at hI2 hM2 hC2 hsz2 hfit2 hold2 hnew2
    refine ⟨h3, this2, ?_, ?_, hC2, hB2, ?_, ?_, ?_, ?_⟩
    · simp only [InsertNextTuples, hI, hI2, List.length_cons, List.range', List.map_cons, hM1]
      have hr : (this.MaxId + this.NumberOfComponents).tdiv this.NumberOfComponents
          = (m : Int) := by
        have e : this.MaxId + this.NumberOfComponents =
            ((m : Int) + 1) * this.NumberOfComponents - 1 := by rw [hM]; ring
        rw [e]
        exact tdiv_last m this.NumberOfComponents hc
      rw [hr, hM]
      congr 4
      ring
    · rw [hM2, hlen, hexp, hexp1]
    · rw [hlen, hexp]; rw [hexp1] at hsz2; exact hsz2
    · intro hle
      rw [hlen, hexp] at hle
      have hfitS : this.MaxId + 1 + this.NumberOfComponents ≤ this.Size := by
        rw [hM]; omega
      obtain ⟨e1, e2, e3, _⟩ := hfit1 hfitS
      obtain ⟨g1, g2, g3⟩ := hfit2 (by rw [hexp1, e1]; exact hle)
      exact ⟨g1.trans e1, g2.trans e2, g3.trans e3⟩
    · intro k hk
      rw [hold2 k (by rw [hexp2]; omega)]
      exact hold1 k (by omega) (by rw [hM]; omega)
    · intro i j hi hj
      have hct : ((this.NumberOfComponents.toNat : Nat) : Int) = this.NumberOfComponents := by
        omega
      cases i with
      | zero =>
        have hidx : (this.MaxId + 1).toNat + j = (m + 0) * this.NumberOfComponents.toNat + j := by
          have hcast : this.MaxId + 1 = ((m * this.NumberOfComponents.toNat : Nat) : Int) := by
            rw [hM, Nat.cast_mul, hct]; ring
          rw [hcast, Int.toNat_ofNat]
          simp
        rw [hold2 _ (by
          rw [hexp2, Nat.cast_add, Nat.cast_mul, hct]; simp only [Nat.add_zero]; omega)]
        rw [← hidx, hnew1 j hj]
        simp
      | succ i =>
        have hn := hnew2 i j (by simpa using hi) hj
        rw [show m + (i + 1) = m + 1 + i by omega, hn]
        simp

theorem ctor_backed (h : Heap) (numComp : Int) :
    StorageBacked h (vtkUnsignedIntArray.ctor numComp) :=
  ⟨⟨le_refl _, fun a ha => by simp [vtkUnsignedIntArray.ctor] at ha⟩, fun _ => rfl⟩

theorem Allocate_grows (h : Heap) (this : vtkUnsignedIntArray) (sz : Int)
    (hlive : OwnedLive h this)
    (hgt : sz > this.Size) (hf : h.fails h.cells.length = false) :
    Allocate h this sz = some (1,
      { released h this with cells := (released h this).cells ++
          [some ((released h this).fresh (if sz > 0 then sz else 1).toNat)] },
      { this with Size := if sz > 0 then sz else 1, Array := some h.cells.length,
                  SaveUserArray := 0, MaxId := -1 }) := by
  have hf1 : (released h this).fails (released h this).cells.length = false := by
    rw [released_length]
    unfold released
    split
    · split <;> exact hf
    · exact hf
  have hn : (0 : Int) ≤ if sz > 0 then sz else 1 := by split <;> omega
  unfold Allocate
  simp only [hgt, if_true, deleteOwned_eq h this hlive, Heap.new_eq hn hf1, released_length]

theorem toUnsignedInt_lt (x : ℚ) : toUnsignedInt x < 2 ^ 32 := by
  unfold toUnsignedInt
  have h1 : 0 ≤ (x.num.tdiv x.den) % 2 ^ 32 := Int.emod_nonneg _ (by norm_num)
  have h2 : (x.num.tdiv x.den) % 2 ^ 32 < 2 ^ 32 := Int.emod_lt_of_pos _ (by norm_num)
  omega

theorem roundToBits_of_lt (p u : Nat) (hu : u < 2 ^ p) : roundToBits p u = u := by
  simp [roundToBits, hu]

theorem toDouble_toUnsignedInt (x : ℚ) : toDouble (toUnsignedInt x) = (toUnsignedInt x : ℚ) := by
  unfold toDouble
  rw [roundToBits_of_lt]
  exact lt_of_lt_of_le (toUnsignedInt_lt x) (by norm_num)

theorem loadTuple_range' (cast : Nat → ℚ) (h : Heap) (a : Nat) (loc : Int) (b : Block)
    (hb : h.block a = some b) (hloc : 0 ≤ loc) (f : Nat → Nat) :
    ∀ (n s : Nat), (∀ j, s ≤ j → j < s + n → b[loc.toNat + j]? = some (f j)) →
      loadTuple cast h (some a) loc (List.range' s n) =
        some ((List.range' s n).map (fun j => cast (f j))) := by
  intro n
  induction n with
  | zero => intro s _; rfl
  | succ n ih =>
    intro s hf
    have hr : h.read (some a) (loc + (s : Int)) = some (f s) := by
      have h1 : (loc + (s : Int)).toNat = loc.toNat + s := by omega
      have h2 : ¬ (loc + (s : Int) < 0) := by omega
      simp [Heap.read, hb, h1, h2, hf s (le_refl _) (by omega)]
    simp only [List.range', loadTuple, hr, List.map_cons,
      ih (s + 1) (fun j h1 h2 => hf j (by omega) (by omega))]

theorem map_range_getD (g : ℚ → ℚ) (l : List ℚ) :
    (List.range' 0 l.length).map (fun j => g (l.getD j 0)) = l.map g := by
  apply List.ext_getElem?
  intro i
  by_cases hi : i < l.length
  · simp [List.getElem?_range', hi, List.getD_eq_getElem?_getD, List.getElem?_eq_getElem hi]
  · simp [List.getElem?_range', hi, List.getElem?_eq_none (not_lt.mp hi)]
    omega

theorem reallocated_ok (h : Heap) (this : vtkUnsignedIntArray) (n cnt : Nat)
    (hok : StorageOk h this) (hc1 : cnt ≤ n) (hc2 : (cnt : Int) ≤ this.Size) :
    ∃ b1, (reallocated h this n cnt).block h.cells.length = some b1 ∧ b1.length = n ∧
      ∀ k, k < cnt → ∀ v, scalarAt h this k = some v → b1[k]? = some v := by
  cases hA : this.Array with
  | none =>
    refine ⟨_, reallocated_block_null h this n cnt hA, Heap.fresh_length h n, ?_⟩
    intro k _ v hv
    simp [scalarAt, Heap.read, hA] at hv
  | some a =>
    obtain ⟨b, hb, hlen⟩ := hok.2 a hA
    refine ⟨_, reallocated_block_new h this n cnt hA hb, ?_, ?_⟩
    · simp [Heap.fresh_length]
      omega
    · intro k hk v hv
      rw [scalarAt_of_block k hA hb] at hv
      rw [List.getElem?_append_left (by simp; omega), List.getElem?_take]
      simp [hk, hv]

theorem Resize_realloc (h : Heap) (this : vtkUnsignedIntArray) (sz : Int)
    (hok : StorageOk h this) (hne : sz * this.NumberOfComponents ≠ this.Size)
    (hpos : 0 < sz * this.NumberOfComponents) (hf : h.fails h.cells.length = false) :
    Resize h this sz =
      some (reallocated h this (sz * this.NumberOfComponents).toNat
          (min (sz * this.NumberOfComponents) this.Size).toNat,
        { this with MaxId := if sz * this.NumberOfComponents < this.Size
                      then sz * this.NumberOfComponents - 1 else this.MaxId,
                    Size := sz * this.NumberOfComponents, Array := some h.cells.length,
                    SaveUserArray := 0 }) := by
  have hsz := hok.1
  have hcnt : (if sz * this.NumberOfComponents < this.Size then sz * this.NumberOfComponents
      else this.Size) = min (sz * this.NumberOfComponents) this.Size := by
    split <;> omega
  have hc := copy_release_eq h this (sz * this.NumberOfComponents)
    (min (sz * this.NumberOfComponents) this.Size) hok (by omega) (by omega) (by omega)
  unfold Resize
  have hnp : ¬ (sz * this.NumberOfComponents ≤ 0) := by omega
  simp only [hne, hnp, if_false, Heap.new_eq (le_of_lt hpos) hf, hcnt, hc]
  split <;> rfl

theorem ResizeAndExtend_release (h : Heap) (this : vtkUnsignedIntArray) (sz : Int)
    (hok : StorageOk h this) (hlt : sz < this.Size) (hle : sz ≤ 0) :
    ResizeAndExtend h this sz = some (none, released h this,
      { this with Array := none, Size := 0, MaxId := -1, SaveUserArray := 0 }) := by
  unfold ResizeAndExtend
  have h1 : ¬ sz > this.Size := by omega
  have h2 : ¬ sz = this.Size := by omega
  simp [h1, h2, hle, Initialize_eq h this hok.live]

theorem bitLengthAux_spec : ∀ (fuel u : Nat), u ≤ fuel →
    u < 2 ^ bitLengthAux fuel u ∧ (u ≠ 0 → 2 ^ (bitLengthAux fuel u - 1) ≤ u) := by
  intro fuel
  induction fuel with
  | zero =>
    intro u hu
    have h0 : u = 0 := by omega
    subst h0
    simp [bitLengthAux]
  | succ fuel ih =>
    intro u hu
    by_cases h0 : u = 0
    · subst h0
      simp [bitLengthAux]
    · obtain ⟨h1, h2⟩ := ih (u / 2) (by omega)
      simp only [bitLengthAux, h0, if_false, Nat.add_sub_cancel]
      constructor
      · rw [pow_succ]
        omega
      · intro _
        by_cases h3 : u / 2 = 0
        · have hb : bitLengthAux fuel (u / 2) = 0 := by
            rw [h3]
            cases fuel <;> simp [bitLengthAux]
          rw [hb]
          simp
          omega
        · have h4 := h2 h3
          have hpos : 1 ≤ bitLengthAux fuel (u / 2) := by
            by_contra hcon
            have hz : bitLengthAux fuel (u / 2) = 0 := by omega
            rw [hz] at h1
            simp at h1
            exact h3 h1
          have he : bitLengthAux fuel (u / 2) = (bitLengthAux fuel (u / 2) - 1) + 1 := by omega
          rw [he, pow_succ]
          omega

/-- A positive `u` has exactly `bitLength u` binary digits. -/
theorem bitLength_spec (u : Nat) (hu : u ≠ 0) :
    2 ^ (bitLength u - 1) ≤ u ∧ u < 2 ^ bitLength u :=
  ⟨(bitLengthAux_spec u u (le_refl u)).2 hu, (bitLengthAux_spec u u (le_refl u)).1⟩

/-- The rounding is to a nearest multiple of `2^e`, where `e` is the number of
binary digits of `u` in excess of `p`: the result is such a multiple and lies
within half a unit of `u`. -/
theorem roundToBits_nearest (p u : Nat) (hu : 2 ^ p ≤ u) :
    2 ^ (bitLength u - p) ∣ roundToBits p u ∧
    u ≤ roundToBits p u + 2 ^ (bitLength u - p - 1) ∧
    roundToBits p u ≤ u + 2 ^ (bitLength u - p - 1) := by
  have hu0 : u ≠ 0 := by
    have : 0 < 2 ^ p := Nat.pow_pos (by decide)
    omega
  have hlt := (bitLength_spec u hu0).2
  have hbl : p < bitLength u := by
    by_contra hcon
    have : 2 ^ bitLength u ≤ 2 ^ p := Nat.pow_le_pow_right (by decide) (by omega)
    omega
  have he : bitLength u - p = (bitLength u - p - 1) + 1 := by omega
  have hE : 2 ^ (bitLength u - p) = 2 * 2 ^ (bitLength u - p - 1) := by
    rw [he, pow_succ]
    simp
    ring
  have hdm := Nat.div_add_mod u (2 ^ (bitLength u - p))
  have hr : u % 2 ^ (bitLength u - p) < 2 ^ (bitLength u - p) :=
    Nat.mod_lt _ (Nat.pow_pos (by decide))
  have hnl : ¬ u < 2 ^ p := by omega
  simp only [roundToBits, hnl, if_false]
  generalize hq : u / 2 ^ (bitLength u - p) = q at hdm ⊢
  generalize hrr : u % 2 ^ (bitLength u - p) = r at hdm hr ⊢
  generalize hH : 2 ^ (bitLength u - p - 1) = H at hE ⊢
  generalize hEE : 2 ^ (bitLength u - p) = E at hE hdm hr ⊢
  have hmul : (q + 1) * E = q * E + E := by ring
  have hcomm : E * q = q * E := Nat.mul_comm _ _
  rw [hcomm] at hdm
  split
  · exact ⟨Dvd.intro_left _ rfl, by omega, by omega⟩
  · split
    · exact ⟨Dvd.intro_left _ rfl, by rw [hmul]; omega, by rw [hmul]; omega⟩
    · split
      · exact ⟨Dvd.intro_left _ rfl, by omega, by omega⟩
      · exact ⟨Dvd.intro_left _ rfl, by rw [hmul]; omega, by rw [hmul]; omega⟩

theorem ResizeAndExtend_nonpositive_eq (h : Heap) (this : vtkUnsignedIntArray) (sz : Int)
    (hlive : OwnedLive h this) (hlt : sz < this.Size) (hle : sz ≤ 0) :
    ResizeAndExtend h this sz = some (none, released h this,
      { this with Array := none, Size := 0, MaxId := -1, SaveUserArray := 0 }) := by
  unfold ResizeAndExtend
  have h1 : ¬ sz > this.Size := by omega
  have h2 : ¬ sz = this.Size := by omega
  simp [h1, h2, hle, Initialize_eq h this hlive]

theorem released_fails (h : Heap) (this : vtkUnsignedIntArray) :
    (released h this).fails = h.fails := by
  unfold released
  split
  · split <;> rfl
  · rfl

theorem released_block_owned (h : Heap) (this : vtkUnsignedIntArray) (a : Nat)
    (hA : this.Array = some a) (hs : this.SaveUserArray = 0) :
    (released h this).block a = none := by
  unfold released
  simp only [hA, hs, if_true]
  by_cases ha : a < h.cells.length
  · exact Heap.block_set_self _ _ _ _ _ ha
  · simp [Heap.block, List.getElem?_eq_none]
    rw [List.getElem?_eq_none (by simp; omega)]

theorem Allocate_fails (h : Heap) (this : vtkUnsignedIntArray) (sz : Int)
    (hlive : OwnedLive h this) (hgt : sz > this.Size) (hf : h.fails h.cells.length = true) :
    Allocate h this sz = some (0,
      { released h this with cells := (released h this).cells ++ [none] },
      { this with Size := if sz > 0 then sz else 1, Array := none }) := by
  have hf1 : (released h this).fails (released h this).cells.length = true := by
    rw [released_length, released_fails]; exact hf
  have hn : (0 : Int) ≤ if sz > 0 then sz else 1 := by split <;> omega
  unfold Allocate
  simp only [hgt, if_true, deleteOwned_eq h this hlive, Heap.new_fail hn hf1]

theorem Heap.block_cells_append (h : Heap) (l : List (Option Block)) (a : Nat)
    (ha : a < h.cells.length) :
    ({ h with cells := h.cells ++ l } : Heap).block a = h.block a :=
  Heap.block_append h.cells l h.fails h.junk a ha

theorem ResizeAndExtend_same (h : Heap) (this : vtkUnsignedIntArray) :
    ResizeAndExtend h this this.Size = some (this.Array, h, this) := by
  simp [ResizeAndExtend]

theorem ResizeAndExtend_alloc_fails (h : Heap) (this : vtkUnsignedIntArray) (sz : Int)
    (hne : sz ≠ this.Size) (hpos : 0 < (if sz > this.Size then this.Size + sz else sz))
    (hf : h.fails h.cells.length = true) :
    ResizeAndExtend h this sz = some (none, { h with cells := h.cells ++ [none] }, this) := by
  unfold ResizeAndExtend
  by_cases hgt : sz > this.Size
  · simp only [hgt, if_true] at hpos ⊢
    simp [not_le.mpr hpos, Heap.new_fail (le_of_lt hpos) hf]
  · simp only [hgt, if_false, hne] at hpos ⊢
    simp [not_le.mpr hpos, Heap.new_fail (le_of_lt hpos) hf]

theorem ResizeAndExtend_initializes (h : Heap) (this : vtkUnsignedIntArray) (sz : Int)
    (hlive : OwnedLive h this) (hne : sz ≠ this.Size)
    (hle : (if sz > this.Size then this.Size + sz else sz) ≤ 0) :
    ResizeAndExtend h this sz = some (none, released h this,
      { this with Array := none, Size := 0, MaxId := -1, SaveUserArray := 0 }) := by
  unfold ResizeAndExtend
  by_cases hgt : sz > this.Size
  · simp only [hgt, if_true] at hle ⊢
    simp [hle, Initialize_eq h this hlive]
  · simp only [hgt, if_false, hne] at hle ⊢
    simp [hle, Initialize_eq h this hlive]

theorem Resize_same (h : Heap) (this : vtkUnsignedIntArray) (sz : Int)
    (heq : sz * this.NumberOfComponents = this.Size) : Resize h this sz = some (h, this) := by
  simp [Resize, heq]

theorem Resize_alloc_fails (h : Heap) (this : vtkUnsignedIntArray) (sz : Int)
    (hne : sz * this.NumberOfComponents ≠ this.Size) (hpos : 0 < sz * this.NumberOfComponents)
    (hf : h.fails h.cells.length = true) :
    Resize h this sz = some ({ h with cells := h.cells ++ [none] }, this) := by
  unfold Resize
  simp [hne, not_le.mpr hpos, Heap.new_fail (le_of_lt hpos) hf]

theorem Resize_initializes (h : Heap) (this : vtkUnsignedIntArray) (sz : Int)
    (hne : sz * this.NumberOfComponents ≠ this.Size) (hle : sz * this.NumberOfComponents ≤ 0) :
    Resize h this sz = Initialize h this := by
  simp [Resize, hne, hle]

/-- `ResizeAndExtend` keeps `MaxId < Size`, whatever the outcome of the allocation. -/
theorem ResizeAndExtend_keeps_bound (h : Heap) (this : vtkUnsignedIntArray) (sz : Int)
    (hok : StorageOk h this) (hInv : this.MaxId < this.Size) :
    ∃ r h1 this1, ResizeAndExtend h this sz = some (r, h1, this1) ∧ this1.MaxId < this1.Size := by
  have hsz := hok.1
  by_cases heq : sz = this.Size
  · subst heq
    exact ⟨_, _, _, ResizeAndExtend_same h this, hInv⟩
  · by_cases hpos : 0 < (if sz > this.Size then this.Size + sz else sz)
    · cases hf : h.fails h.cells.length with
      | false =>
        refine ⟨_, _, _, ResizeAndExtend_realloc h this sz _ hok heq rfl hpos hf, ?_⟩
        show (if (if sz > this.Size then this.Size + sz else sz) < this.Size
          then (if sz > this.Size then this.Size + sz else sz) - 1 else this.MaxId) <
            (if sz > this.Size then this.Size + sz else sz)
        split <;> split <;> omega
      | true => exact ⟨_, _, _, ResizeAndExtend_alloc_fails h this sz heq hpos hf, hInv⟩
    · refine ⟨_, _, _, ResizeAndExtend_initializes h this sz hok.live heq (not_lt.mp hpos), ?_⟩
      show (-1 : Int) < 0
      decide

/-- `Resize` keeps `MaxId < Size`, whatever the outcome of the allocation. -/
theorem Resize_keeps_bound (h : Heap) (this : vtkUnsignedIntArray) (sz : Int)
    (hok : StorageOk h this) (hInv : this.MaxId < this.Size) :
    ∃ h1 this1, Resize h this sz = some (h1, this1) ∧ this1.MaxId < this1.Size := by
  have hsz := hok.1
  by_cases heq : sz * this.NumberOfComponents = this.Size
  · exact ⟨_, _, Resize_same h this sz heq, hInv⟩
  · by_cases hpos : 0 < sz * this.NumberOfComponents
    · cases hf : h.fails h.cells.length with
      | false =>
        refine ⟨_, _, Resize_realloc h this sz hok heq hpos hf, ?_⟩
        show (if sz * this.NumberOfComponents < this.Size
          then sz * this.NumberOfComponents - 1 else this.MaxId) < sz * this.NumberOfComponents
        split <;> omega
      | true => exact ⟨_, _, Resize_alloc_fails h this sz heq hpos hf, hInv⟩
    · refine ⟨released h this,
        ({ this with Array := none, Size := 0, MaxId := -1, SaveUserArray := 0 } :
          vtkUnsignedIntArray), ?_, ?_⟩
      · rw [Resize_initializes h this sz heq (not_lt.mp hpos)]
        exact Initialize_eq h this hok.live
      · show (-1 : Int) < 0
        decide

/-- `Allocate` keeps `MaxId < Size` from a state with `Size >= 0`, whatever the
outcome of the allocation. -/
theorem Allocate_keeps_bound (h : Heap) (this : vtkUnsignedIntArray) (sz : Int)
    (hlive : OwnedLive h this) (hsz : 0 ≤ this.Size) (hInv : this.MaxId < this.Size) :
    ∃ r h1 this1, Allocate h this sz = some (r, h1, this1) ∧ this1.MaxId < this1.Size := by
  by_cases hgt : sz > this.Size
  · cases hf : h.fails h.cells.length with
    | false =>
      refine ⟨_, _, _, Allocate_grows h this sz hlive hgt hf, ?_⟩
      show (-1 : Int) < if sz > 0 then sz else 1
      split <;> omega
    | true =>
      refine ⟨_, _, _, Allocate_fails h this sz hlive hgt hf, ?_⟩
      show this.MaxId < if sz > 0 then sz else 1
      split <;> omega
  · refine ⟨1, h, { this with MaxId := -1 }, by simp [Allocate, hgt], ?_⟩
    show (-1 : Int) < this.Size
    omega

/-- `SetNumberOfTuples` leaves `MaxId < Size`, whatever the outcome of the
allocation. -/
theorem SetNumberOfTuples_bound (h : Heap) (this : vtkUnsignedIntArray) (n : Int)
    (hlive : OwnedLive h this) :
    ∃ h1 this1, SetNumberOfTuples h this n = some (h1, this1) ∧ this1.MaxId < this1.Size := by
  unfold SetNumberOfTuples SetNumberOfValues
  by_cases hgt : n * this.NumberOfComponents > this.Size
  · cases hf : h.fails h.cells.length with
    | false =>
      rw [Allocate_grows h this _ hlive hgt hf]
      refine ⟨_, _, rfl, ?_⟩
      show n * this.NumberOfComponents - 1 <
        if n * this.NumberOfComponents > 0 then n * this.NumberOfComponents else 1
      split <;> omega
    | true =>
      rw [Allocate_fails h this _ hlive hgt hf]
      refine ⟨_, _, rfl, ?_⟩
      show n * this.NumberOfComponents - 1 <
        if n * this.NumberOfComponents > 0 then n * this.NumberOfComponents else 1
      split <;> omega
  · simp only [Allocate, hgt, if_false]
    refine ⟨_, _, rfl, ?_⟩
    show n * this.NumberOfComponents - 1 < this.Size
    omega

/-- The same-type branch of `DeepCopy` in closed form: the owned block is
released and a new block receives the first `Size` elements of the source. -/
theorem DeepCopy_unsignedInt_eq
    (superDeepCopy : Heap → vtkUnsignedIntArray → Option (Heap × vtkUnsignedIntArray))
    (h : Heap) (B A : vtkUnsignedIntArray) (hB : OwnedLive h B) (hA : StorageBacked h A)
    (hd : NotOwnerOf B A) (hf : h.fails h.cells.length = false) :
    DeepCopy superDeepCopy h B (.unsignedInt A) = some
      ({ released h B with cells := (released h B).cells ++
          [some (((A.Array.bind h.block).getD []).take A.Size.toNat)] },
       { B with NumberOfComponents := A.NumberOfComponents, MaxId := A.MaxId, Size := A.Size,
                SaveUserArray := 0, Array := some h.cells.length }) := by
  obtain ⟨⟨hsz, hlive⟩, hnull⟩ := hA
  have hrl := released_length h B
  have hf1 : (released h B).fails (released h B).cells.length = false := by
    rw [hrl, released_fails]; exact hf
  unfold DeepCopy
  simp only [deleteOwned_eq h B hB, Heap.new_eq hsz hf1]
  by_cases h0 : A.Size = 0
  · simp [h0, Heap.memcpy, Heap.fresh, hrl]
  · cases hAa : A.Array with
    | none => exact absurd (hnull hAa) h0
    | some a =>
      obtain ⟨b, hb, hlen⟩ := hlive a hAa
      have halt := Heap.block_lt hb
      have hb1 : (Heap.mk ((released h B).cells ++ [some ((released h B).fresh A.Size.toNat)])
          (released h B).fails (released h B).junk).block a = some b := by
        rw [Heap.block_append _ _ _ _ _ (by rw [hrl]; exact halt)]
        exact (released_block_other h B a (hd a hAa)).trans hb
      have hm := Heap.memcpy_eq hsz (Heap.block_append_new (released h B).cells
        (some ((released h B).fresh A.Size.toNat)) (released h B).fails (released h B).junk) hb1
        (by omega) (by rw [Heap.fresh_length]) (by omega)
      have hdrop : ((released h B).fresh A.Size.toNat).drop A.Size.toNat = [] := by
        apply List.drop_eq_nil_of_le
        rw [Heap.fresh_length]
      simp only [hm, set_length_append, hdrop, List.append_nil]
      simp [hrl, hb]

/-- `DeepCopy` from a source with `MaxId < Size` leaves `MaxId < Size`. -/
theorem DeepCopy_keeps_bound
    (superDeepCopy : Heap → vtkUnsignedIntArray → Option (Heap × vtkUnsignedIntArray))
    (h : Heap) (B A : vtkUnsignedIntArray) (hB : OwnedLive h B) (hA : StorageBacked h A)
    (hd : NotOwnerOf B A) (hf : h.fails h.cells.length = false) (hInv : A.MaxId < A.Size) :
    ∃ h1 B1, DeepCopy superDeepCopy h B (.unsignedInt A) = some (h1, B1) ∧ B1.MaxId < B1.Size :=
  ⟨_, _, DeepCopy_unsignedInt_eq superDeepCopy h B A hB hA hd hf, hInv⟩

/-- Effect of `InsertValue(id, v)`. -/
theorem InsertValue_step (h : Heap) (this : vtkUnsignedIntArray) (id : Int) (v : Nat)
    (hB : StorageBacked h this) (hf : this.Size ≤ id → h.fails h.cells.length = false)
    (hid : 0 ≤ id) :
    ∃ h2 this1, InsertValue h this id v = some (h2, this1) ∧
      this1.MaxId = max this.MaxId id ∧ id < this1.Size ∧ this.Size ≤ this1.Size ∧
      this1.NumberOfComponents = this.NumberOfComponents ∧
      scalarAt h2 this1 id.toNat = some v := by
  have hsz := hB.1.1
  have hfin : ∀ (h2 : Heap) (t : vtkUnsignedIntArray) (a : Nat) (b : Block),
      t.Array = some a → h2.block a = some b → id.toNat < b.length →
      id < t.Size → this.Size ≤ t.Size → t.MaxId = this.MaxId →
      t.NumberOfComponents = this.NumberOfComponents →
      ∃ h3 this1, (match h2.write t.Array id v with
          | none => none
          | some h3 => some (h3, if id > t.MaxId then { t with MaxId := id } else t)) =
            some (h3, this1) ∧
        this1.MaxId = max this.MaxId id ∧ id < this1.Size ∧ this.Size ≤ this1.Size ∧
        this1.NumberOfComponents = this.NumberOfComponents ∧
        scalarAt h3 this1 id.toNat = some v := by
    intro h2 t a b hA hb h3 hlt hle hM hC
    have hw : h2.write t.Array id v =
        some { h2 with cells := h2.cells.set a (some (b.set id.toNat v)) } := by
      simp [Heap.write, hA, hb, hid, h3]
    have hb2 : (Heap.mk (h2.cells.set a (some (b.set id.toNat v))) h2.fails h2.junk).block a =
        some (b.set id.toNat v) := Heap.block_set_self _ _ _ _ _ (Heap.block_lt hb)
    refine ⟨Heap.mk (h2.cells.set a (some (b.set id.toNat v))) h2.fails h2.junk,
      (if id > t.MaxId then { t with MaxId := id } else t), by rw [hw], ?_, ?_, ?_, ?_, ?_⟩
    · split
      · show id = max this.MaxId id
        omega
      · omega
    · split <;> exact hlt
    · split <;> exact hle
    · split <;> exact hC
    · have hAr : (if id > t.MaxId then { t with MaxId := id } else t).Array = some a := by
        split <;> exact hA
      rw [scalarAt_of_block _ hAr hb2]
      simp [List.getElem?_set, h3]
  by_cases hfit : id < this.Size
  · cases hA : this.Array with
    | none => have hz := hB.2 hA; omega
    | some a =>
      obtain ⟨b, hb, hlen⟩ := hB.1.2 a hA
      have hng : ¬ id ≥ this.Size := by omega
      unfold InsertValue
      simp only [hng, if_false]
      exact hfin h this a b hA hb (by omega) hfit (le_refl _) rfl rfl
  · have hge : id ≥ this.Size := by omega
    have hR := ResizeAndExtend_realloc h this (id + 1) (this.Size + (id + 1)) hB.1 (by omega)
      (by simp; omega) (by omega) (hf (by omega))
    obtain ⟨b0, hb0, hl0, _⟩ := reallocated_ok h this (this.Size + (id + 1)).toNat
      (min (id + 1) this.Size).toNat hB.1 (by omega) (by omega)
    have hnl : ¬ (this.Size + (id + 1) < this.Size) := by omega
    unfold InsertValue
    simp only [hge, if_true, hR, hnl, if_false]
    have hlt1 : id < this.Size + (id + 1) := by omega
    have hle1 : this.Size ≤ this.Size + (id + 1) := by omega
    exact hfin (reallocated h this (this.Size + (id + 1)).toNat (min (id + 1) this.Size).toNat)
      ({ this with Size := this.Size + (id + 1), Array := some h.cells.length,
                   SaveUserArray := 0 } : vtkUnsignedIntArray)
      h.cells.length b0 rfl hb0 (by omega) hlt1 hle1 rfl rfl

theorem released_of_save (h : Heap) (this : vtkUnsignedIntArray) (hs : this.SaveUserArray ≠ 0) :
    released h this = h := by
  unfold released
  split
  · simp [hs]
  · rfl

theorem reallocated_block_other (h : Heap) (this : vtkUnsignedIntArray) (n cnt c : Nat)
    (hc : c < h.cells.length) (hno : this.Array = some c → this.SaveUserArray ≠ 0) :
    (reallocated h this n cnt).block c = h.block c := by
  unfold reallocated
  split
  · rename_i a hA
    simp only
    split
    · rename_i hs
      have hac : a ≠ c := by
        intro hac
        subst hac
        exact hno hA hs
      rw [Heap.block_set_other _ _ _ _ _ _ hac]
      exact Heap.block_append _ _ _ _ _ hc
    · exact Heap.block_append _ _ _ _ _ hc
  · exact Heap.block_append _ _ _ _ _ hc

theorem deleteOwned_shape (h h1 : Heap) (this : vtkUnsignedIntArray)
    (hd : deleteOwned h this = some h1) :
    h1.cells.length = h.cells.length ∧ h1.fails = h.fails := by
  unfold deleteOwned at hd
  split at hd
  · split at hd
    · unfold Heap.delete at hd
      split at hd
      · simp only [Option.some.injEq] at hd
        subst hd
        simp
      · simp at hd
    · simp only [Option.some.injEq] at hd
      subst hd
      exact ⟨rfl, rfl⟩
  · simp only [Option.some.injEq] at hd
    subst hd
    exact ⟨rfl, rfl⟩

theorem InsertTuple_keeps_bound (h : Heap) (this : vtkUnsignedIntArray) (i : Int)
    (values : List ℚ) (hB : StorageBacked h this) (hInv : this.MaxId < this.Size)
    (hf : h.fails h.cells.length = false) (hi : 0 ≤ i) (hc : 1 ≤ this.NumberOfComponents)
    (hlen : this.NumberOfComponents.toNat ≤ values.length) :
    ∃ h2 this1, InsertTuple h this i values = some (h2, this1) ∧ this1.MaxId < this1.Size := by
  have hloc : 0 ≤ i * this.NumberOfComponents := mul_nonneg hi (by omega)
  obtain ⟨h1, this1, h2, hW, hS, hmax, hcomp, _, _, hsize, hfit, hgrow, _, _⟩ :=
    writeTuple_step h this (i * this.NumberOfComponents) this.NumberOfComponents values hB
      (fun _ => hf) hloc hc hlen
  refine ⟨h2, this1, ?_, ?_⟩
  · unfold InsertTuple
    simp only [hW, hcomp, hS]
  · rw [hmax]
    by_cases hle : i * this.NumberOfComponents + this.NumberOfComponents ≤ this.Size
    · have e := (hfit hle).1
      omega
    · have e := (hgrow (by omega)).1
      omega

theorem InsertNextTuple_keeps_bound (h : Heap) (this : vtkUnsignedIntArray)
    (values : List ℚ) (hB : StorageBacked h this)
    (hf : h.fails h.cells.length = false) (hm : -1 ≤ this.MaxId)
    (hc : 1 ≤ this.NumberOfComponents)
    (hlen : this.NumberOfComponents.toNat ≤ values.length) :
    ∃ r h2 this1, InsertNextTuple h this values = some (r, h2, this1) ∧
      this1.MaxId < this1.Size := by
  obtain ⟨h2, this1, hI, hM, _, _, _, hsize, _⟩ :=
    InsertNextTuple_step h this values hB (fun _ => hf) hc hm hlen
  exact ⟨_, h2, this1, hI, by omega⟩

theorem InsertComponent_keeps_bound (h : Heap) (this : vtkUnsignedIntArray) (i j : Int) (c : ℚ)
    (hB : StorageBacked h this) (hInv : this.MaxId < this.Size)
    (hf : h.fails h.cells.length = false) (hid : 0 ≤ i * this.NumberOfComponents + j) :
    ∃ h2 this1, InsertComponent h this i j c = some (h2, this1) ∧ this1.MaxId < this1.Size := by
  obtain ⟨h2, this1, hI, hM, hlt, hle, _⟩ :=
    InsertValue_step h this (i * this.NumberOfComponents + j) (toUnsignedInt c) hB (fun _ => hf) hid
  exact ⟨h2, this1, hI, by rw [hM]; omega⟩

theorem fillTuple_range' (h : Heap) (a : Nat) (loc : Int) (b : Block)
    (hb : h.block a = some b) (hloc : 0 ≤ loc) :
    ∀ (n s : Nat) (t : List ℚ), loc.toNat + s + n ≤ b.length → s + n ≤ t.length →
      ∃ t1, fillTuple h (some a) loc (List.range' s n) t = some t1 ∧ t1.length = t.length := by
  intro n
  induction n with
  | zero => intro s t _ _; exact ⟨t, rfl, rfl⟩
  | succ n ih =>
    intro s t hlen htl
    have hlt : loc.toNat + s < b.length := by omega
    have hr : h.read (some a) (loc + (s : Int)) = some b[loc.toNat + s] := by
      have h1 : (loc + (s : Int)).toNat = loc.toNat + s := by omega
      have h2 : ¬ (loc + (s : Int) < 0) := by omega
      simp [Heap.read, hb, h1, h2, List.getElem?_eq_getElem hlt]
    have hs : s < t.length := by omega
    obtain ⟨t1, ht1, hl1⟩ := ih (s + 1) (t.set s (toFloat b[loc.toNat + s]))
      (by omega) (by simp; omega)
    refine ⟨t1, ?_, by simpa using hl1⟩
    simp only [List.range', fillTuple, hr, hs, if_true, ht1]

theorem Initialize_NumberOfComponents {h : Heap} {this : vtkUnsignedIntArray}
    {r : Heap × vtkUnsignedIntArray} (hr : Initialize h this = some r) :
    r.2.NumberOfComponents = this.NumberOfComponents := by
  unfold Initialize at hr
  split at hr
  · cases hr
  · cases hr; rfl

theorem SetArray_NumberOfComponents {h : Heap} {this : vtkUnsignedIntArray} {array : Option Nat}
    {size save : Int} {r : Heap × vtkUnsignedIntArray}
    (hr : SetArray h this array size save = some r) :
    r.2.NumberOfComponents = this.NumberOfComponents := by
  unfold SetArray at hr
  split at hr
  · cases hr
  · cases hr; rfl

theorem Allocate_NumberOfComponents {h : Heap} {this : vtkUnsignedIntArray} {sz : Int}
    {r : Int × Heap × vtkUnsignedIntArray} (hr : Allocate h this sz = some r) :
    r.2.2.NumberOfComponents = this.NumberOfComponents := by
  unfold Allocate at hr
  split at hr
  · split at hr
    · cases hr
    · simp only at hr
      split at hr
      · cases hr
      · cases hr; rfl
      · cases hr; rfl
  · cases hr; rfl

theorem DeepCopy_NumberOfComponents
    {superDeepCopy : Heap → vtkUnsignedIntArray → Option (Heap × vtkUnsignedIntArray)}
    {h : Heap} {this sa : vtkUnsignedIntArray} {r : Heap × vtkUnsignedIntArray}
    (hr : DeepCopy superDeepCopy h this (.unsignedInt sa) = some r) :
    r.2.NumberOfComponents = sa.NumberOfComponents := by
  unfold DeepCopy at hr
  simp only at hr
  split at hr
  · cases hr
  · split at hr
    · cases hr
    · split at hr
      · cases hr
      · cases hr; rfl

theorem ResizeAndExtend_NumberOfComponents {h : Heap} {this : vtkUnsignedIntArray} {sz : Int}
    {r : Option Nat × Heap × vtkUnsignedIntArray} (hr : ResizeAndExtend h this sz = some r) :
    r.2.2.NumberOfComponents = this.NumberOfComponents := by
  unfold ResizeAndExtend at hr
  simp only at hr
  split at hr
  · cases hr; rfl
  · split at hr
    · cases hI : Initialize h this with
      | none => rw [hI] at hr; cases hr
      | some p =>
        rw [hI] at hr
        cases hr
        exact Initialize_NumberOfComponents hI
    · split at hr
      · cases hr
      · cases hr; rfl
      · split at hr
        · cases hr
        · cases hr
          split <;> rfl

theorem Resize_NumberOfComponents {h : Heap} {this : vtkUnsignedIntArray} {sz : Int}
    {r : Heap × vtkUnsignedIntArray} (hr : Resize h this sz = some r) :
    r.2.NumberOfComponents = this.NumberOfComponents := by
  unfold Resize at hr
  simp only at hr
  split at hr
  · cases hr; rfl
  · split at hr
    · exact Initialize_NumberOfComponents hr
    · split at hr
      · cases hr
      · cases hr; rfl
      · split at hr
        · cases hr
        · cases hr
          split <;> rfl

theorem SetNumberOfTuples_NumberOfComponents {h : Heap} {this : vtkUnsignedIntArray} {n : Int}
    {r : Heap × vtkUnsignedIntArray} (hr : SetNumberOfTuples h this n = some r) :
    r.2.NumberOfComponents = this.NumberOfComponents := by
  unfold SetNumberOfTuples SetNumberOfValues at hr
  cases hA : Allocate h this (n * this.NumberOfComponents) with
  | none => rw [hA] at hr; cases hr
  | some p =>
    rw [hA] at hr
    cases hr
    exact Allocate_NumberOfComponents hA

theorem GetTuple_NumberOfComponents {h : Heap} {this : vtkUnsignedIntArray} {i : Int}
    {r : List ℚ × vtkUnsignedIntArray} (hr : GetTuple h this i = some r) :
    r.2.NumberOfComponents = this.NumberOfComponents := by
  unfold GetTuple at hr
  simp only at hr
  split at hr
  · cases hr
  · cases hr
    split <;> rfl

theorem WritePointer_NumberOfComponents {h : Heap} {this : vtkUnsignedIntArray} {id number : Int}
    {r : (Option Nat × Int) × Heap × vtkUnsignedIntArray}
    (hr : WritePointer h this id number = some r) :
    r.2.2.NumberOfComponents = this.NumberOfComponents := by
  unfold WritePointer at hr
  simp only at hr
  by_cases hg : id + number > this.Size
  · simp only [hg, if_true] at hr
    cases hR : ResizeAndExtend h this (id + number) with
    | none => rw [hR] at hr; cases hr
    | some p =>
      rw [hR] at hr
      cases hr
      have hp := ResizeAndExtend_NumberOfComponents hR
      split <;> exact hp
  · simp only [hg, if_false] at hr
    cases hr
    split <;> rfl

theorem InsertTuple_NumberOfComponents {h : Heap} {this : vtkUnsignedIntArray} {i : Int}
    {tuple : List ℚ} {r : Heap × vtkUnsignedIntArray}
    (hr : InsertTuple h this i tuple = some r) :
    r.2.NumberOfComponents = this.NumberOfComponents := by
  unfold InsertTuple at hr
  cases hW : WritePointer h this (i * this.NumberOfComponents) this.NumberOfComponents with
  | none => rw [hW] at hr; cases hr
  | some p =>
    rw [hW] at hr
    simp only at hr
    split at hr
    · cases hr
    · cases hr
      exact WritePointer_NumberOfComponents hW

theorem InsertNextTuple_NumberOfComponents {h : Heap} {this : vtkUnsignedIntArray}
    {tuple : List ℚ} {r : Int × Heap × vtkUnsignedIntArray}
    (hr : InsertNextTuple h this tuple = some r) :
    r.2.2.NumberOfComponents = this.NumberOfComponents := by
  unfold InsertNextTuple at hr
  cases hW : WritePointer h this (this.MaxId + 1) this.NumberOfComponents with
  | none => rw [hW] at hr; cases hr
  | some p =>
    rw [hW] at hr
    simp only at hr
    split at hr
    · cases hr
    · split at hr
      · cases hr
      · cases hr
        exact WritePointer_NumberOfComponents hW

theorem InsertValue_NumberOfComponents {h : Heap} {this : vtkUnsignedIntArray} {id : Int}
    {v : Nat} {r : Heap × vtkUnsignedIntArray} (hr : InsertValue h this id v = some r) :
    r.2.NumberOfComponents = this.NumberOfComponents := by
  unfold InsertValue at hr
  simp only at hr
  by_cases hg : id ≥ this.Size
  · simp only [hg, if_true] at hr
    cases hR : ResizeAndExtend h this (id + 1) with
    | none => rw [hR] at hr; cases hr
    | some p =>
      rw [hR] at hr
      simp only at hr
      split at hr
      · cases hr
      · cases hr
        have hp := ResizeAndExtend_NumberOfComponents hR
        split <;> exact hp
  · simp only [hg, if_false] at hr
    split at hr
    · cases hr
    · cases hr
      split <;> rfl

theorem GetTuple_returns (h : Heap) (this : vtkUnsignedIntArray) (i : Int)
    (hB : StorageBacked h this) (hi : 0 ≤ i)
    (hfit : (i + 1) * this.NumberOfComponents ≤ this.Size)
    (hT : this.TupleSize ≤ (this.Tuple.length : Int)) :
    ∃ r, GetTuple h this i = some r := by
  have hsz := hB.1.1
  by_cases hc : this.NumberOfComponents ≤ 0
  · have hz : this.NumberOfComponents.toNat = 0 := by omega
    unfold GetTuple
    by_cases hlt : this.TupleSize < this.NumberOfComponents
    · simp only [hlt, if_true, hz, List.range_zero, fillTuple]
      exact ⟨_, rfl⟩
    · simp only [hlt, if_false, hz, List.range_zero, fillTuple]
      exact ⟨_, rfl⟩
  · have hexp : (i + 1) * this.NumberOfComponents =
        i * this.NumberOfComponents + this.NumberOfComponents := by ring
    have hloc : 0 ≤ this.NumberOfComponents * i := mul_nonneg (by omega) hi
    have hcomm : this.NumberOfComponents * i = i * this.NumberOfComponents := mul_comm _ _
    cases hA : this.Array with
    | none => have hz := hB.2 hA; omega
    | some a =>
      obtain ⟨b, hb, hbl⟩ := hB.1.2 a hA
      unfold GetTuple
      by_cases hlt : this.TupleSize < this.NumberOfComponents
      · obtain ⟨t1, ht1, hl1⟩ := fillTuple_range' h a (this.NumberOfComponents * i) b hb hloc
          this.NumberOfComponents.toNat 0 (List.replicate this.NumberOfComponents.toNat 0)
          (by omega) (by simp)
        rw [← List.range_eq_range'] at ht1
        simp only [hlt, if_true, hA, ht1]
        exact ⟨_, rfl⟩
      · obtain ⟨t1, ht1, hl1⟩ := fillTuple_range' h a (this.NumberOfComponents * i) b hb hloc
          this.NumberOfComponents.toNat 0 this.Tuple (by omega) (by omega)
        rw [← List.range_eq_range'] at ht1
        simp only [hlt, if_false, hA, ht1]
        exact ⟨_, rfl⟩

theorem fillTuple_values (h : Heap) (a : Nat) (loc : Int) (b : Block)
    (hb : h.block a = some b) (hloc : 0 ≤ loc) :
    ∀ (n s : Nat) (t : List ℚ), loc.toNat + s + n ≤ b.length → s + n ≤ t.length →
      ∃ t1, fillTuple h (some a) loc (List.range' s n) t = some t1 ∧ t1.length = t.length ∧
        ∀ j, t1[j]? = if s ≤ j ∧ j < s + n then (b[loc.toNat + j]?).map toFloat else t[j]? := by
  intro n
  induction n with
  | zero =>
    intro s t _ _
    refine ⟨t, rfl, rfl, ?_⟩
    intro j
    rw [if_neg (by omega)]
  | succ n ih =>
    intro s t hlen htl
    have hlt : loc.toNat + s < b.length := by omega
    have hr : h.read (some a) (loc + (s : Int)) = some b[loc.toNat + s] := by
      have h1 : (loc + (s : Int)).toNat = loc.toNat + s := by omega
      have h2 : ¬ (loc + (s : Int) < 0) := by omega
      simp [Heap.read, hb, h1, h2, List.getElem?_eq_getElem hlt]
    have hs : s < t.length := by omega
    obtain ⟨t1, ht1, hl1, hv1⟩ := ih (s + 1) (t.set s (toFloat b[loc.toNat + s]))
      (by omega) (by simp; omega)
    refine ⟨t1, ?_, by simpa using hl1, ?_⟩
    · simp only [List.range', fillTuple, hr, hs, if_true, ht1]
    · intro j
      rw [hv1 j]
      by_cases hj : s + 1 ≤ j ∧ j < s + 1 + n
      · rw [if_pos hj, if_pos (by omega)]
      · rw [if_neg hj]
        by_cases hjs : j = s
        · subst hjs
          rw [if_pos (by omega)]
          simp [List.getElem?_set, hs, List.getElem?_eq_getElem hlt]
        · rw [if_neg (by omega)]
          simp [List.getElem?_set, Ne.symm hjs]

theorem trackLocalExtrema_spec : ∀ (later : List Int) (min_l max_l : Int), min_l ≤ max_l →
    (RandomOrderStatistics.trackLocalExtrema min_l max_l later).1 ≤ min_l ∧
    max_l ≤ (RandomOrderStatistics.trackLocalExtrema min_l max_l later).2 ∧
    ((RandomOrderStatistics.trackLocalExtrema min_l max_l later).1 = min_l ∨
      (RandomOrderStatistics.trackLocalExtrema min_l max_l later).1 ∈ later) ∧
    ((RandomOrderStatistics.trackLocalExtrema min_l max_l later).2 = max_l ∨
      (RandomOrderStatistics.trackLocalExtrema min_l max_l later).2 ∈ later) ∧
    ∀ x ∈ later, (RandomOrderStatistics.trackLocalExtrema min_l max_l later).1 ≤ x ∧
      x ≤ (RandomOrderStatistics.trackLocalExtrema min_l max_l later).2 := by
  intro later
  induction later with
  | nil =>
    intro min_l max_l _
    simp [RandomOrderStatistics.trackLocalExtrema]
  | cons v later ih =>
    intro min_l max_l hle
    unfold RandomOrderStatistics.trackLocalExtrema RandomOrderStatistics.updateLocalExtrema
    by_cases h1 : v < min_l
    · simp only [h1, if_true]
      obtain ⟨a1, a2, a3, a4, a5⟩ := ih v max_l (by omega)
      refine ⟨by omega, a2, ?_, ?_, ?_⟩
      · rcases a3 with a3 | a3
        · exact Or.inr (by rw [a3]; exact List.mem_cons_self _ _)
        · exact Or.inr (List.mem_cons_of_mem _ a3)
      · rcases a4 with a4 | a4
        · exact Or.inl a4
        · exact Or.inr (List.mem_cons_of_mem _ a4)
      · intro x hx
        rcases List.mem_cons.mp hx with hx | hx
        · subst hx; exact ⟨a1, by omega⟩
        · exact a5 x hx
    · by_cases h2 : v > max_l
      · simp only [h1, h2, if_true, if_false]
        obtain ⟨a1, a2, a3, a4, a5⟩ := ih min_l v (by omega)
        refine ⟨a1, by omega, ?_, ?_, ?_⟩
        · rcases a3 with a3 | a3
          · exact Or.inl a3
          · exact Or.inr (List.mem_cons_of_mem _ a3)
        · rcases a4 with a4 | a4
          · exact Or.inr (by rw [a4]; exact List.mem_cons_self _ _)
          · exact Or.inr (List.mem_cons_of_mem _ a4)
        · intro x hx
          rcases List.mem_cons.mp hx with hx | hx
          · subst hx; exact ⟨by omega, a2⟩
          · exact a5 x hx
      · simp only [h1, h2, if_false]
        obtain ⟨a1, a2, a3, a4, a5⟩ := ih min_l max_l hle
        refine ⟨a1, a2, ?_, ?_, ?_⟩
        · rcases a3 with a3 | a3
          · exact Or.inl a3
          · exact Or.inr (List.mem_cons_of_mem _ a3)
        · rcases a4 with a4 | a4
          · exact Or.inl a4
          · exact Or.inr (List.mem_cons_of_mem _ a4)
        · intro x hx
          rcases List.mem_cons.mp hx with hx | hx
          · subst hx; exact ⟨by omega, by omega⟩
          · exact a5 x hx

/-! ## Properties of the methods -/

/-- C1: on a state whose storage is valid, `ResizeAndExtend(sz)` returns and
leaves the first `min(sz, old Size)` scalars of the buffer unchanged: whatever
value was stored at an index `k < min(sz, old Size)` before the call is stored
at `k` after it. -/
theorem ResizeAndExtend_preserves_values (h : Heap) (this : vtkUnsignedIntArray) (sz : Int)
    (hok : StorageOk h this) :
    ∃ r h1 this1, ResizeAndExtend h this sz = some (r, h1, this1) ∧
      ∀ k : Nat, (k : Int) < min sz this.Size →
        ∀ v, scalarAt h this k = some v → scalarAt h1 this1 k = some v := by
  have hsz := hok.1
  by_cases heq : sz = this.Size
  · refine ⟨this.Array, h, this, ?_, fun _ _ _ hv => hv⟩
    simp [ResizeAndExtend, heq]
  · by_cases hpos : 0 < (if sz > this.Size then this.Size + sz else sz)
    · cases hf : h.fails h.cells.length with
      | false =>
        refine ⟨_, _, _, ResizeAndExtend_realloc h this sz _ hok heq rfl hpos hf, ?_⟩
        intro k hk v hv
        obtain ⟨a, b, hA, hb, hkv⟩ := scalarAt_some hv
        have hnew := reallocated_block_new h this
          (if sz > this.Size then this.Size + sz else sz).toNat (min sz this.Size).toNat hA hb
        rw [scalarAt_of_block k rfl hnew]
        have hk' : k < (min sz this.Size).toNat := by omega
        have hkb : k < b.length := by
          by_contra hcon
          rw [List.getElem?_eq_none (by omega)] at hkv
          simp at hkv
        rw [List.getElem?_append_left (by simp; omega), List.getElem?_take]
        simp [hk', hkv]
      | true =>
        have hR : ResizeAndExtend h this sz =
            some (none, { h with cells := h.cells ++ [none] }, this) := by
          unfold ResizeAndExtend
          by_cases hgt : sz > this.Size
          · simp only [hgt, if_true] at hpos ⊢
            simp [not_le.mpr hpos, Heap.new_fail (le_of_lt hpos) hf]
          · simp only [hgt, if_false, heq] at hpos ⊢
            simp [not_le.mpr hpos, Heap.new_fail (le_of_lt hpos) hf]
        refine ⟨_, _, _, hR, ?_⟩
        intro k _ v hv
        obtain ⟨a, b, hA, hb, hkv⟩ := scalarAt_some hv
        have hb1 : (Heap.mk (h.cells ++ [none]) h.fails h.junk).block a = some b := by
          rw [Heap.block_append _ _ _ _ _ (Heap.block_lt hb)]; exact hb
        rw [scalarAt_of_block k hA hb1]
        exact hkv
    · have hR : ResizeAndExtend h this sz = some (none, released h this,
          { this with Array := none, Size := 0, MaxId := -1, SaveUserArray := 0 }) := by
        unfold ResizeAndExtend
        by_cases hgt : sz > this.Size
        · simp only [hgt, if_true] at hpos ⊢
          simp [not_lt.mp hpos, Initialize_eq h this hok.live]
        · simp only [hgt, if_false, heq] at hpos ⊢
          simp [not_lt.mp hpos, Initialize_eq h this hok.live]
      refine ⟨_, _, _, hR, ?_⟩
      intro k hk
      split at hpos <;> omega

/-- C1, at an owned three-element array resized to five. -/
theorem ResizeAndExtend_preserves_values_witness :
    StorageOk exampleHeap exampleArray ∧
    ∃ r h1 this1, ResizeAndExtend exampleHeap exampleArray 5 = some (r, h1, this1) ∧
      ∀ k : Nat, (k : Int) < min 5 exampleArray.Size →
        ∀ v, scalarAt exampleHeap exampleArray k = some v → scalarAt h1 this1 k = some v :=
  ⟨by decide, ResizeAndExtend_preserves_values exampleHeap exampleArray 5 (by decide)⟩

/-- C2: `B.DeepCopy(A)` for an unsigned int array `A` other than `B`, when `A`
is backed by memory, `B` does not own the storage of `A` and the allocation
succeeds: `B` takes the component count, `Size` and `MaxId` of `A`, owns a new
live block, and reads the same scalar as `A` at every index below `A.Size`;
the buffer of `A` is unchanged. -/
theorem DeepCopy_copies_buffer
    (superDeepCopy : Heap → vtkUnsignedIntArray → Option (Heap × vtkUnsignedIntArray))
    (h : Heap) (B A : vtkUnsignedIntArray)
    (hA : StorageBacked h A)
    (hB : OwnedLive h B) (hdistinct : NotOwnerOf B A)
    (hf : h.fails h.cells.length = false) :
    ∃ h1 B1, DeepCopy superDeepCopy h B (.unsignedInt A) = some (h1, B1) ∧
      B1.NumberOfComponents = A.NumberOfComponents ∧ B1.Size = A.Size ∧ B1.MaxId = A.MaxId ∧
      B1.SaveUserArray = 0 ∧
      (∃ p b, B1.Array = some p ∧ h1.block p = some b ∧ A.Array ≠ some p ∧ h.block p = none) ∧
      (∀ k : Nat, (k : Int) < A.Size → scalarAt h1 B1 k = scalarAt h A k) ∧
      (∀ k : Nat, scalarAt h1 A k = scalarAt h A k) := by
  obtain ⟨⟨hsz, hlive⟩, hnull⟩ := hA
  have hrl := released_length h B
  have hf1 : (released h B).fails (released h B).cells.length = false := by
    rw [hrl]
    unfold released
    split
    · split <;> exact hf
    · exact hf
  have hnone : h.block h.cells.length = none := by
    cases hb : h.block h.cells.length with
    | none => rfl
    | some b => exact absurd (Heap.block_lt hb) (lt_irrefl _)
  have hAp : A.Array ≠ some h.cells.length := by
    intro hc
    obtain ⟨b, hb, _⟩ := hlive _ hc
    rw [hnone] at hb
    exact absurd hb (by simp)
  unfold DeepCopy
  simp only [deleteOwned_eq h B hB, Heap.new_eq hsz hf1]
  by_cases h0 : A.Size = 0
  · simp only [h0, Heap.memcpy, if_true, Int.toNat_zero]
    refine ⟨_, _, rfl, rfl, rfl, rfl, rfl,
      ⟨_, _, rfl, Heap.block_append_new _ _ _ _, ?_, ?_⟩, ?_, ?_⟩
    · rw [hrl]; exact hAp
    · rw [hrl]; exact hnone
    · intro k hk; omega
    · intro k
      cases hAa : A.Array with
      | none => simp [scalarAt, Heap.read, hAa]
      | some a =>
        obtain ⟨b, hb, _⟩ := hlive a hAa
        have hb1 : (Heap.mk ((released h B).cells ++ [some ((released h B).fresh 0)])
            (released h B).fails (released h B).junk).block a = some b := by
          rw [Heap.block_append _ _ _ _ _ (by rw [hrl]; exact Heap.block_lt hb)]
          exact (released_block_other h B a (hdistinct a hAa)).trans hb
        rw [scalarAt_of_block k hAa hb1, scalarAt_of_block k hAa hb]
  · cases hAa : A.Array with
    | none => exact absurd (hnull hAa) h0
    | some a =>
      obtain ⟨b, hb, hlen⟩ := hlive a hAa
      have halt := Heap.block_lt hb
      have hb1 : (Heap.mk ((released h B).cells ++ [some ((released h B).fresh A.Size.toNat)])
          (released h B).fails (released h B).junk).block a = some b := by
        rw [Heap.block_append _ _ _ _ _ (by rw [hrl]; exact halt)]
        exact (released_block_other h B a (hdistinct a hAa)).trans hb
      have hm := Heap.memcpy_eq hsz (Heap.block_append_new (released h B).cells
        (some ((released h B).fresh A.Size.toNat)) (released h B).fails (released h B).junk) hb1
        (by omega) (by rw [Heap.fresh_length]) (by omega)
      simp only [hm, set_length_append]
      have hb2 : (Heap.mk ((released h B).cells ++
          [some (b.take A.Size.toNat ++ ((released h B).fresh A.Size.toNat).drop A.Size.toNat)])
          (released h B).fails (released h B).junk).block a = some b := by
        rw [Heap.block_append _ _ _ _ _ (by rw [hrl]; exact halt)]
        exact (released_block_other h B a (hdistinct a hAa)).trans hb
      refine ⟨_, _, rfl, rfl, rfl, rfl, rfl,
        ⟨_, _, rfl, Heap.block_append_new _ _ _ _, ?_, ?_⟩, ?_, ?_⟩
      · rw [hrl, ← hAa]; exact hAp
      · rw [hrl]; exact hnone
      · intro k hk
        rw [scalarAt_of_block k rfl (Heap.block_append_new _ _ _ _), scalarAt_of_block k hAa hb]
        have hk' : k < A.Size.toNat := by omega
        rw [List.getElem?_append_left (by simp; omega), List.getElem?_take]
        simp [hk']
      · intro k
        rw [scalarAt_of_block k hAa hb2, scalarAt_of_block k hAa hb]

/-- C2, copying the three-element example array into a new array. -/
theorem DeepCopy_copies_buffer_witness :
    StorageBacked exampleHeap exampleArray ∧
    OwnedLive exampleHeap (vtkUnsignedIntArray.ctor 1) ∧
    NotOwnerOf (vtkUnsignedIntArray.ctor 1) exampleArray ∧
    exampleHeap.fails exampleHeap.cells.length = false ∧
    ∃ h1 B1, DeepCopy (fun _ _ => none) exampleHeap (vtkUnsignedIntArray.ctor 1)
        (.unsignedInt exampleArray) = some (h1, B1) ∧
      B1.NumberOfComponents = exampleArray.NumberOfComponents ∧ B1.Size = exampleArray.Size ∧
      B1.MaxId = exampleArray.MaxId ∧ B1.SaveUserArray = 0 ∧
      (∃ p b, B1.Array = some p ∧ h1.block p = some b ∧ exampleArray.Array ≠ some p ∧
        exampleHeap.block p = none) ∧
      (∀ k : Nat, (k : Int) < exampleArray.Size →
        scalarAt h1 B1 k = scalarAt exampleHeap exampleArray k) ∧
      (∀ k : Nat, scalarAt h1 exampleArray k = scalarAt exampleHeap exampleArray k) :=
  ⟨by decide, by decide, by decide, rfl,
    DeepCopy_copies_buffer (fun _ _ => none) exampleHeap (vtkUnsignedIntArray.ctor 1)
      exampleArray (by decide) (by decide) (by decide) rfl⟩

/-- C3: starting from an empty array (`MaxId = -1`) backed by memory of any
size, with at least one component per tuple, when no allocation fails, the
successive calls `InsertNextTuple` for `k` tuples return the indices
`0, 1, ..., k-1` in that order, and the call that returns `i` leaves
`MaxId = (i+1) * NumberOfComponents - 1`, so each call raises `MaxId` by
exactly `NumberOfComponents`. -/
theorem InsertNextTuple_returns_indices (h : Heap) (this : vtkUnsignedIntArray)
    (tuples : List (List ℚ)) (hB : StorageBacked h this) (hF : h.NeverFails)
    (hc : 1 ≤ this.NumberOfComponents) (hE : this.MaxId = -1)
    (hT : ∀ t ∈ tuples, this.NumberOfComponents.toNat ≤ t.length) :
    ∃ h1 this1, InsertNextTuples h this tuples =
        some ((List.range tuples.length).map
          (fun (i : Nat) => ((i : Int), ((i : Int) + 1) * this.NumberOfComponents - 1)),
          h1, this1) ∧
      this1.MaxId = (tuples.length : Int) * this.NumberOfComponents - 1 := by
  obtain ⟨h1, this1, hI, hM, _⟩ := InsertNextTuples_spec tuples h this 0 hB hc
    (by rw [hE]; simp) (by simpa using hB.1.1) (fun _ => hF) hT
  refine ⟨h1, this1, ?_, ?_⟩
  · rw [hI, List.range_eq_range']
  · rw [hM]; simp

/-- C3, three pairs inserted into a new two-component array. -/
theorem InsertNextTuple_returns_indices_witness :
    StorageBacked emptyHeap (vtkUnsignedIntArray.ctor 2) ∧ emptyHeap.NeverFails ∧
    1 ≤ (vtkUnsignedIntArray.ctor 2).NumberOfComponents ∧
    (vtkUnsignedIntArray.ctor 2).MaxId = -1 ∧
    (∀ t ∈ [[1, 2], [3, 4], [5, 6]],
      (vtkUnsignedIntArray.ctor 2).NumberOfComponents.toNat ≤ t.length) ∧
    ∃ h1 this1, InsertNextTuples emptyHeap (vtkUnsignedIntArray.ctor 2) [[1, 2], [3, 4], [5, 6]] =
        some ((List.range ([[1, 2], [3, 4], [5, 6]] : List (List ℚ)).length).map
          (fun (i : Nat) =>
            ((i : Int), ((i : Int) + 1) * (vtkUnsignedIntArray.ctor 2).NumberOfComponents - 1)),
          h1, this1) ∧
      this1.MaxId = (([[1, 2], [3, 4], [5, 6]] : List (List ℚ)).length : Int) *
        (vtkUnsignedIntArray.ctor 2).NumberOfComponents - 1 :=
  ⟨by decide, fun _ => rfl, by decide, rfl, by decide,
    InsertNextTuple_returns_indices emptyHeap (vtkUnsignedIntArray.ctor 2) [[1, 2], [3, 4], [5, 6]]
      (by decide) (fun _ => rfl) (by decide) rfl (by decide)⟩

/-- C4 (amended): for a tuple index `i` within the allocated bounds and an input
tuple of `NumberOfComponents` values, `SetTuple(i, floats)` followed by
`GetTuple(i, out)` yields `out[j] = truncate(floats[j])` in a `double` buffer,
and `truncate(floats[j])` rounded to single precision in a `float` buffer, which
is `truncate(floats[j])` itself whenever that is below `2^24`. -/
theorem SetTuple_GetTuple_roundtrip (h : Heap) (this : vtkUnsignedIntArray) (i : Int)
    (floats : List ℚ) (hB : StorageBacked h this) (hi : 0 ≤ i)
    (hfit : (i + 1) * this.NumberOfComponents ≤ this.Size)
    (hlen : floats.length = this.NumberOfComponents.toNat) :
    ∃ h1, SetTuple h this i floats = some h1 ∧
      GetTuple_double h1 this i = some (floats.map (fun x => ((toUnsignedInt x : Nat) : ℚ))) ∧
      GetTuple_float h1 this i = some (floats.map (fun x => toFloat (toUnsignedInt x))) ∧
      ∀ x, toUnsignedInt x < 2 ^ 24 → toFloat (toUnsignedInt x)
          = ((toUnsignedInt x : Nat) : ℚ) := by
  have hex : ∀ x, toUnsignedInt x < 2 ^ 24 →
      toFloat (toUnsignedInt x) = ((toUnsignedInt x : Nat) : ℚ) := by
    intro x hx
    unfold toFloat
    rw [roundToBits_of_lt _ _ hx]
  by_cases hc : this.NumberOfComponents ≤ 0
  · have hz : this.NumberOfComponents.toNat = 0 := by omega
    have hnil : floats = [] := List.length_eq_zero.mp (hlen.trans hz)
    subst hnil
    exact ⟨h, by simp [SetTuple, hz, storeTuple],
      by simp [GetTuple_double, hz, loadTuple], by simp [GetTuple_float, hz, loadTuple], hex⟩
  · have hc1 : 1 ≤ this.NumberOfComponents := by omega
    have hsz := hB.1.1
    have hloc : 0 ≤ i * this.NumberOfComponents := mul_nonneg hi (by omega)
    have hexp : (i + 1) * this.NumberOfComponents =
        i * this.NumberOfComponents + this.NumberOfComponents := by ring
    cases hA : this.Array with
    | none => have hz := hB.2 hA; omega
    | some a =>
      obtain ⟨b, hb, hbl⟩ := hB.1.2 a hA
      obtain ⟨b1, hst, hl1, hk1⟩ := storeTuple_range' a (i * this.NumberOfComponents) floats hloc
        this.NumberOfComponents.toNat 0 h b hb (by omega) (by omega)
      rw [← List.range_eq_range'] at hst
      have hb1 : (Heap.mk (h.cells.set a (some b1)) h.fails h.junk).block a = some b1 :=
        Heap.block_set_self _ _ _ _ _ (Heap.block_lt hb)
      have hread : ∀ j, 0 ≤ j → j < 0 + this.NumberOfComponents.toNat →
          b1[(this.NumberOfComponents * i).toNat + j]? =
            some (toUnsignedInt (floats.getD j 0)) := by
        intro j _ hj
        have hj' : j < floats.length := by omega
        rw [mul_comm, hk1, if_pos (by omega)]
        simp [List.getD_eq_getElem?_getD, List.getElem?_eq_getElem hj']
      have hl := fun cast => loadTuple_range' cast _ a (this.NumberOfComponents * i) b1 hb1
        (by rw [mul_comm]; exact hloc) (fun j => toUnsignedInt (floats.getD j 0))
        this.NumberOfComponents.toNat 0 hread
      refine ⟨_, by simpa [SetTuple, hA] using hst, ?_, ?_, hex⟩
      · unfold GetTuple_double
        rw [hA, List.range_eq_range', hl toDouble, ← hlen]
        simp only [toDouble_toUnsignedInt]
        rw [map_range_getD (fun x => ((toUnsignedInt x : Nat) : ℚ))]
      · unfold GetTuple_float
        rw [hA, List.range_eq_range', hl toFloat, ← hlen]
        rw [map_range_getD (fun x => toFloat (toUnsignedInt x))]

/-- C4 (amended), writing `[3.7, -2.2]` into tuple 0 of the example pairs. -/
theorem SetTuple_GetTuple_roundtrip_witness :
    StorageBacked exampleHeap examplePairs ∧ (0 : Int) ≤ 0 ∧
    ((0 : Int) + 1) * examplePairs.NumberOfComponents ≤ examplePairs.Size ∧
    [mkRat 37 10, mkRat (-22) 10].length = examplePairs.NumberOfComponents.toNat ∧
    ∃ h1, SetTuple exampleHeap examplePairs 0 [mkRat 37 10, mkRat (-22) 10] = some h1 ∧
      GetTuple_double h1 examplePairs 0 =
        some ([mkRat 37 10, mkRat (-22) 10].map (fun x => ((toUnsignedInt x : Nat) : ℚ))) ∧
      GetTuple_float h1 examplePairs 0 =
        some ([mkRat 37 10, mkRat (-22) 10].map (fun x => toFloat (toUnsignedInt x))) ∧
      ∀ x, toUnsignedInt x < 2 ^ 24 → toFloat (toUnsignedInt x) = ((toUnsignedInt x : Nat) : ℚ) :=
  ⟨by decide, by decide, by decide, by decide,
    SetTuple_GetTuple_roundtrip exampleHeap examplePairs 0 [mkRat 37 10, mkRat (-22) 10]
      (by decide) (by decide) (by decide) (by decide)⟩

/-- C4 as stated fails for the `float` overload of `GetTuple`: writing
`[3.7, -2.2]` stores `[3, 4294967294]`, and the `float` buffer reads back
`[3, 4294967296]`, not `[3, 4294967294]`. -/
theorem SetTuple_GetTuple_float_counterexample :
    ∃ h1, SetTuple exampleHeap examplePairs 0 [mkRat 37 10, mkRat (-22) 10] = some h1 ∧
      [toUnsignedInt (mkRat 37 10), toUnsignedInt (mkRat (-22) 10)] = [3, 4294967294] ∧
      GetTuple_float h1 examplePairs 0 = some [3, 4294967296] ∧
      GetTuple_float h1 examplePairs 0 ≠ some [3, 4294967294] := by
  refine ⟨_, rfl, by decide, by decide, by decide⟩

/-- C5: `SetNumberOfTuples(n)` on an array with at least one component per
tuple, for `n >= 0`, from any state in which a block that the array owns is
live: the tuple count `(MaxId+1)/NumberOfComponents` reads back
as `n`, the logical length `MaxId+1` is `n * NumberOfComponents`, and `Size` is
at least that. -/
theorem SetNumberOfTuples_count (h : Heap) (this : vtkUnsignedIntArray) (n : Int)
    (hlive : OwnedLive h this)
    (hc : 1 ≤ this.NumberOfComponents) (hn : 0 ≤ n) :
    ∃ h1 this1, SetNumberOfTuples h this n = some (h1, this1) ∧
      this1.NumberOfComponents = this.NumberOfComponents ∧
      GetNumberOfTuples this1 = some n ∧
      this1.MaxId + 1 = n * this.NumberOfComponents ∧
      n * this.NumberOfComponents ≤ this1.Size := by
  have hdiv : (n * this.NumberOfComponents - 1 + 1).tdiv this.NumberOfComponents = n := by
    rw [sub_add_cancel, Int.tdiv_eq_ediv (mul_nonneg hn (by omega)) (by omega)]
    exact Int.mul_ediv_cancel _ (by omega)
  have hne : ¬ this.NumberOfComponents = 0 := by omega
  unfold SetNumberOfTuples SetNumberOfValues
  by_cases hgt : n * this.NumberOfComponents > this.Size
  · have hn0 : (0 : Int) ≤ if n * this.NumberOfComponents > 0 then n * this.NumberOfComponents
        else 1 := by split <;> omega
    have hle : n * this.NumberOfComponents ≤
        if n * this.NumberOfComponents > 0 then n * this.NumberOfComponents else 1 := by
      split <;> omega
    cases hf : (released h this).fails (released h this).cells.length with
    | false =>
      simp only [Allocate, hgt, if_true, deleteOwned_eq h this hlive, Heap.new_eq hn0 hf]
      exact ⟨_, _, rfl, rfl, by simp [GetNumberOfTuples, hne, hdiv], by simp, hle⟩
    | true =>
      simp only [Allocate, hgt, if_true, deleteOwned_eq h this hlive, Heap.new_fail hn0 hf]
      exact ⟨_, _, rfl, rfl, by simp [GetNumberOfTuples, hne, hdiv], by simp, hle⟩
  · simp only [Allocate, hgt, if_false]
    exact ⟨_, _, rfl, rfl, by simp [GetNumberOfTuples, hne, hdiv], by simp, by
      show n * this.NumberOfComponents ≤ this.Size
      omega⟩

/-- C5, setting two tuples on the example array. -/
theorem SetNumberOfTuples_count_witness :
    OwnedLive exampleHeap exampleArray ∧
    1 ≤ exampleArray.NumberOfComponents ∧ (0 : Int) ≤ 2 ∧
    ∃ h1 this1, SetNumberOfTuples exampleHeap exampleArray 2 = some (h1, this1) ∧
      this1.NumberOfComponents = exampleArray.NumberOfComponents ∧
      GetNumberOfTuples this1 = some 2 ∧
      this1.MaxId + 1 = 2 * exampleArray.NumberOfComponents ∧
      2 * exampleArray.NumberOfComponents ≤ this1.Size :=
  ⟨by decide, by decide, by decide,
    SetNumberOfTuples_count exampleHeap exampleArray 2 (by decide) (by decide) (by decide)⟩

/-- C6: whatever the prior state (no storage, owned storage, borrowed storage),
as long as a block that the array owns is live, `Initialize()` yields
`Size = 0`, `MaxId = -1`, a null storage pointer and a clear save flag, keeps
`NumberOfComponents`, and a second call changes nothing. -/
theorem Initialize_resets (h : Heap) (this : vtkUnsignedIntArray)
    (hlive : OwnedLive h this) :
    ∃ h1 this1, Initialize h this = some (h1, this1) ∧
      this1.Size = 0 ∧ this1.MaxId = -1 ∧ this1.Array = none ∧ this1.SaveUserArray = 0 ∧
      this1.NumberOfComponents = this.NumberOfComponents ∧
      Initialize h1 this1 = some (h1, this1) := by
  refine ⟨_, _, Initialize_eq h this hlive, rfl, rfl, rfl, rfl, rfl, ?_⟩
  simp [Initialize, deleteOwned]

/-- C6, on the example array, which owns its block. -/
theorem Initialize_resets_witness :
    OwnedLive exampleHeap exampleArray ∧
    ∃ h1 this1, Initialize exampleHeap exampleArray = some (h1, this1) ∧
      this1.Size = 0 ∧ this1.MaxId = -1 ∧ this1.Array = none ∧ this1.SaveUserArray = 0 ∧
      this1.NumberOfComponents = exampleArray.NumberOfComponents ∧
      Initialize h1 this1 = some (h1, this1) :=
  ⟨by decide, Initialize_resets exampleHeap exampleArray (by decide)⟩

/-- C7: on a new array with three components per tuple, when the allocation
succeeds, `Allocate(30)` followed by ten calls `InsertNextTuple([1.0, 2.0, 3.0])`
leaves ten tuples, `MaxId = 29`, `GetComponent(5, 1) = 2.0` and `Size = 30`. -/
theorem scenario_ten_tuples (h : Heap) (hf : h.fails h.cells.length = false) :
    ∃ h1 this1 rs h2 this2,
      Allocate h (vtkUnsignedIntArray.ctor 3) 30 = some (1, h1, this1) ∧
      InsertNextTuples h1 this1 (List.replicate 10 [1, 2, 3]) = some (rs, h2, this2) ∧
      GetNumberOfTuples this2 = some 10 ∧ this2.MaxId = 29 ∧
      GetComponent h2 this2 5 1 = some 2 ∧ this2.Size = 30 := by
  have hA := Allocate_grows h (vtkUnsignedIntArray.ctor 3) 30
    (fun a ha => by simp [vtkUnsignedIntArray.ctor] at ha) (by decide) hf
  have hB : StorageBacked
      (Heap.mk (h.cells ++ [some (h.fresh 30)]) h.fails h.junk)
      { vtkUnsignedIntArray.ctor 3 with Size := 30, Array := some h.cells.length,
                                        SaveUserArray := 0, MaxId := -1 } := by
    refine ⟨⟨?_, ?_⟩, fun hn => by simp at hn⟩
    · show (0 : Int) ≤ 30
      decide
    intro a ha
    have he : a = h.cells.length := by simpa using ha.symm
    subst he
    exact ⟨_, Heap.block_append_new _ _ _ _, by simp [Heap.fresh_length]⟩
  obtain ⟨h2, this2, hI, hM, hC, _, _, hfit, _, hnew⟩ :=
    InsertNextTuples_spec (List.replicate 10 [1, 2, 3])
      (Heap.mk (h.cells ++ [some (h.fresh 30)]) h.fails h.junk)
      { vtkUnsignedIntArray.ctor 3 with Size := 30, Array := some h.cells.length,
                                        SaveUserArray := 0, MaxId := -1 }
      0 hB (by show (1 : Int) ≤ 3; decide) (by show (-1 : Int) = (0 : Nat) * 3 - 1; decide)
      (by show ((0 : Nat) : Int) * 3 ≤ 30; decide)
      (fun hlt => absurd hlt (by
        show ¬ ((30 : Int) <
          (((0 : Nat) : Int) + ((List.replicate 10 [(1 : ℚ), 2, 3]).length : Nat)) * 3)
        decide))
      (by
        intro t ht
        rw [List.eq_of_mem_replicate ht]
        show (3 : Int).toNat ≤ 3
        decide)
  have hC3 : this2.NumberOfComponents = 3 := hC
  have hM29 : this2.MaxId = 29 := by
    rw [hM]
    show (((0 : Nat) : Int) + ((List.replicate 10 [(1 : ℚ), 2, 3]).length : Nat)) * 3 - 1 = 29
    decide
  refine ⟨_, _, _, h2, this2, hA, hI, ?_, hM29, ?_, ?_⟩
  · simp [GetNumberOfTuples, hM29, hC3]
    decide
  · have hs := hnew 5 1 (by decide) (by show ((1 : Nat) : Int) < 3; decide)
    have hidx : h2.read this2.Array (5 * 3 + 1) = some 2 := by
      refine Eq.trans ?_ (hs.trans ?_)
      · rfl
      · simp [toUnsignedInt]
    unfold GetComponent GetValue
    rw [hC3, hidx]
    simp [toFloat, roundToBits]
  · exact (hfit (by
      show (((0 : Nat) : Int) + ((List.replicate 10 [(1 : ℚ), 2, 3]).length : Nat)) * 3 ≤ 30
      decide)).1

/-- C7, on the empty heap. -/
theorem scenario_ten_tuples_witness :
    emptyHeap.fails emptyHeap.cells.length = false ∧
    ∃ h1 this1 rs h2 this2,
      Allocate emptyHeap (vtkUnsignedIntArray.ctor 3) 30 = some (1, h1, this1) ∧
      InsertNextTuples h1 this1 (List.replicate 10 [1, 2, 3]) = some (rs, h2, this2) ∧
      GetNumberOfTuples this2 = some 10 ∧ this2.MaxId = 29 ∧
      GetComponent h2 this2 5 1 = some 2 ∧ this2.Size = 30 :=
  ⟨rfl, scenario_ten_tuples emptyHeap rfl⟩

/-- C8: from a state with `Size >= 0` in which a block that the array owns is
live, an `Allocate(sz)` whose allocation succeeds returns 1 with `MaxId = -1`
and `Size = max(old Size, sz)`; for `sz <= old Size` the heap, the storage
pointer and the save flag are unchanged;
for `sz > old Size` the new `Size` is `max(sz, 1)` and the array owns a new live
block of that size. -/
theorem Allocate_success (h : Heap) (this : vtkUnsignedIntArray) (sz : Int)
    (hlive : OwnedLive h this)
    (hsz : 0 ≤ this.Size) (hf : sz > this.Size → h.fails h.cells.length = false) :
    ∃ h1 this1, Allocate h this sz = some (1, h1, this1) ∧
      this1.MaxId = -1 ∧ this1.Size = max this.Size sz ∧
      this1.NumberOfComponents = this.NumberOfComponents ∧
      (sz ≤ this.Size → h1 = h ∧ this1.Array = this.Array ∧
        this1.SaveUserArray = this.SaveUserArray) ∧
      (sz > this.Size → this1.Size = max sz 1 ∧ this1.SaveUserArray = 0 ∧
        ∃ p b, this1.Array = some p ∧ h1.block p = some b ∧ (b.length : Int) = this1.Size ∧
          h.block p = none) := by
  by_cases hgt : sz > this.Size
  · have hsel : (if sz > 0 then sz else 1) = sz := by
      have : sz > 0 := by omega
      simp [this]
    refine ⟨_, _, Allocate_grows h this sz hlive hgt (hf hgt), rfl, ?_, rfl, ?_, ?_⟩
    · show (if sz > 0 then sz else 1) = max this.Size sz
      rw [hsel]; omega
    · intro hle; omega
    · intro _
      refine ⟨?_, rfl, h.cells.length,
        (released h this).fresh (if sz > 0 then sz else 1).toNat, rfl, ?_, ?_, ?_⟩
      · show (if sz > 0 then sz else 1) = max sz 1
        rw [hsel]; omega
      · rw [← released_length h this]
        exact Heap.block_append_new _ _ _ _
      · show ((Heap.fresh _ _).length : Int) = if sz > 0 then sz else 1
        rw [Heap.fresh_length, hsel]; omega
      · cases hb : h.block h.cells.length with
        | none => rfl
        | some b => exact absurd (Heap.block_lt hb) (lt_irrefl _)
  · refine ⟨h, { this with MaxId := -1 }, ?_, rfl, ?_, rfl, ?_, ?_⟩
    · simp [Allocate, hgt]
    · show this.Size = max this.Size sz
      omega
    · intro _; exact ⟨rfl, rfl, rfl⟩
    · intro hc; exact absurd hc hgt

/-- C8, growing the example array to five elements. -/
theorem Allocate_success_witness :
    OwnedLive exampleHeap exampleArray ∧ 0 ≤ exampleArray.Size ∧
    (5 > exampleArray.Size → exampleHeap.fails exampleHeap.cells.length = false) ∧
    ∃ h1 this1, Allocate exampleHeap exampleArray 5 = some (1, h1, this1) ∧
      this1.MaxId = -1 ∧ this1.Size = max exampleArray.Size 5 ∧
      this1.NumberOfComponents = exampleArray.NumberOfComponents ∧
      (5 ≤ exampleArray.Size → h1 = exampleHeap ∧ this1.Array = exampleArray.Array ∧
        this1.SaveUserArray = exampleArray.SaveUserArray) ∧
      (5 > exampleArray.Size → this1.Size = max 5 1 ∧ this1.SaveUserArray = 0 ∧
        ∃ p b, this1.Array = some p ∧ h1.block p = some b ∧ (b.length : Int) = this1.Size ∧
          exampleHeap.block p = none) :=
  ⟨by decide, by decide, fun _ => rfl,
    Allocate_success exampleHeap exampleArray 5 (by decide) (by decide) (fun _ => rfl)⟩

/-- C9: from a state with valid storage, when the allocation succeeds,
`ResizeAndExtend(sz)` gives `Size = old Size + sz` for `sz > Size`, changes
nothing and returns the current storage for `sz = Size`, and gives `Size = sz`
for `0 < sz < Size`; in the two resizing cases the array owns the storage it
returns. -/
theorem ResizeAndExtend_capacity (h : Heap) (this : vtkUnsignedIntArray) (sz : Int)
    (hok : StorageOk h this) (hf : sz ≠ this.Size → h.fails h.cells.length = false) :
    ∃ r h1 this1, ResizeAndExtend h this sz = some (r, h1, this1) ∧
      (sz > this.Size → this1.Size = this.Size + sz ∧ r = this1.Array ∧ OwnsStorage h1 this1) ∧
      (sz = this.Size → r = this.Array ∧ h1 = h ∧ this1 = this) ∧
      (0 < sz → sz < this.Size → this1.Size = sz ∧ r = this1.Array ∧ OwnsStorage h1 this1) := by
  have hsz := hok.1
  by_cases heq : sz = this.Size
  · refine ⟨this.Array, h, this, by simp [ResizeAndExtend, heq], fun hgt => by omega,
      fun _ => ⟨rfl, rfl, rfl⟩, fun _ hlt => by omega⟩
  · by_cases hpos : 0 < (if sz > this.Size then this.Size + sz else sz)
    · obtain ⟨b1, hb1, hl1, _⟩ := reallocated_ok h this
        (if sz > this.Size then this.Size + sz else sz).toNat (min sz this.Size).toNat hok
        (by split <;> omega) (by omega)
      refine ⟨_, _, _, ResizeAndExtend_realloc h this sz _ hok heq rfl hpos (hf heq), ?_, ?_, ?_⟩
      · intro hgt
        refine ⟨by simp [hgt], rfl, rfl, h.cells.length, b1, rfl, hb1, ?_⟩
        rw [hl1]
        show _ = (if sz > this.Size then this.Size + sz else sz)
        omega
      · intro hc; exact absurd hc heq
      · intro _ hlt
        have hng : ¬ sz > this.Size := by omega
        refine ⟨by simp [hng], rfl, rfl, h.cells.length, b1, rfl, hb1, ?_⟩
        rw [hl1]
        show _ = (if sz > this.Size then this.Size + sz else sz)
        omega
    · have hlt : sz < this.Size := by split at hpos <;> omega
      have hle : sz ≤ 0 := by split at hpos <;> omega
      exact ⟨_, _, _, ResizeAndExtend_release h this sz hok hlt hle, fun hgt => by omega,
        fun hc => absurd hc heq, fun h0 _ => by omega⟩

/-- C9, growing the example array by five. -/
theorem ResizeAndExtend_capacity_witness :
    StorageOk exampleHeap exampleArray ∧
    (5 ≠ exampleArray.Size → exampleHeap.fails exampleHeap.cells.length = false) ∧
    ∃ r h1 this1, ResizeAndExtend exampleHeap exampleArray 5 = some (r, h1, this1) ∧
      (5 > exampleArray.Size →
        this1.Size = exampleArray.Size + 5 ∧ r = this1.Array ∧ OwnsStorage h1 this1) ∧
      (5 = exampleArray.Size → r = exampleArray.Array ∧ h1 = exampleHeap ∧ this1 = exampleArray) ∧
      ((0 : Int) < 5 → 5 < exampleArray.Size →
        this1.Size = 5 ∧ r = this1.Array ∧ OwnsStorage h1 this1) :=
  ⟨by decide, fun _ => rfl,
    ResizeAndExtend_capacity exampleHeap exampleArray 5 (by decide) (fun _ => rfl)⟩

/-- C10: from a state with valid storage, for a tuple count `n` with
`n * NumberOfComponents` different from `Size`: when the product is positive
(and the allocation succeeds) `Resize(n)` leaves `Size` equal to the product
and keeps the first `min(new Size, old Size)` scalars; when the product is not
positive `Resize(n)` is `Initialize()`, which yields the empty state. -/
theorem Resize_exact (h : Heap) (this : vtkUnsignedIntArray) (n : Int)
    (hok : StorageOk h this) (hne : n * this.NumberOfComponents ≠ this.Size)
    (hf : 0 < n * this.NumberOfComponents → h.fails h.cells.length = false) :
    (0 < n * this.NumberOfComponents →
      ∃ h1 this1, Resize h this n = some (h1, this1) ∧
        this1.Size = n * this.NumberOfComponents ∧
        ∀ k : Nat, (k : Int) < min this1.Size this.Size →
          ∀ v, scalarAt h this k = some v → scalarAt h1 this1 k = some v) ∧
    (n * this.NumberOfComponents ≤ 0 →
      Resize h this n = Initialize h this ∧
      ∃ h1, Initialize h this = some (h1,
        { this with Array := none, Size := 0, MaxId := -1, SaveUserArray := 0 })) := by
  have hsz := hok.1
  constructor
  · intro hpos
    obtain ⟨b1, hb1, _, hk1⟩ := reallocated_ok h this (n * this.NumberOfComponents).toNat
      (min (n * this.NumberOfComponents) this.Size).toNat hok (by omega) (by omega)
    refine ⟨_, _, Resize_realloc h this n hok hne hpos (hf hpos), rfl, ?_⟩
    intro k hk v hv
    rw [scalarAt_of_block k rfl hb1]
    exact hk1 k (by
      have hk' : (k : Int) < min (n * this.NumberOfComponents) this.Size := hk
      omega) v hv
  · intro hle
    refine ⟨?_, _, Initialize_eq h this hok.live⟩
    simp [Resize, hne, hle]

/-- C10, shrinking the example array to two tuples. -/
theorem Resize_exact_witness :
    StorageOk exampleHeap exampleArray ∧
    2 * exampleArray.NumberOfComponents ≠ exampleArray.Size ∧
    (0 < 2 * exampleArray.NumberOfComponents →
      exampleHeap.fails exampleHeap.cells.length = false) ∧
    (0 < 2 * exampleArray.NumberOfComponents →
      ∃ h1 this1, Resize exampleHeap exampleArray 2 = some (h1, this1) ∧
        this1.Size = 2 * exampleArray.NumberOfComponents ∧
        ∀ k : Nat, (k : Int) < min this1.Size exampleArray.Size →
          ∀ v, scalarAt exampleHeap exampleArray k = some v → scalarAt h1 this1 k = some v) ∧
    (2 * exampleArray.NumberOfComponents ≤ 0 →
      Resize exampleHeap exampleArray 2 = Initialize exampleHeap exampleArray ∧
      ∃ h1, Initialize exampleHeap exampleArray = some (h1,
        { exampleArray with Array := none, Size := 0, MaxId := -1, SaveUserArray := 0 })) :=
  ⟨by decide, by decide, fun _ => rfl,
    Resize_exact exampleHeap exampleArray 2 (by decide) (by decide) (fun _ => rfl)⟩

/-- C11: the shrink does not clamp. On the example array with one value
written (`Size = 3`, `MaxId = 0`), `ResizeAndExtend(2)` leaves `MaxId = 1`,
above the old `MaxId` and not `min(old MaxId, sz - 1) = 0`. -/
theorem ResizeAndExtend_shrink_raises_MaxId :
    ∃ r h1 this1, ResizeAndExtend exampleHeap exampleSparse 2 = some (r, h1, this1) ∧
      this1.MaxId = 1 ∧ min exampleSparse.MaxId (2 - 1) = 0 ∧
      this1.MaxId ≠ min exampleSparse.MaxId (2 - 1) :=
  ⟨_, _, _, rfl, rfl, rfl, by decide⟩

/-- C12: from a state with `Size > 0` in which a block that the array owns is
live, `ResizeAndExtend(sz)` with `sz <= 0` returns the null pointer and leaves
exactly the state that `Initialize()` produces: `Size = 0`, `MaxId = -1`, null
storage. -/
theorem ResizeAndExtend_nonpositive (h : Heap) (this : vtkUnsignedIntArray) (sz : Int)
    (hlive : OwnedLive h this) (hS : 0 < this.Size) (hsz : sz ≤ 0) :
    ∃ h1 this1, Initialize h this = some (h1, this1) ∧
      ResizeAndExtend h this sz = some (none, h1, this1) ∧
      this1.Size = 0 ∧ this1.MaxId = -1 ∧ this1.Array = none :=
  ⟨_, _, Initialize_eq h this hlive,
    ResizeAndExtend_nonpositive_eq h this sz hlive (by omega) hsz, rfl, rfl, rfl⟩

/-- C12, on the example array with target size zero. -/
theorem ResizeAndExtend_nonpositive_witness :
    OwnedLive exampleHeap exampleArray ∧ 0 < exampleArray.Size ∧ (0 : Int) ≤ 0 ∧
    ∃ h1 this1, Initialize exampleHeap exampleArray = some (h1, this1) ∧
      ResizeAndExtend exampleHeap exampleArray 0 = some (none, h1, this1) ∧
      this1.Size = 0 ∧ this1.MaxId = -1 ∧ this1.Array = none :=
  ⟨by decide, by decide, by decide,
    ResizeAndExtend_nonpositive exampleHeap exampleArray 0 (by decide) (by decide) (by decide)⟩

/-- C13: from a state in which a block that the array owns is live, when the
caller's buffer is not that block, `SetArray(array, size, save)` stores the
caller's pointer itself, leaves the block behind it as it was (reading scalar
`k` of the array is reading `array[k]`), sets `Size = size` and
`MaxId = size - 1` and keeps `NumberOfComponents`. -/
theorem SetArray_references_buffer (h : Heap) (this : vtkUnsignedIntArray) (array : Option Nat)
    (size save : Int) (hlive : OwnedLive h this)
    (hne : array = this.Array → array = none ∨ this.SaveUserArray ≠ 0) :
    ∃ h1 this1, SetArray h this array size save = some (h1, this1) ∧
      this1.Array = array ∧
      (∀ a, array = some a → h1.block a = h.block a) ∧
      (∀ k : Nat, (k : Int) < size → scalarAt h1 this1 k = h.read array k) ∧
      this1.Size = size ∧ this1.MaxId = size - 1 ∧
      this1.NumberOfComponents = this.NumberOfComponents := by
  have hblk : ∀ a, array = some a → (released h this).block a = h.block a := by
    intro a ha
    apply released_block_other
    intro hA
    rcases hne (ha.trans hA.symm) with hn | hs
    · rw [ha] at hn
      exact absurd hn (by simp)
    · exact hs
  refine ⟨released h this,
    ({ this with Array := array, Size := size, MaxId := size - 1, SaveUserArray := save } :
      vtkUnsignedIntArray),
    by simp [SetArray, deleteOwned_eq h this hlive], rfl, hblk, ?_, rfl, rfl, rfl⟩
  intro k _
  show (released h this).read array k = h.read array k
  cases ha : array with
  | none => rfl
  | some a => simp [Heap.read, hblk a ha]

/-- C13, handing block 0 of the example heap to a new array. -/
theorem SetArray_references_buffer_witness :
    OwnedLive exampleHeap (vtkUnsignedIntArray.ctor 1) ∧
    (some 0 = (vtkUnsignedIntArray.ctor 1).Array →
      (some 0 : Option Nat) = none ∨ (vtkUnsignedIntArray.ctor 1).SaveUserArray ≠ 0) ∧
    ∃ h1 this1, SetArray exampleHeap (vtkUnsignedIntArray.ctor 1) (some 0) 3 1 = some (h1, this1) ∧
      this1.Array = some 0 ∧
      (∀ a, some 0 = some a → h1.block a = exampleHeap.block a) ∧
      (∀ k : Nat, (k : Int) < 3 → scalarAt h1 this1 k = exampleHeap.read (some 0) k) ∧
      this1.Size = 3 ∧ this1.MaxId = 3 - 1 ∧
      this1.NumberOfComponents = (vtkUnsignedIntArray.ctor 1).NumberOfComponents :=
  ⟨by decide, by decide,
    SetArray_references_buffer exampleHeap (vtkUnsignedIntArray.ctor 1) (some 0) 3 1
      (by decide) (by decide)⟩

/-- C14 (amended): from a state in which a block that the array owns is live,
when the supplied block is live and is not that block, after
`SetArray(array, size, save)` the save flag is `save` and the array owns the
supplied storage exactly when `save` is zero: `Initialize()`, the destructor
and a growing `Allocate` release the block if and only if `save = 0`. -/
theorem SetArray_owns_iff_save_clear (h : Heap) (this : vtkUnsignedIntArray) (a : Nat)
    (b : Block) (size save : Int) (hlive : OwnedLive h this)
    (hne : this.Array = some a → this.SaveUserArray ≠ 0) (hb : h.block a = some b) :
    ∃ h1 this1, SetArray h this (some a) size save = some (h1, this1) ∧
      this1.SaveUserArray = save ∧ h1.block a = some b ∧
      (∃ h2 this2, Initialize h1 this1 = some (h2, this2) ∧ (h2.block a = none ↔ save = 0)) ∧
      (∃ h2, this1.dtor h1 = some h2 ∧ (h2.block a = none ↔ save = 0)) ∧
      (∀ sz, sz > size → ∃ r h2 this2, Allocate h1 this1 sz = some (r, h2, this2) ∧
        (h2.block a = none ↔ save = 0)) := by
  have hb1 : (released h this).block a = some b :=
    (released_block_other h this a hne).trans hb
  have ha1 := Heap.block_lt hb1
  have hlive1 : OwnedLive (released h this)
      ({ this with Array := some a, Size := size, MaxId := size - 1, SaveUserArray := save } :
        vtkUnsignedIntArray) := by
    intro a1 hA1 _
    have he : a1 = a := by simpa using hA1.symm
    subst he
    exact ⟨b, hb1⟩
  have hrel : (released (released h this)
      ({ this with Array := some a, Size := size, MaxId := size - 1, SaveUserArray := save } :
        vtkUnsignedIntArray)).block a = none ↔ save = 0 := by
    by_cases hs : save = 0
    · simp only [hs, iff_true]
      exact released_block_owned _ _ a rfl rfl
    · simp only [hs, iff_false]
      rw [released_block_other _ _ a (fun _ => hs), hb1]
      simp
  refine ⟨released h this,
    ({ this with Array := some a, Size := size, MaxId := size - 1, SaveUserArray := save } :
      vtkUnsignedIntArray),
    by simp [SetArray, deleteOwned_eq h this hlive], rfl, hb1, ?_, ?_, ?_⟩
  · exact ⟨_, _, Initialize_eq _ _ hlive1, hrel⟩
  · exact ⟨_, deleteOwned_eq _ _ hlive1, hrel⟩
  · intro sz hgt
    have hlen := released_length (released h this)
      ({ this with Array := some a, Size := size, MaxId := size - 1, SaveUserArray := save } :
        vtkUnsignedIntArray)
    cases hf : (released h this).fails (released h this).cells.length with
    | false =>
      refine ⟨_, _, _, Allocate_grows _ _ sz hlive1 hgt hf, ?_⟩
      rw [Heap.block_cells_append _ _ a (by rw [hlen]; exact ha1)]
      exact hrel
    | true =>
      refine ⟨_, _, _, Allocate_fails _ _ sz hlive1 hgt hf, ?_⟩
      rw [Heap.block_cells_append _ _ a (by rw [hlen]; exact ha1)]
      exact hrel

/-- C14 (amended), handing block 0 of the example heap to a new array with
the save flag clear. -/
theorem SetArray_owns_iff_save_clear_witness :
    OwnedLive exampleHeap (vtkUnsignedIntArray.ctor 1) ∧
    ((vtkUnsignedIntArray.ctor 1).Array = some 0 →
      (vtkUnsignedIntArray.ctor 1).SaveUserArray ≠ 0) ∧
    exampleHeap.block 0 = some [5, 6, 7] ∧
    ∃ h1 this1, SetArray exampleHeap (vtkUnsignedIntArray.ctor 1) (some 0) 3 0 = some (h1, this1) ∧
      this1.SaveUserArray = 0 ∧ h1.block 0 = some [5, 6, 7] ∧
      (∃ h2 this2, Initialize h1 this1 = some (h2, this2) ∧
        (h2.block 0 = none ↔ (0 : Int) = 0)) ∧
      (∃ h2, this1.dtor h1 = some h2 ∧ (h2.block 0 = none ↔ (0 : Int) = 0)) ∧
      (∀ sz, sz > 3 → ∃ r h2 this2, Allocate h1 this1 sz = some (r, h2, this2) ∧
        (h2.block 0 = none ↔ (0 : Int) = 0)) :=
  ⟨by decide, by decide, rfl,
    SetArray_owns_iff_save_clear exampleHeap (vtkUnsignedIntArray.ctor 1) 0 [5, 6, 7] 3 0
      (by decide) (by decide) rfl⟩

/-- C14 as stated fails: after `SetArray(array, 3, 1)`, with the flag set, the
array does not own the storage: neither `Initialize()` nor the destructor
releases the block; after `SetArray(array, 3, 0)`, with the flag clear, both
release it. -/
theorem SetArray_save_set_counterexample :
    (∃ h1 this1 h2 this2 h3,
      SetArray exampleHeap (vtkUnsignedIntArray.ctor 1) (some 0) 3 1 = some (h1, this1) ∧
      Initialize h1 this1 = some (h2, this2) ∧ h2.block 0 = some [5, 6, 7] ∧
      this1.dtor h1 = some h3 ∧ h3.block 0 = some [5, 6, 7]) ∧
    (∃ h1 this1 h2 this2 h3,
      SetArray exampleHeap (vtkUnsignedIntArray.ctor 1) (some 0) 3 0 = some (h1, this1) ∧
      Initialize h1 this1 = some (h2, this2) ∧ h2.block 0 = none ∧
      this1.dtor h1 = some h3 ∧ h3.block 0 = none) :=
  ⟨⟨_, _, _, _, _, rfl, rfl, rfl, rfl, rfl⟩, ⟨_, _, _, _, _, rfl, rfl, rfl, rfl, rfl⟩⟩

/-- C15: from a state backed by memory (an empty array with no storage
included), for a tuple index `i >= 0`, at least one component per tuple and an
input tuple of `NumberOfComponents` values, when the allocation (if one is
needed) succeeds, `InsertTuple(i, values)` leaves `Size >= (i+1) * comp` and
`MaxId >= (i+1) * comp - 1`, tuple `i` holds `truncate(values[j])` in every
component `j` (as a stored value and as read through `GetTuple` into a `double`
buffer), and every scalar below the old `Size` outside tuple `i` is unchanged. -/
theorem InsertTuple_makes_slot (h : Heap) (this : vtkUnsignedIntArray) (i : Int)
    (values : List ℚ) (hB : StorageBacked h this)
    (hf : this.Size < (i + 1) * this.NumberOfComponents → h.fails h.cells.length = false)
    (hi : 0 ≤ i) (hc : 1 ≤ this.NumberOfComponents)
    (hlen : values.length = this.NumberOfComponents.toNat) :
    ∃ h2 this1, InsertTuple h this i values = some (h2, this1) ∧
      this1.NumberOfComponents = this.NumberOfComponents ∧
      (i + 1) * this.NumberOfComponents ≤ this1.Size ∧
      (i + 1) * this.NumberOfComponents - 1 ≤ this1.MaxId ∧
      (∀ j : Nat, (j : Int) < this.NumberOfComponents →
        GetValue h2 this1 (i * this.NumberOfComponents + j) =
          (values[j]?).map toUnsignedInt) ∧
      GetTuple_double h2 this1 i = some (values.map (fun x => ((toUnsignedInt x : Nat) : ℚ))) ∧
      (∀ k : Nat, (k : Int) < this.Size →
        ¬ (i * this.NumberOfComponents ≤ (k : Int) ∧
            (k : Int) < (i + 1) * this.NumberOfComponents) →
        scalarAt h2 this1 k = scalarAt h this k) := by
  have hexp : (i + 1) * this.NumberOfComponents =
      i * this.NumberOfComponents + this.NumberOfComponents := by ring
  have hloc : 0 ≤ i * this.NumberOfComponents := mul_nonneg hi (by omega)
  obtain ⟨h1, this1, h2, hW, hS, hmax, hcomp, hB2, _, hsize, _, _, hold, hnew⟩ :=
    writeTuple_step h this (i * this.NumberOfComponents) this.NumberOfComponents values hB
      (by rw [← hexp]; exact hf) hloc hc (by omega)
  have hget : ∀ j : Nat, (j : Int) < this.NumberOfComponents →
      h2.read this1.Array (i * this.NumberOfComponents + j) = (values[j]?).map toUnsignedInt := by
    intro j hj
    have e := hnew j hj
    unfold scalarAt at e
    rw [← e]
    congr 1
    omega
  refine ⟨h2, this1, ?_, hcomp, by rw [hexp]; exact hsize, by rw [hexp, hmax]; omega, hget,
    ?_, ?_⟩
  · unfold InsertTuple
    simp only [hW, hcomp, hS]
  · cases hA : this1.Array with
    | none => have hz := hB2.2 hA; omega
    | some a =>
      obtain ⟨b, hb, _⟩ := hB2.1.2 a hA
      have hread : ∀ j, 0 ≤ j → j < 0 + this.NumberOfComponents.toNat →
          b[(this.NumberOfComponents * i).toNat + j]? =
            some (toUnsignedInt (values.getD j 0)) := by
        intro j _ hj
        have hj' : j < values.length := by omega
        have e := hnew j (by omega)
        rw [scalarAt_of_block _ hA hb] at e
        rw [mul_comm, e]
        simp [List.getD_eq_getElem?_getD, List.getElem?_eq_getElem hj']
      have hl := loadTuple_range' toDouble h2 a (this.NumberOfComponents * i) b hb
        (by rw [mul_comm]; exact hloc) (fun j => toUnsignedInt (values.getD j 0))
        this.NumberOfComponents.toNat 0 hread
      unfold GetTuple_double
      rw [hcomp, hA, List.range_eq_range', hl, ← hlen]
      simp only [toDouble_toUnsignedInt]
      rw [map_range_getD (fun x => ((toUnsignedInt x : Nat) : ℚ))]
  · intro k hk hnot
    exact hold k hk (by rw [← hexp]; exact hnot)

/-- C15, inserting tuple 1 into a new two-component array without storage. -/
theorem InsertTuple_makes_slot_witness :
    StorageBacked emptyHeap (vtkUnsignedIntArray.ctor 2) ∧
    ((vtkUnsignedIntArray.ctor 2).Size < ((1 : Int) + 1) *
      (vtkUnsignedIntArray.ctor 2).NumberOfComponents →
      emptyHeap.fails emptyHeap.cells.length = false) ∧
    (0 : Int) ≤ 1 ∧ 1 ≤ (vtkUnsignedIntArray.ctor 2).NumberOfComponents ∧
    [mkRat 37 10, mkRat (-22) 10].length = (vtkUnsignedIntArray.ctor 2).NumberOfComponents.toNat ∧
    ∃ h2 this1, InsertTuple emptyHeap (vtkUnsignedIntArray.ctor 2) 1
        [mkRat 37 10, mkRat (-22) 10] = some (h2, this1) ∧
      this1.NumberOfComponents = (vtkUnsignedIntArray.ctor 2).NumberOfComponents ∧
      ((1 : Int) + 1) * (vtkUnsignedIntArray.ctor 2).NumberOfComponents ≤ this1.Size ∧
      ((1 : Int) + 1) * (vtkUnsignedIntArray.ctor 2).NumberOfComponents - 1 ≤ this1.MaxId ∧
      (∀ j : Nat, (j : Int) < (vtkUnsignedIntArray.ctor 2).NumberOfComponents →
        GetValue h2 this1 (1 * (vtkUnsignedIntArray.ctor 2).NumberOfComponents + j) =
          (([mkRat 37 10, mkRat (-22) 10] : List ℚ)[j]?).map toUnsignedInt) ∧
      GetTuple_double h2 this1 1 =
        some ([mkRat 37 10, mkRat (-22) 10].map (fun x => ((toUnsignedInt x : Nat) : ℚ))) ∧
      (∀ k : Nat, (k : Int) < (vtkUnsignedIntArray.ctor 2).Size →
        ¬ (1 * (vtkUnsignedIntArray.ctor 2).NumberOfComponents ≤ (k : Int) ∧
            (k : Int) < ((1 : Int) + 1) * (vtkUnsignedIntArray.ctor 2).NumberOfComponents) →
        scalarAt h2 this1 k = scalarAt emptyHeap (vtkUnsignedIntArray.ctor 2) k) :=
  ⟨by decide, fun _ => rfl, by decide, by decide, by decide,
    InsertTuple_makes_slot emptyHeap (vtkUnsignedIntArray.ctor 2) 1 [mkRat 37 10, mkRat (-22) 10]
      (by decide) (fun _ => rfl) (by decide) (by decide) (by decide)⟩

/-- C16 (amended): `MaxId < Size` holds in the empty state left by the
constructor, and from every state backed by memory (so with `Size >= 0`) that
satisfies it, when the allocation (if one is needed) succeeds, every operation
returns a state that satisfies it: `SetArray`, `Allocate`, `Initialize`,
`DeepCopy` from a source that satisfies it, `ResizeAndExtend`, `Resize`,
`SetNumberOfTuples`, `InsertTuple`, `InsertNextTuple` and `InsertComponent`, for
all arguments for which the write of the inserting methods is defined. -/
theorem MaxId_below_Size_preserved
    (superDeepCopy : Heap → vtkUnsignedIntArray → Option (Heap × vtkUnsignedIntArray))
    (h : Heap) (this : vtkUnsignedIntArray) (hB : StorageBacked h this)
    (hInv : MaxIdBelowSize this) (hf : h.fails h.cells.length = false) :
    (∀ numComp, MaxIdBelowSize (vtkUnsignedIntArray.ctor numComp)) ∧
    (∀ array size save, ∃ h1 this1,
      SetArray h this array size save = some (h1, this1) ∧ MaxIdBelowSize this1) ∧
    (∀ sz, ∃ r h1 this1, Allocate h this sz = some (r, h1, this1) ∧ MaxIdBelowSize this1) ∧
    (∃ h1 this1, Initialize h this = some (h1, this1) ∧ MaxIdBelowSize this1) ∧
    (∀ sa, StorageBacked h sa → NotOwnerOf this sa → MaxIdBelowSize sa →
      ∃ h1 this1, DeepCopy superDeepCopy h this (.unsignedInt sa) = some (h1, this1) ∧
        MaxIdBelowSize this1) ∧
    (∀ sz, ∃ r h1 this1, ResizeAndExtend h this sz = some (r, h1, this1) ∧
      MaxIdBelowSize this1) ∧
    (∀ sz, ∃ h1 this1, Resize h this sz = some (h1, this1) ∧ MaxIdBelowSize this1) ∧
    (∀ n, ∃ h1 this1, SetNumberOfTuples h this n = some (h1, this1) ∧ MaxIdBelowSize this1) ∧
    (∀ i values, 0 ≤ i → 1 ≤ this.NumberOfComponents →
      this.NumberOfComponents.toNat ≤ values.length →
      ∃ h1 this1, InsertTuple h this i values = some (h1, this1) ∧ MaxIdBelowSize this1) ∧
    (∀ values, -1 ≤ this.MaxId → 1 ≤ this.NumberOfComponents →
      this.NumberOfComponents.toNat ≤ values.length →
      ∃ r h1 this1, InsertNextTuple h this values = some (r, h1, this1) ∧
        MaxIdBelowSize this1) ∧
    (∀ i j c, 0 ≤ i * this.NumberOfComponents + j →
      ∃ h1 this1, InsertComponent h this i j c = some (h1, this1) ∧ MaxIdBelowSize this1) := by
  have hlive := hB.1.live
  refine ⟨?_, ?_, ?_, ?_, ?_, ?_, ?_, ?_, ?_, ?_, ?_⟩
  · intro numComp
    show (-1 : Int) < 0
    decide
  · intro array size save
    refine ⟨released h this,
      ({ this with Array := array, Size := size, MaxId := size - 1, SaveUserArray := save } :
        vtkUnsignedIntArray), by simp [SetArray, deleteOwned_eq h this hlive], ?_⟩
    show size - 1 < size
    omega
  · intro sz
    exact Allocate_keeps_bound h this sz hlive hB.1.1 hInv
  · refine ⟨_, _, Initialize_eq h this hlive, ?_⟩
    show (-1 : Int) < 0
    decide
  · intro sa hsa hd hI
    exact DeepCopy_keeps_bound superDeepCopy h this sa hlive hsa hd hf hI
  · intro sz
    exact ResizeAndExtend_keeps_bound h this sz hB.1 hInv
  · intro sz
    exact Resize_keeps_bound h this sz hB.1 hInv
  · intro n
    exact SetNumberOfTuples_bound h this n hlive
  · intro i values hi hc hlen
    exact InsertTuple_keeps_bound h this i values hB hInv hf hi hc hlen
  · intro values hm hc hlen
    exact InsertNextTuple_keeps_bound h this values hB hf hm hc hlen
  · intro i j c hid
    exact InsertComponent_keeps_bound h this i j c hB hInv hf hid

/-- C16 (amended), on the example array. -/
theorem MaxId_below_Size_preserved_witness :
    StorageBacked exampleHeap exampleArray ∧ MaxIdBelowSize exampleArray ∧
    exampleHeap.fails exampleHeap.cells.length = false ∧
    ((∀ numComp, MaxIdBelowSize (vtkUnsignedIntArray.ctor numComp)) ∧
    (∀ array size save, ∃ h1 this1,
      SetArray exampleHeap exampleArray array size save = some (h1, this1) ∧ MaxIdBelowSize this1) ∧
    (∀ sz, ∃ r h1 this1, Allocate exampleHeap exampleArray sz = some (r, h1, this1) ∧
        MaxIdBelowSize this1) ∧
    (∃ h1 this1, Initialize exampleHeap exampleArray = some (h1, this1) ∧ MaxIdBelowSize this1) ∧
    (∀ sa, StorageBacked exampleHeap sa → NotOwnerOf exampleArray sa → MaxIdBelowSize sa →
      ∃ h1 this1, DeepCopy (fun _ _ => none) exampleHeap exampleArray (.unsignedInt sa)
          = some (h1, this1) ∧
        MaxIdBelowSize this1) ∧
    (∀ sz, ∃ r h1 this1, ResizeAndExtend exampleHeap exampleArray sz = some (r, h1, this1) ∧
      MaxIdBelowSize this1) ∧
    (∀ sz, ∃ h1 this1, Resize exampleHeap exampleArray sz = some (h1, this1) ∧
        MaxIdBelowSize this1) ∧
    (∀ n, ∃ h1 this1, SetNumberOfTuples exampleHeap exampleArray n = some (h1, this1) ∧
        MaxIdBelowSize this1) ∧
    (∀ i values, 0 ≤ i → 1 ≤ exampleArray.NumberOfComponents →
      exampleArray.NumberOfComponents.toNat ≤ values.length →
      ∃ h1 this1, InsertTuple exampleHeap exampleArray i values = some (h1, this1) ∧
          MaxIdBelowSize this1) ∧
    (∀ values, -1 ≤ exampleArray.MaxId → 1 ≤ exampleArray.NumberOfComponents →
      exampleArray.NumberOfComponents.toNat ≤ values.length →
      ∃ r h1 this1, InsertNextTuple exampleHeap exampleArray values = some (r, h1, this1) ∧
        MaxIdBelowSize this1) ∧
    (∀ i j c, 0 ≤ i * exampleArray.NumberOfComponents + j →
      ∃ h1 this1, InsertComponent exampleHeap exampleArray i j c = some (h1, this1) ∧
          MaxIdBelowSize this1)) :=
  ⟨by decide, by decide, rfl,
    MaxId_below_Size_preserved (fun _ _ => none) exampleHeap exampleArray
      (by decide) (by decide) rfl⟩

/-- C16 as stated fails: `SetArray` with the size `-5` leaves `MaxId = -6`, below
`Size = -5`; `Allocate(-7)` then resets `MaxId` to `-1` and keeps `Size = -5`,
so that `MaxId < Size` is lost. -/
theorem MaxId_below_Size_counterexample :
    ∃ h1 this1 h2 this2,
      SetArray exampleHeap (vtkUnsignedIntArray.ctor 1) (some 0) (-5) 1 = some (h1, this1) ∧
      MaxIdBelowSize this1 ∧
      Allocate h1 this1 (-7) = some (1, h2, this2) ∧
      this2.MaxId = -1 ∧ this2.Size = -5 ∧ ¬ MaxIdBelowSize this2 :=
  ⟨_, _, _, _, rfl, by decide, rfl, rfl, rfl, by decide⟩

/-- C17: in a state with valid storage in which the array references the live
block `a` with the save flag set, no operation releases that block or changes
its contents: after `SetArray`, `Allocate`, `Initialize`, `DeepCopy`,
`ResizeAndExtend`, `Resize` and the destructor, block `a` is live and holds what
it held (also when an allocation fails); and each operation that allocates
(`Allocate` with `sz > Size`, `DeepCopy`, a resizing `ResizeAndExtend` or
`Resize`), when its allocation succeeds, leaves the array owning another, new
block. -/
theorem borrowed_storage_never_freed
    (superDeepCopy : Heap → vtkUnsignedIntArray → Option (Heap × vtkUnsignedIntArray))
    (h : Heap) (this : vtkUnsignedIntArray) (a : Nat) (b : Block)
    (hok : StorageOk h this) (_hA : this.Array = some a) (hs : this.SaveUserArray ≠ 0)
    (hb : h.block a = some b) :
    (∀ array size save, ∃ h1 this1,
      SetArray h this array size save = some (h1, this1) ∧ h1.block a = some b) ∧
    (∀ sz, ∃ r h1 this1, Allocate h this sz = some (r, h1, this1) ∧ h1.block a = some b ∧
      (sz > this.Size → h.fails h.cells.length = false →
        OwnsStorage h1 this1 ∧ this1.Array ≠ some a)) ∧
    (∃ h1 this1, Initialize h this = some (h1, this1) ∧ h1.block a = some b) ∧
    (DeepCopy superDeepCopy h this .null = some (h, this) ∧
      DeepCopy superDeepCopy h this .self = some (h, this) ∧
      ∀ sa, StorageBacked h sa → h.fails h.cells.length = false →
        ∃ h1 this1, DeepCopy superDeepCopy h this (.unsignedInt sa) = some (h1, this1) ∧
          h1.block a = some b ∧ OwnsStorage h1 this1 ∧ this1.Array ≠ some a) ∧
    (∀ sz, ∃ r h1 this1, ResizeAndExtend h this sz = some (r, h1, this1) ∧
      h1.block a = some b ∧
      (sz ≠ this.Size → 0 < (if sz > this.Size then this.Size + sz else sz) →
        h.fails h.cells.length = false → OwnsStorage h1 this1 ∧ this1.Array ≠ some a)) ∧
    (∀ sz, ∃ h1 this1, Resize h this sz = some (h1, this1) ∧ h1.block a = some b ∧
      (sz * this.NumberOfComponents ≠ this.Size → 0 < sz * this.NumberOfComponents →
        h.fails h.cells.length = false → OwnsStorage h1 this1 ∧ this1.Array ≠ some a)) ∧
    (∃ h1, this.dtor h = some h1 ∧ h1.block a = some b) := by
  have hsz := hok.1
  have hlive := hok.live
  have hrel := released_of_save h this hs
  have halt := Heap.block_lt hb
  have hne : (some h.cells.length : Option Nat) ≠ some a := by
    intro hc
    have he : h.cells.length = a := by simpa using hc
    omega
  have happ : ∀ l, ({ h with cells := h.cells ++ l } : Heap).block a = some b := by
    intro l
    rw [Heap.block_cells_append h l a halt]; exact hb
  have hrealloc : ∀ n cnt, (reallocated h this n cnt).block a = some b := by
    intro n cnt
    rw [reallocated_block_other h this n cnt a halt (fun _ => hs)]; exact hb
  refine ⟨?_, ?_, ?_, ⟨rfl, rfl, ?_⟩, ?_, ?_, ?_⟩
  · intro array size save
    refine ⟨released h this,
      ({ this with Array := array, Size := size, MaxId := size - 1, SaveUserArray := save } :
        vtkUnsignedIntArray), by simp [SetArray, deleteOwned_eq h this hlive], ?_⟩
    rw [hrel]; exact hb
  · intro sz
    by_cases hgt : sz > this.Size
    · cases hf : h.fails h.cells.length with
      | false =>
        refine ⟨_, _, _, Allocate_grows h this sz hlive hgt hf, ?_, ?_⟩
        · rw [hrel]; exact happ _
        · intro _ _
          refine ⟨⟨rfl, h.cells.length,
            (released h this).fresh (if sz > 0 then sz else 1).toNat, rfl, ?_, ?_⟩, hne⟩
          · rw [← released_length h this]
            exact Heap.block_append_new _ _ _ _
          · show ((Heap.fresh _ _).length : Int) = if sz > 0 then sz else 1
            rw [Heap.fresh_length]
            split <;> omega
      | true =>
        refine ⟨_, _, _, Allocate_fails h this sz hlive hgt hf, ?_, ?_⟩
        · rw [hrel]; exact happ _
        · intro _ hc
          exact absurd hc (by simp)
    · refine ⟨1, h, { this with MaxId := -1 }, by simp [Allocate, hgt], hb, ?_⟩
      intro hc
      exact absurd hc hgt
  · refine ⟨_, _, Initialize_eq h this hlive, ?_⟩
    rw [hrel]; exact hb
  · intro sa hsa hf
    refine ⟨_, _, DeepCopy_unsignedInt_eq superDeepCopy h this sa hlive hsa
      (fun _ _ _ => hs) hf, ?_, ⟨rfl, h.cells.length,
        ((sa.Array.bind h.block).getD []).take sa.Size.toNat, rfl, ?_, ?_⟩, hne⟩
    · rw [hrel]; exact happ _
    · rw [← released_length h this]
      exact Heap.block_append_new _ _ _ _
    · show ((List.take _ _).length : Int) = sa.Size
      have hs0 := hsa.1.1
      cases hAa : sa.Array with
      | none =>
        have hz := hsa.2 hAa
        simp [hz]
      | some a1 =>
        obtain ⟨b1, hb1, hl1⟩ := hsa.1.2 a1 hAa
        simp [hb1]
        omega
  · intro sz
    by_cases heq : sz = this.Size
    · subst heq
      exact ⟨_, _, _, ResizeAndExtend_same h this, hb, fun hc => absurd rfl hc⟩
    · by_cases hpos : 0 < (if sz > this.Size then this.Size + sz else sz)
      · cases hf : h.fails h.cells.length with
        | false =>
          obtain ⟨b1, hb1, hl1, _⟩ := reallocated_ok h this
            (if sz > this.Size then this.Size + sz else sz).toNat (min sz this.Size).toNat hok
            (by split <;> omega) (by omega)
          refine ⟨_, _, _, ResizeAndExtend_realloc h this sz _ hok heq rfl hpos hf,
            hrealloc _ _, ?_⟩
          intro _ _ _
          refine ⟨⟨rfl, h.cells.length, b1, rfl, hb1, ?_⟩, hne⟩
          rw [hl1]
          show _ = (if sz > this.Size then this.Size + sz else sz)
          omega
        | true =>
          refine ⟨_, _, _, ResizeAndExtend_alloc_fails h this sz heq hpos hf, happ _, ?_⟩
          intro _ _ hc
          exact absurd hc (by simp)
      · refine ⟨_, _, _, ResizeAndExtend_initializes h this sz hlive heq (not_lt.mp hpos), ?_, ?_⟩
        · rw [hrel]; exact hb
        · intro _ hc
          exact absurd hc hpos
  · intro sz
    by_cases heq : sz * this.NumberOfComponents = this.Size
    · exact ⟨_, _, Resize_same h this sz heq, hb, fun hc => absurd heq hc⟩
    · by_cases hpos : 0 < sz * this.NumberOfComponents
      · cases hf : h.fails h.cells.length with
        | false =>
          obtain ⟨b1, hb1, hl1, _⟩ := reallocated_ok h this
            (sz * this.NumberOfComponents).toNat
            (min (sz * this.NumberOfComponents) this.Size).toNat hok (by omega) (by omega)
          refine ⟨_, _, Resize_realloc h this sz hok heq hpos hf, hrealloc _ _, ?_⟩
          intro _ _ _
          refine ⟨⟨rfl, h.cells.length, b1, rfl, hb1, ?_⟩, hne⟩
          rw [hl1]
          show _ = sz * this.NumberOfComponents
          omega
        | true =>
          refine ⟨_, _, Resize_alloc_fails h this sz heq hpos hf, happ _, ?_⟩
          intro _ _ hc
          exact absurd hc (by simp)
      · refine ⟨released h this,
          ({ this with Array := none, Size := 0, MaxId := -1, SaveUserArray := 0 } :
            vtkUnsignedIntArray), ?_, ?_, ?_⟩
        · rw [Resize_initializes h this sz heq (not_lt.mp hpos)]
          exact Initialize_eq h this hlive
        · rw [hrel]; exact hb
        · intro _ hc
          exact absurd hc hpos
  · refine ⟨_, deleteOwned_eq h this hlive, ?_⟩
    rw [hrel]; exact hb

/-- C17, on the example array with its block borrowed. -/
theorem borrowed_storage_never_freed_witness :
    StorageOk exampleHeap exampleBorrowed ∧ exampleBorrowed.Array = some 0 ∧
    exampleBorrowed.SaveUserArray ≠ 0 ∧ exampleHeap.block 0 = some [5, 6, 7] ∧
    ((∀ array size save, ∃ h1 this1,
      SetArray exampleHeap exampleBorrowed array size save = some (h1, this1) ∧ h1.block 0
          = some [5, 6, 7]) ∧
    (∀ sz, ∃ r h1 this1, Allocate exampleHeap exampleBorrowed sz = some (r, h1, this1) ∧ h1.block 0
        = some [5, 6, 7] ∧
      (sz > exampleBorrowed.Size → exampleHeap.fails exampleHeap.cells.length = false →
        OwnsStorage h1 this1 ∧ this1.Array ≠ some 0)) ∧
    (∃ h1 this1, Initialize exampleHeap exampleBorrowed = some (h1, this1) ∧ h1.block 0
        = some [5, 6, 7]) ∧
    (DeepCopy (fun _ _ => none) exampleHeap exampleBorrowed .null
        = some (exampleHeap, exampleBorrowed) ∧
      DeepCopy (fun _ _ => none) exampleHeap exampleBorrowed .self
          = some (exampleHeap, exampleBorrowed) ∧
      ∀ sa, StorageBacked exampleHeap sa → exampleHeap.fails exampleHeap.cells.length = false →
        ∃ h1 this1, DeepCopy (fun _ _ => none) exampleHeap exampleBorrowed (.unsignedInt sa)
            = some (h1, this1) ∧
          h1.block 0 = some [5, 6, 7] ∧ OwnsStorage h1 this1 ∧ this1.Array ≠ some 0) ∧
    (∀ sz, ∃ r h1 this1, ResizeAndExtend exampleHeap exampleBorrowed sz = some (r, h1, this1) ∧
      h1.block 0 = some [5, 6, 7] ∧
      (sz ≠ exampleBorrowed.Size → 0 < (if sz > exampleBorrowed.Size then exampleBorrowed.Size + sz
          else sz) →
        exampleHeap.fails exampleHeap.cells.length = false → OwnsStorage h1 this1 ∧
            this1.Array ≠ some 0)) ∧
    (∀ sz, ∃ h1 this1, Resize exampleHeap exampleBorrowed sz = some (h1, this1) ∧ h1.block 0
        = some [5, 6, 7] ∧
      (sz * exampleBorrowed.NumberOfComponents ≠ exampleBorrowed.Size →
          0 < sz * exampleBorrowed.NumberOfComponents →
        exampleHeap.fails exampleHeap.cells.length = false → OwnsStorage h1 this1 ∧
            this1.Array ≠ some 0)) ∧
    (∃ h1, exampleBorrowed.dtor exampleHeap = some h1 ∧ h1.block 0 = some [5, 6, 7])) :=
  ⟨by decide, rfl, by decide, rfl,
    borrowed_storage_never_freed (fun _ _ => none) exampleHeap exampleBorrowed 0 [5, 6, 7]
      (by decide) rfl (by decide) rfl⟩

/-- C18: `Allocate` is not atomic on failure. On the example array (owning the
block `5, 6, 7`, `Size = 3`, `MaxId = 2`) with a failing allocation,
`Allocate(10)` returns 0 after it released the block, set `Size = 10` and set
the storage pointer to null. The value 0 is returned only when the request
exceeds `Size` and the allocation fails. -/
theorem Allocate_failure_mutates :
    (∃ h1 this1, Allocate failingHeap exampleArray 10 = some (0, h1, this1) ∧
      failingHeap.block 0 = some [5, 6, 7] ∧ h1.block 0 = none ∧
      exampleArray.Array = some 0 ∧ this1.Array = none ∧
      exampleArray.Size = 3 ∧ this1.Size = 10 ∧ this1 ≠ exampleArray) ∧
    (∀ (h : Heap) (this : vtkUnsignedIntArray) (sz r : Int) (h1 : Heap)
      (this1 : vtkUnsignedIntArray), Allocate h this sz = some (r, h1, this1) → r = 0 →
        sz > this.Size ∧ h.fails h.cells.length = true) := by
  constructor
  · refine ⟨_, _, rfl, rfl, rfl, rfl, rfl, rfl, rfl, ?_⟩
    intro hc
    have hsize := congrArg vtkUnsignedIntArray.Size hc
    revert hsize
    decide
  · intro h this sz r h1 this1 hA hr
    unfold Allocate at hA
    by_cases hgt : sz > this.Size
    · refine ⟨hgt, ?_⟩
      simp only [hgt, if_true] at hA
      cases hd : deleteOwned h this with
      | none => simp [hd] at hA
      | some h0 =>
        obtain ⟨hl, hfl⟩ := deleteOwned_shape h h0 this hd
        have hn : (0 : Int) ≤ if sz > 0 then sz else 1 := by split <;> omega
        cases hf : h0.fails h0.cells.length with
        | true => rw [hl, hfl] at hf; exact hf
        | false =>
          simp only [hd, Heap.new_eq hn hf, Option.some.injEq, Prod.mk.injEq] at hA
          omega
    · simp [hgt] at hA
      omega

/-- C19: `DeepCopy(NULL)` and the self-copy `DeepCopy(this)` return at once: the
heap and every data member of the array are what they were. -/
theorem DeepCopy_degenerate_noop
    (superDeepCopy : Heap → vtkUnsignedIntArray → Option (Heap × vtkUnsignedIntArray))
    (h : Heap) (this : vtkUnsignedIntArray) :
    DeepCopy superDeepCopy h this .null = some (h, this) ∧
    DeepCopy superDeepCopy h this .self = some (h, this) :=
  ⟨rfl, rfl⟩

/-- C20 (amended): `TupleSize >= NumberOfComponents` holds after construction
with at most three components, and in the state left by `GetTuple(i)` whatever
`TupleSize` was before: for a tuple index within the allocated bounds and a
conversion buffer as long as `TupleSize` says, `GetTuple(i)` returns, grows the
buffer first when it is too small, and changes neither the component count nor
the storage pointer, `Size` or `MaxId`. -/
theorem GetTuple_restores_TupleSize (h : Heap) (this : vtkUnsignedIntArray) (i : Int)
    (hB : StorageBacked h this) (hi : 0 ≤ i)
    (hfit : (i + 1) * this.NumberOfComponents ≤ this.Size)
    (hT : this.TupleSize ≤ (this.Tuple.length : Int)) :
    (∀ numComp, numComp ≤ 3 → (vtkUnsignedIntArray.ctor numComp).NumberOfComponents ≤
      (vtkUnsignedIntArray.ctor numComp).TupleSize) ∧
    ∃ r this1, GetTuple h this i = some (r, this1) ∧
      this1.NumberOfComponents = this.NumberOfComponents ∧
      this1.NumberOfComponents ≤ this1.TupleSize ∧
      this1.TupleSize ≤ (this1.Tuple.length : Int) ∧
      this1.Array = this.Array ∧ this1.Size = this.Size ∧ this1.MaxId = this.MaxId := by
  constructor
  · intro numComp hn
    show (if numComp < 1 then 1 else numComp) ≤ 3
    split <;> omega
  · have hsz := hB.1.1
    by_cases hc : this.NumberOfComponents ≤ 0
    · have hz : this.NumberOfComponents.toNat = 0 := by omega
      unfold GetTuple
      by_cases hlt : this.TupleSize < this.NumberOfComponents
      · simp only [hlt, if_true, hz, List.range_zero, fillTuple]
        exact ⟨_, _, rfl, rfl, le_refl _, by simp [hz]; omega, rfl, rfl, rfl⟩
      · simp only [hlt, if_false, hz, List.range_zero, fillTuple]
        exact ⟨_, _, rfl, rfl, by show this.NumberOfComponents ≤ this.TupleSize; omega, hT,
          rfl, rfl, rfl⟩
    · have hexp : (i + 1) * this.NumberOfComponents =
          i * this.NumberOfComponents + this.NumberOfComponents := by ring
      have hloc : 0 ≤ this.NumberOfComponents * i := mul_nonneg (by omega) hi
      have hcomm : this.NumberOfComponents * i = i * this.NumberOfComponents := mul_comm _ _
      cases hA : this.Array with
      | none => have hz := hB.2 hA; omega
      | some a =>
        obtain ⟨b, hb, hbl⟩ := hB.1.2 a hA
        unfold GetTuple
        by_cases hlt : this.TupleSize < this.NumberOfComponents
        · obtain ⟨t1, ht1, hl1⟩ := fillTuple_range' h a (this.NumberOfComponents * i) b hb hloc
            this.NumberOfComponents.toNat 0 (List.replicate this.NumberOfComponents.toNat 0)
            (by omega) (by simp)
          rw [← List.range_eq_range'] at ht1
          simp only [hlt, if_true, hA, ht1]
          refine ⟨_, _, rfl, rfl, le_refl _, ?_, rfl, rfl, rfl⟩
          show this.NumberOfComponents ≤ (t1.length : Int)
          rw [hl1]
          simp
        · obtain ⟨t1, ht1, hl1⟩ := fillTuple_range' h a (this.NumberOfComponents * i) b hb hloc
            this.NumberOfComponents.toNat 0 this.Tuple (by omega) (by omega)
          rw [← List.range_eq_range'] at ht1
          simp only [hlt, if_false, hA, ht1]
          refine ⟨_, _, rfl, rfl, ?_, ?_, rfl, rfl, rfl⟩
          · show this.NumberOfComponents ≤ this.TupleSize
            omega
          · show this.TupleSize ≤ (t1.length : Int)
            rw [hl1]; exact hT

/-- C20 (amended), reading tuple 0 of the example pairs. -/
theorem GetTuple_restores_TupleSize_witness :
    StorageBacked exampleHeap examplePairs ∧ (0 : Int) ≤ 0 ∧
    ((0 : Int) + 1) * examplePairs.NumberOfComponents ≤ examplePairs.Size ∧
    examplePairs.TupleSize ≤ (examplePairs.Tuple.length : Int) ∧
    ((∀ numComp, numComp ≤ 3 → (vtkUnsignedIntArray.ctor numComp).NumberOfComponents ≤
      (vtkUnsignedIntArray.ctor numComp).TupleSize) ∧
    ∃ r this1, GetTuple exampleHeap examplePairs 0 = some (r, this1) ∧
      this1.NumberOfComponents = examplePairs.NumberOfComponents ∧
      this1.NumberOfComponents ≤ this1.TupleSize ∧
      this1.TupleSize ≤ (this1.Tuple.length : Int) ∧
      this1.Array = examplePairs.Array ∧ this1.Size = examplePairs.Size ∧ this1.MaxId
          = examplePairs.MaxId) :=
  ⟨by decide, by decide, by decide, by decide,
    GetTuple_restores_TupleSize exampleHeap examplePairs 0
      (by decide) (by decide) (by decide) (by decide)⟩

/-- C20 as stated fails after construction: the constructor sets
`TupleSize = 3` whatever the component count, so a new array of five components
has `TupleSize = 3 < 5 = NumberOfComponents`; and `DeepCopy` takes the
component count of the source without touching the conversion buffer. -/
theorem TupleSize_counterexample :
    (vtkUnsignedIntArray.ctor 5).TupleSize = 3 ∧
    (vtkUnsignedIntArray.ctor 5).NumberOfComponents = 5 ∧
    ¬ ((vtkUnsignedIntArray.ctor 5).TupleSize ≥ (vtkUnsignedIntArray.ctor 5).NumberOfComponents) ∧
    ∃ h1 this1, DeepCopy (fun _ _ => none) emptyHeap (vtkUnsignedIntArray.ctor 1)
        (.unsignedInt (vtkUnsignedIntArray.ctor 5)) = some (h1, this1) ∧
      this1.TupleSize = 3 ∧ this1.NumberOfComponents = 5 :=
  ⟨rfl, rfl, by decide, _, _, rfl, rfl, rfl⟩

/-- C21: the constructor called with any `numComp` sets `NumberOfComponents` to
`numComp` when `numComp >= 1` and to `1` otherwise. From every state with
`NumberOfComponents >= 1`, whatever the heap, every operation that is defined
returns a state with `NumberOfComponents >= 1`: `SetArray`, `Allocate`,
`Initialize`, `DeepCopy` (from `NULL`, from the array itself, from an unsigned
int array with at least one component, and from an array of another type if
the copy of the base class keeps the property), `ResizeAndExtend`, `Resize`,
`SetNumberOfTuples`, `GetTuple`, `InsertTuple`, `InsertNextTuple` and
`InsertComponent`. On a state backed by memory with `MaxId < Size`, when the
allocation succeeds, these operations are defined (for a tuple index within the
bounds for `GetTuple`, a non-negative slot and enough values for the inserting
methods). -/
theorem NumberOfComponents_at_least_one
    (superDeepCopy : Heap → vtkUnsignedIntArray → Option (Heap × vtkUnsignedIntArray))
    (h : Heap) (this : vtkUnsignedIntArray) (hN : 1 ≤ this.NumberOfComponents) :
    (∀ numComp, (vtkUnsignedIntArray.ctor numComp).NumberOfComponents =
        (if 1 ≤ numComp then numComp else 1) ∧
      1 ≤ (vtkUnsignedIntArray.ctor numComp).NumberOfComponents) ∧
    ((∀ array size save r, SetArray h this array size save = some r →
        1 ≤ r.2.NumberOfComponents) ∧
      (∀ sz r, Allocate h this sz = some r → 1 ≤ r.2.2.NumberOfComponents) ∧
      (∀ r, Initialize h this = some r → 1 ≤ r.2.NumberOfComponents) ∧
      (∀ sa r, (∀ src, sa = .unsignedInt src → 1 ≤ src.NumberOfComponents) →
        (sa = .otherType → ∀ r1 : Heap × vtkUnsignedIntArray, superDeepCopy h this = some r1 →
          1 ≤ r1.2.NumberOfComponents) →
        DeepCopy superDeepCopy h this sa = some r → 1 ≤ r.2.NumberOfComponents) ∧
      (∀ sz r, ResizeAndExtend h this sz = some r → 1 ≤ r.2.2.NumberOfComponents) ∧
      (∀ sz r, Resize h this sz = some r → 1 ≤ r.2.NumberOfComponents) ∧
      (∀ n r, SetNumberOfTuples h this n = some r → 1 ≤ r.2.NumberOfComponents) ∧
      (∀ i r, GetTuple h this i = some r → 1 ≤ r.2.NumberOfComponents) ∧
      (∀ i values r, InsertTuple h this i values = some r → 1 ≤ r.2.NumberOfComponents) ∧
      (∀ values r, InsertNextTuple h this values = some r → 1 ≤ r.2.2.NumberOfComponents) ∧
      (∀ i j c r, InsertComponent h this i j c = some r → 1 ≤ r.2.NumberOfComponents)) ∧
    (StorageBacked h this → MaxIdBelowSize this → h.fails h.cells.length = false →
      ((∀ array size save, ∃ r, SetArray h this array size save = some r ∧
          1 ≤ r.2.NumberOfComponents) ∧
        (∀ sz, ∃ r, Allocate h this sz = some r ∧ 1 ≤ r.2.2.NumberOfComponents) ∧
        (∃ r, Initialize h this = some r ∧ 1 ≤ r.2.NumberOfComponents) ∧
        (∀ sa, StorageBacked h sa → NotOwnerOf this sa → 1 ≤ sa.NumberOfComponents →
          ∃ r, DeepCopy superDeepCopy h this (.unsignedInt sa) = some r ∧
            1 ≤ r.2.NumberOfComponents) ∧
        (∀ sz, ∃ r, ResizeAndExtend h this sz = some r ∧ 1 ≤ r.2.2.NumberOfComponents) ∧
        (∀ sz, ∃ r, Resize h this sz = some r ∧ 1 ≤ r.2.NumberOfComponents) ∧
        (∀ n, ∃ r, SetNumberOfTuples h this n = some r ∧ 1 ≤ r.2.NumberOfComponents) ∧
        (∀ i, 0 ≤ i → (i + 1) * this.NumberOfComponents ≤ this.Size →
          this.TupleSize ≤ (this.Tuple.length : Int) →
          ∃ r, GetTuple h this i = some r ∧ 1 ≤ r.2.NumberOfComponents) ∧
        (∀ i values, 0 ≤ i → this.NumberOfComponents.toNat ≤ values.length →
          ∃ r, InsertTuple h this i values = some r ∧ 1 ≤ r.2.NumberOfComponents) ∧
        (∀ values, -1 ≤ this.MaxId → this.NumberOfComponents.toNat ≤ values.length →
          ∃ r, InsertNextTuple h this values = some r ∧ 1 ≤ r.2.2.NumberOfComponents) ∧
        (∀ i j c, 0 ≤ i * this.NumberOfComponents + j →
          ∃ r, InsertComponent h this i j c = some r ∧ 1 ≤ r.2.NumberOfComponents))) := by
  have keep : ∀ {c : Int}, c = this.NumberOfComponents → 1 ≤ c := fun hc => by omega
  refine ⟨?_, ⟨?_, ?_, ?_, ?_, ?_, ?_, ?_, ?_, ?_, ?_, ?_⟩, ?_⟩
  · intro numComp
    show (if numComp < 1 then 1 else numComp) = (if 1 ≤ numComp then numComp else 1) ∧
      1 ≤ (if numComp < 1 then 1 else numComp)
    by_cases hn : numComp < 1
    · rw [if_pos hn, if_neg (by omega)]
      exact ⟨rfl, le_refl _⟩
    · rw [if_neg hn, if_pos (by omega)]
      exact ⟨rfl, by omega⟩
  · intro array size save r hr
    exact keep (SetArray_NumberOfComponents hr)
  · intro sz r hr
    exact keep (Allocate_NumberOfComponents hr)
  · intro r hr
    exact keep (Initialize_NumberOfComponents hr)
  · intro sa r hsrc hsuper hr
    cases sa with
    | null => cases hr; exact hN
    | self => cases hr; exact hN
    | otherType => exact hsuper rfl r hr
    | unsignedInt src =>
      rw [DeepCopy_NumberOfComponents hr]
      exact hsrc src rfl
  · intro sz r hr
    exact keep (ResizeAndExtend_NumberOfComponents hr)
  · intro sz r hr
    exact keep (Resize_NumberOfComponents hr)
  · intro n r hr
    exact keep (SetNumberOfTuples_NumberOfComponents hr)
  · intro i r hr
    exact keep (GetTuple_NumberOfComponents hr)
  · intro i values r hr
    exact keep (InsertTuple_NumberOfComponents hr)
  · intro values r hr
    exact keep (InsertNextTuple_NumberOfComponents hr)
  · intro i j c r hr
    exact keep (InsertValue_NumberOfComponents hr)
  · intro hB hInv hf
    have hlive := hB.1.live
    refine ⟨?_, ?_, ?_, ?_, ?_, ?_, ?_, ?_, ?_, ?_, ?_⟩
    · intro array size save
      have hr : SetArray h this array size save = some (released h this,
          ({ this with Array := array, Size := size, MaxId := size - 1, SaveUserArray := save } :
            vtkUnsignedIntArray)) := by
        simp [SetArray, deleteOwned_eq h this hlive]
      exact ⟨_, hr, keep (SetArray_NumberOfComponents hr)⟩
    · intro sz
      obtain ⟨r, h1, this1, hr, _⟩ := Allocate_keeps_bound h this sz hlive hB.1.1 hInv
      exact ⟨_, hr, keep (Allocate_NumberOfComponents hr)⟩
    · have hr := Initialize_eq h this hlive
      exact ⟨_, hr, keep (Initialize_NumberOfComponents hr)⟩
    · intro sa hsa hd hsrc
      have hr := DeepCopy_unsignedInt_eq superDeepCopy h this sa hlive hsa hd hf
      refine ⟨_, hr, ?_⟩
      rw [DeepCopy_NumberOfComponents hr]
      exact hsrc
    · intro sz
      obtain ⟨r, h1, this1, hr, _⟩ := ResizeAndExtend_keeps_bound h this sz hB.1 hInv
      exact ⟨_, hr, keep (ResizeAndExtend_NumberOfComponents hr)⟩
    · intro sz
      obtain ⟨h1, this1, hr, _⟩ := Resize_keeps_bound h this sz hB.1 hInv
      exact ⟨_, hr, keep (Resize_NumberOfComponents hr)⟩
    · intro n
      obtain ⟨h1, this1, hr, _⟩ := SetNumberOfTuples_bound h this n hlive
      exact ⟨_, hr, keep (SetNumberOfTuples_NumberOfComponents hr)⟩
    · intro i hi hfit hT
      obtain ⟨r, hr⟩ := GetTuple_returns h this i hB hi hfit hT
      exact ⟨_, hr, keep (GetTuple_NumberOfComponents hr)⟩
    · intro i values hi hlen
      obtain ⟨h1, this1, hr, _⟩ := InsertTuple_keeps_bound h this i values hB hInv hf hi hN hlen
      exact ⟨_, hr, keep (InsertTuple_NumberOfComponents hr)⟩
    · intro values hm hlen
      obtain ⟨r, h1, this1, hr, _⟩ := InsertNextTuple_keeps_bound h this values hB hf hm hN hlen
      exact ⟨_, hr, keep (InsertNextTuple_NumberOfComponents hr)⟩
    · intro i j c hid
      obtain ⟨h1, this1, hr, _⟩ := InsertComponent_keeps_bound h this i j c hB hInv hf hid
      exact ⟨_, hr, keep (InsertValue_NumberOfComponents hr)⟩

/-- C21, on the example array read as pairs. -/
theorem NumberOfComponents_at_least_one_witness :
    1 ≤ examplePairs.NumberOfComponents ∧ StorageBacked exampleHeap examplePairs ∧
    MaxIdBelowSize examplePairs ∧ exampleHeap.fails exampleHeap.cells.length = false ∧
    (∀ numComp, (vtkUnsignedIntArray.ctor numComp).NumberOfComponents =
        (if 1 ≤ numComp then numComp else 1) ∧
      1 ≤ (vtkUnsignedIntArray.ctor numComp).NumberOfComponents) ∧
    ((∀ array size save r, SetArray exampleHeap examplePairs array size save = some r →
        1 ≤ r.2.NumberOfComponents) ∧
      (∀ sz r, Allocate exampleHeap examplePairs sz = some r → 1 ≤ r.2.2.NumberOfComponents) ∧
      (∀ r, Initialize exampleHeap examplePairs = some r → 1 ≤ r.2.NumberOfComponents) ∧
      (∀ sa r, (∀ src, sa = .unsignedInt src → 1 ≤ src.NumberOfComponents) →
        (sa = .otherType → ∀ r1 : Heap × vtkUnsignedIntArray,
          (fun _ _ => none) exampleHeap examplePairs = some r1 → 1 ≤ r1.2.NumberOfComponents) →
        DeepCopy (fun _ _ => none) exampleHeap examplePairs sa = some r →
            1 ≤ r.2.NumberOfComponents) ∧
      (∀ sz r, ResizeAndExtend exampleHeap examplePairs sz = some r →
          1 ≤ r.2.2.NumberOfComponents) ∧
      (∀ sz r, Resize exampleHeap examplePairs sz = some r → 1 ≤ r.2.NumberOfComponents) ∧
      (∀ n r, SetNumberOfTuples exampleHeap examplePairs n = some r → 1 ≤ r.2.NumberOfComponents) ∧
      (∀ i r, GetTuple exampleHeap examplePairs i = some r → 1 ≤ r.2.NumberOfComponents) ∧
      (∀ i values r, InsertTuple exampleHeap examplePairs i values = some r →
          1 ≤ r.2.NumberOfComponents) ∧
      (∀ values r, InsertNextTuple exampleHeap examplePairs values = some r →
          1 ≤ r.2.2.NumberOfComponents) ∧
      (∀ i j c r, InsertComponent exampleHeap examplePairs i j c = some r →
          1 ≤ r.2.NumberOfComponents)) ∧
    (((∀ array size save, ∃ r, SetArray exampleHeap examplePairs array size save = some r ∧
          1 ≤ r.2.NumberOfComponents) ∧
        (∀ sz, ∃ r, Allocate exampleHeap examplePairs sz = some r ∧ 1 ≤ r.2.2.NumberOfComponents) ∧
        (∃ r, Initialize exampleHeap examplePairs = some r ∧ 1 ≤ r.2.NumberOfComponents) ∧
        (∀ sa, StorageBacked exampleHeap sa → NotOwnerOf examplePairs sa →
            1 ≤ sa.NumberOfComponents →
          ∃ r, DeepCopy (fun _ _ => none) exampleHeap examplePairs (.unsignedInt sa) = some r ∧
            1 ≤ r.2.NumberOfComponents) ∧
        (∀ sz, ∃ r, ResizeAndExtend exampleHeap examplePairs sz = some r ∧
            1 ≤ r.2.2.NumberOfComponents) ∧
        (∀ sz, ∃ r, Resize exampleHeap examplePairs sz = some r ∧ 1 ≤ r.2.NumberOfComponents) ∧
        (∀ n, ∃ r, SetNumberOfTuples exampleHeap examplePairs n = some r ∧
            1 ≤ r.2.NumberOfComponents) ∧
        (∀ i, 0 ≤ i → (i + 1) * examplePairs.NumberOfComponents ≤ examplePairs.Size →
          examplePairs.TupleSize ≤ (examplePairs.Tuple.length : Int) →
          ∃ r, GetTuple exampleHeap examplePairs i = some r ∧ 1 ≤ r.2.NumberOfComponents) ∧
        (∀ i values, 0 ≤ i → examplePairs.NumberOfComponents.toNat ≤ values.length →
          ∃ r, InsertTuple exampleHeap examplePairs i values = some r ∧
              1 ≤ r.2.NumberOfComponents) ∧
        (∀ values, -1 ≤ examplePairs.MaxId → examplePairs.NumberOfComponents.toNat ≤ values.length →
          ∃ r, InsertNextTuple exampleHeap examplePairs values = some r ∧
              1 ≤ r.2.2.NumberOfComponents) ∧
        (∀ i j c, 0 ≤ i * examplePairs.NumberOfComponents + j →
          ∃ r, InsertComponent exampleHeap examplePairs i j c = some r ∧
              1 ≤ r.2.NumberOfComponents))) :=
  ⟨by decide, by decide, by decide, rfl,
    (NumberOfComponents_at_least_one (fun _ _ => none) exampleHeap examplePairs (by decide)).1,
    (NumberOfComponents_at_least_one (fun _ _ => none) exampleHeap examplePairs (by decide)).2.1,
    (NumberOfComponents_at_least_one (fun _ _ => none) exampleHeap examplePairs (by decide)).2.2
      (by decide) (by decide) rfl⟩

/-- C22 (amended): for a tuple index `i` within the allocated bounds and an input
tuple `v` of at least `NumberOfComponents` values, `SetTuple(i, v)` returns;
afterwards the scalar at `i * NumberOfComponents + j` is `truncate(v[j])` and
`GetComponent(i, j)` is that scalar converted to `float`, which is
`truncate(v[j])` itself whenever that is below `2^24`; every scalar at a flat
index outside the tuple is what it was. `SetTuple` assigns no data member, so
`Size`, `MaxId` and `NumberOfComponents` are those of the object before the
call. -/
theorem SetTuple_GetComponent_frame (h : Heap) (this : vtkUnsignedIntArray) (i : Int)
    (v : List ℚ) (hB : StorageBacked h this) (hi : 0 ≤ i)
    (hfit : (i + 1) * this.NumberOfComponents ≤ this.Size)
    (hlen : this.NumberOfComponents.toNat ≤ v.length) :
    ∃ h1, SetTuple h this i v = some h1 ∧
      (∀ j : Nat, (j : Int) < this.NumberOfComponents →
        GetValue h1 this (i * this.NumberOfComponents + j) = (v[j]?).map toUnsignedInt ∧
        GetComponent h1 this i j = (v[j]?).map (fun x => toFloat (toUnsignedInt x))) ∧
      (∀ k : Nat, ¬ (i * this.NumberOfComponents ≤ (k : Int) ∧
          (k : Int) < (i + 1) * this.NumberOfComponents) →
        scalarAt h1 this k = scalarAt h this k) ∧
      StorageBacked h1 this ∧
      ∀ x, toUnsignedInt x < 2 ^ 24 → toFloat (toUnsignedInt x)
          = ((toUnsignedInt x : Nat) : ℚ) := by
  have hex : ∀ x, toUnsignedInt x < 2 ^ 24 →
      toFloat (toUnsignedInt x) = ((toUnsignedInt x : Nat) : ℚ) := by
    intro x hx
    unfold toFloat
    rw [roundToBits_of_lt _ _ hx]
  by_cases hc : this.NumberOfComponents ≤ 0
  · have hz : this.NumberOfComponents.toNat = 0 := by omega
    refine ⟨h, by simp [SetTuple, hz, storeTuple], ?_, fun _ _ => rfl, hB, hex⟩
    intro j hj
    omega
  · have hc1 : 1 ≤ this.NumberOfComponents := by omega
    have hsz := hB.1.1
    have hloc : 0 ≤ i * this.NumberOfComponents := mul_nonneg hi (by omega)
    have hexp : (i + 1) * this.NumberOfComponents =
        i * this.NumberOfComponents + this.NumberOfComponents := by ring
    cases hA : this.Array with
    | none => have hz := hB.2 hA; omega
    | some a =>
      obtain ⟨b, hb, hbl⟩ := hB.1.2 a hA
      obtain ⟨b1, hst, hl1, hk1⟩ := storeTuple_range' a (i * this.NumberOfComponents) v hloc
        this.NumberOfComponents.toNat 0 h b hb (by omega) (by omega)
      rw [← List.range_eq_range'] at hst
      have hb1 : (Heap.mk (h.cells.set a (some b1)) h.fails h.junk).block a = some b1 :=
        Heap.block_set_self _ _ _ _ _ (Heap.block_lt hb)
      refine ⟨_, by simpa [SetTuple, hA] using hst, ?_, ?_, ?_, hex⟩
      · intro j hj
        have hval : GetValue (Heap.mk (h.cells.set a (some b1)) h.fails h.junk) this
            (i * this.NumberOfComponents + j) = (v[j]?).map toUnsignedInt := by
          have h1 : (i * this.NumberOfComponents + (j : Int)).toNat =
              (i * this.NumberOfComponents).toNat + j := by omega
          have h2 : ¬ (i * this.NumberOfComponents + (j : Int) < 0) := by omega
          unfold GetValue Heap.read
          rw [hA]
          simp only [hb1, h2, if_false, h1]
          rw [hk1, if_pos (by omega)]
          simp
        refine ⟨hval, ?_⟩
        unfold GetComponent
        rw [hval]
        cases v[j]? <;> rfl
      · intro k hk
        rw [scalarAt_of_block k hA hb1, scalarAt_of_block k hA hb, hk1, if_neg]
        intro hcon
        apply hk
        omega
      · refine ⟨⟨hsz, ?_⟩, fun hn => by rw [hA] at hn; cases hn⟩
        intro a1 ha1
        rw [hA] at ha1
        cases ha1
        exact ⟨b1, hb1, by omega⟩

/-- C22 (amended), writing `[3.7, -2.2]` into tuple 0 of the example pairs. -/
theorem SetTuple_GetComponent_frame_witness :
    StorageBacked exampleHeap examplePairs ∧ (0 : Int) ≤ 0 ∧
    ((0 : Int) + 1) * examplePairs.NumberOfComponents ≤ examplePairs.Size ∧
    examplePairs.NumberOfComponents.toNat ≤ [mkRat 37 10, mkRat (-22) 10].length ∧
    ∃ h1, SetTuple exampleHeap examplePairs 0 [mkRat 37 10, mkRat (-22) 10] = some h1 ∧
      (∀ j : Nat, (j : Int) < examplePairs.NumberOfComponents →
        GetValue h1 examplePairs (0 * examplePairs.NumberOfComponents + j) =
          ([mkRat 37 10, mkRat (-22) 10][j]?).map toUnsignedInt ∧
        GetComponent h1 examplePairs 0 j =
          ([mkRat 37 10, mkRat (-22) 10][j]?).map (fun x => toFloat (toUnsignedInt x))) ∧
      (∀ k : Nat, ¬ (0 * examplePairs.NumberOfComponents ≤ (k : Int) ∧
          (k : Int) < (0 + 1) * examplePairs.NumberOfComponents) →
        scalarAt h1 examplePairs k = scalarAt exampleHeap examplePairs k) ∧
      StorageBacked h1 examplePairs ∧
      ∀ x, toUnsignedInt x < 2 ^ 24 → toFloat (toUnsignedInt x) = ((toUnsignedInt x : Nat) : ℚ) :=
  ⟨by decide, by decide, by decide, by decide,
    SetTuple_GetComponent_frame exampleHeap examplePairs 0 [mkRat 37 10, mkRat (-22) 10]
      (by decide) (by decide) (by decide) (by decide)⟩

/-- C22 as stated fails: `SetTuple(0, v)` with `v[0] = 16777217` (a value of the
`double` overload) stores `truncate(v[0]) = 16777217`, and `GetComponent(0, 0)`
returns the `float` nearest to it, `16777216`. -/
theorem SetTuple_GetComponent_counterexample :
    ∃ h1, SetTuple exampleHeap exampleArray 0 [16777217] = some h1 ∧
      toUnsignedInt 16777217 = 16777217 ∧
      GetValue h1 exampleArray 0 = some 16777217 ∧
      GetComponent h1 exampleArray 0 0 = some 16777216 ∧
      GetComponent h1 exampleArray 0 0 ≠ some ((toUnsignedInt 16777217 : Nat) : ℚ) := by
  refine ⟨_, rfl, by decide, by decide, by decide, by decide⟩

/-- C23: for an array with at least one component per tuple (more than the
three entries of the initial conversion buffer included), valid storage, a
tuple index `i` within the allocated bounds and a conversion buffer as long as
`TupleSize` says, `GetTuple(i)` and `GetTuple(i, out)` with a `float` buffer
both return; the first `NumberOfComponents` entries of the buffer returned by
`GetTuple(i)` are the values written to `out`, each the scalar of the tuple
converted to `float`; `GetTuple(i)` leaves `TupleSize >= NumberOfComponents` and
changes neither the component count, nor the storage pointer, `Size` or
`MaxId` (the heap is not written by either method). -/
theorem GetTuple_agrees_with_GetTuple_float (h : Heap) (this : vtkUnsignedIntArray) (i : Int)
    (hB : StorageBacked h this) (hc : 1 ≤ this.NumberOfComponents) (hi : 0 ≤ i)
    (hfit : (i + 1) * this.NumberOfComponents ≤ this.Size)
    (hT : this.TupleSize ≤ (this.Tuple.length : Int)) :
    ∃ r this1 out, GetTuple h this i = some (r, this1) ∧ GetTuple_float h this i = some out ∧
      out.length = this.NumberOfComponents.toNat ∧
      r.take this.NumberOfComponents.toNat = out ∧
      (∀ j : Nat, (j : Int) < this.NumberOfComponents →
        ∃ u, scalarAt h this ((i * this.NumberOfComponents).toNat + j) = some u ∧
          r[j]? = some (toFloat u) ∧ out[j]? = some (toFloat u)) ∧
      this1.NumberOfComponents ≤ this1.TupleSize ∧
      this1.NumberOfComponents = this.NumberOfComponents ∧
      this1.Array = this.Array ∧ this1.Size = this.Size ∧ this1.MaxId = this.MaxId := by
  have hsz := hB.1.1
  have hexp : (i + 1) * this.NumberOfComponents =
      i * this.NumberOfComponents + this.NumberOfComponents := by ring
  have hloc : 0 ≤ this.NumberOfComponents * i := mul_nonneg (by omega) hi
  have hcomm : this.NumberOfComponents * i = i * this.NumberOfComponents := mul_comm _ _
  cases hA : this.Array with
  | none => have hz := hB.2 hA; omega
  | some a =>
    obtain ⟨b, hb, hbl⟩ := hB.1.2 a hA
    have hload := loadTuple_range' toFloat h a (this.NumberOfComponents * i) b hb hloc
      (fun j => b.getD ((this.NumberOfComponents * i).toNat + j) 0)
      this.NumberOfComponents.toNat 0
      (by
        intro j _ hj
        have hjb : (this.NumberOfComponents * i).toNat + j < b.length := by omega
        simp [List.getD_eq_getElem?_getD, List.getElem?_eq_getElem hjb])
    rw [← List.range_eq_range'] at hload
    have key : ∀ t : List ℚ, this.NumberOfComponents.toNat ≤ t.length →
        ∀ t1, fillTuple h (some a) (this.NumberOfComponents * i)
            (List.range this.NumberOfComponents.toNat) t = some t1 →
          t1.take this.NumberOfComponents.toNat =
            (List.range this.NumberOfComponents.toNat).map
              (fun j => toFloat (b.getD ((this.NumberOfComponents * i).toNat + j) 0)) ∧
          ∀ j : Nat, (j : Int) < this.NumberOfComponents →
            ∃ u, scalarAt h this ((i * this.NumberOfComponents).toNat + j) = some u ∧
              t1[j]? = some (toFloat u) ∧
              ((List.range this.NumberOfComponents.toNat).map
                (fun j => toFloat (b.getD ((this.NumberOfComponents * i).toNat + j) 0)))[j]? =
                some (toFloat u) := by
      intro t htl t1 ht1
      obtain ⟨t2, ht2, hl2, hv2⟩ := fillTuple_values h a (this.NumberOfComponents * i) b hb hloc
        this.NumberOfComponents.toNat 0 t (by omega) (by omega)
      rw [← List.range_eq_range', ht1] at ht2
      cases ht2
      have hval : ∀ j, j < this.NumberOfComponents.toNat →
          t1[j]? = some (toFloat (b.getD ((this.NumberOfComponents * i).toNat + j) 0)) := by
        intro j hj
        have hjb : (this.NumberOfComponents * i).toNat + j < b.length := by omega
        rw [hv2 j, if_pos (by omega)]
        simp [List.getD_eq_getElem?_getD, List.getElem?_eq_getElem hjb]
      constructor
      · apply List.ext_getElem?
        intro j
        rw [List.getElem?_take]
        by_cases hj : j < this.NumberOfComponents.toNat
        · rw [if_pos hj, hval j hj]
          simp [List.getElem?_range hj]
        · rw [if_neg hj]
          symm
          apply List.getElem?_eq_none
          simp
          omega
      · intro j hj
        have hj' : j < this.NumberOfComponents.toNat := by omega
        have hjb : (this.NumberOfComponents * i).toNat + j < b.length := by omega
        refine ⟨b.getD ((this.NumberOfComponents * i).toNat + j) 0, ?_, hval j hj', ?_⟩
        · rw [scalarAt_of_block _ hA hb, ← hcomm]
          simp [List.getD_eq_getElem?_getD, List.getElem?_eq_getElem hjb]
        · simp [List.getElem?_range hj']
    have hfl : GetTuple_float h this i = some ((List.range this.NumberOfComponents.toNat).map
        (fun j => toFloat (b.getD ((this.NumberOfComponents * i).toNat + j) 0))) := by
      unfold GetTuple_float
      rw [hA]
      exact hload
    unfold GetTuple
    by_cases hlt : this.TupleSize < this.NumberOfComponents
    · obtain ⟨t1, ht1, hl1⟩ := fillTuple_range' h a (this.NumberOfComponents * i) b hb hloc
        this.NumberOfComponents.toNat 0 (List.replicate this.NumberOfComponents.toNat 0)
        (by omega) (by simp)
      rw [← List.range_eq_range'] at ht1
      obtain ⟨k1, k2⟩ := key _ (by simp) t1 ht1
      simp only [hlt, if_true, hA, ht1]
      exact ⟨_, _, _, rfl, hfl, by simp, k1, k2, le_refl _, rfl, rfl, rfl, rfl⟩
    · obtain ⟨t1, ht1, hl1⟩ := fillTuple_range' h a (this.NumberOfComponents * i) b hb hloc
        this.NumberOfComponents.toNat 0 this.Tuple (by omega) (by omega)
      rw [← List.range_eq_range'] at ht1
      obtain ⟨k1, k2⟩ := key _ (by omega) t1 ht1
      simp only [hlt, if_false, hA, ht1]
      refine ⟨_, _, _, rfl, hfl, by simp, k1, k2, ?_, rfl, rfl, rfl, rfl⟩
      show this.NumberOfComponents ≤ this.TupleSize
      omega

/-- C23, reading tuple 0 of an array with five components per tuple, more than
the three entries of the initial conversion buffer. -/
theorem GetTuple_agrees_with_GetTuple_float_witness :
    StorageBacked exampleWideHeap exampleWide ∧ 1 ≤ exampleWide.NumberOfComponents ∧
    (0 : Int) ≤ 0 ∧ ((0 : Int) + 1) * exampleWide.NumberOfComponents ≤ exampleWide.Size ∧
    exampleWide.TupleSize ≤ (exampleWide.Tuple.length : Int) ∧
    exampleWide.TupleSize < exampleWide.NumberOfComponents ∧
    ∃ r this1 out, GetTuple exampleWideHeap exampleWide 0 = some (r, this1) ∧
      GetTuple_float exampleWideHeap exampleWide 0 = some out ∧
      out.length = exampleWide.NumberOfComponents.toNat ∧
      r.take exampleWide.NumberOfComponents.toNat = out ∧
      (∀ j : Nat, (j : Int) < exampleWide.NumberOfComponents →
        ∃ u, scalarAt exampleWideHeap exampleWide
            ((0 * exampleWide.NumberOfComponents).toNat + j) = some u ∧
          r[j]? = some (toFloat u) ∧ out[j]? = some (toFloat u)) ∧
      this1.NumberOfComponents ≤ this1.TupleSize ∧
      this1.NumberOfComponents = exampleWide.NumberOfComponents ∧
      this1.Array = exampleWide.Array ∧ this1.Size = exampleWide.Size ∧
      this1.MaxId = exampleWide.MaxId :=
  ⟨by decide, by decide, by decide, by decide, by decide, by decide,
    GetTuple_agrees_with_GetTuple_float exampleWideHeap exampleWide 0
      (by decide) (by decide) (by decide) (by decide) (by decide)⟩

/-- C24: from a state with valid storage, for a tuple count `n` with
`n * NumberOfComponents <= Size`, `Resize(n)` and
`ResizeAndExtend(n * NumberOfComponents)` return the same heap and the same
object, whether the allocation succeeds or not; for
`n * NumberOfComponents > Size`, when the allocation succeeds, both keep `MaxId`
and every scalar below the old `Size`, `Resize` ends with
`Size = n * NumberOfComponents` and `ResizeAndExtend` with the old `Size` more. -/
theorem Resize_agrees_with_ResizeAndExtend (h : Heap) (this : vtkUnsignedIntArray) (n : Int)
    (hok : StorageOk h this) :
    (n * this.NumberOfComponents ≤ this.Size →
      ∃ r h1 this1, Resize h this n = some (h1, this1) ∧
        ResizeAndExtend h this (n * this.NumberOfComponents) = some (r, h1, this1)) ∧
    (this.Size < n * this.NumberOfComponents → h.fails h.cells.length = false →
      ∃ h1 this1 r h2 this2, Resize h this n = some (h1, this1) ∧
        ResizeAndExtend h this (n * this.NumberOfComponents) = some (r, h2, this2) ∧
        this1.MaxId = this.MaxId ∧ this2.MaxId = this.MaxId ∧
        (∀ k : Nat, (k : Int) < this.Size → ∀ v, scalarAt h this k = some v →
          scalarAt h1 this1 k = some v ∧ scalarAt h2 this2 k = some v) ∧
        this1.Size = n * this.NumberOfComponents ∧
        this2.Size = this1.Size + this.Size) := by
  have hsz := hok.1
  constructor
  · intro hle
    by_cases heq : n * this.NumberOfComponents = this.Size
    · refine ⟨this.Array, h, this, Resize_same h this n heq, ?_⟩
      rw [heq]
      exact ResizeAndExtend_same h this
    · have hlt : n * this.NumberOfComponents < this.Size := lt_of_le_of_ne hle heq
      have hng : ¬ n * this.NumberOfComponents > this.Size := by omega
      by_cases hpos : 0 < n * this.NumberOfComponents
      · cases hf : h.fails h.cells.length with
        | false =>
          have h1 := Resize_realloc h this n hok heq hpos hf
          have h2 := ResizeAndExtend_realloc h this (n * this.NumberOfComponents)
            (n * this.NumberOfComponents) hok heq (by simp [hng]) hpos hf
          exact ⟨_, _, _, h1, h2⟩
        | true =>
          have h1 := Resize_alloc_fails h this n heq hpos hf
          have h2 := ResizeAndExtend_alloc_fails h this (n * this.NumberOfComponents) heq
            (by simpa [hng] using hpos) hf
          exact ⟨_, _, _, h1, h2⟩
      · have h1 := Resize_initializes h this n heq (by omega)
        rw [Initialize_eq h this hok.live] at h1
        have h2 := ResizeAndExtend_initializes h this (n * this.NumberOfComponents) hok.live heq
          (by simp only [hng, if_false]; omega)
        exact ⟨_, _, _, h1, h2⟩
  · intro hgt hf
    have hne : n * this.NumberOfComponents ≠ this.Size := by omega
    have hpos : 0 < n * this.NumberOfComponents := by omega
    have hg : n * this.NumberOfComponents > this.Size := hgt
    have h1 := Resize_realloc h this n hok hne hpos hf
    have h2 := ResizeAndExtend_realloc h this (n * this.NumberOfComponents)
      (this.Size + n * this.NumberOfComponents) hok hne (by simp [hg]) (by omega) hf
    have hmin : (min (n * this.NumberOfComponents) this.Size).toNat = this.Size.toNat := by
      rw [min_eq_right (le_of_lt hgt)]
    rw [hmin] at h1 h2
    refine ⟨_, _, _, _, _, h1, h2, ?_, ?_, ?_, rfl, ?_⟩
    · show (if n * this.NumberOfComponents < this.Size then _ else this.MaxId) = this.MaxId
      rw [if_neg (by omega)]
    · show (if this.Size + n * this.NumberOfComponents < this.Size then _ else this.MaxId)
        = this.MaxId
      rw [if_neg (by omega)]
    · intro k hk v hv
      obtain ⟨b1, hb1, _, hv1⟩ := reallocated_ok h this (n * this.NumberOfComponents).toNat
        this.Size.toNat hok (by omega) (by omega)
      obtain ⟨b2, hb2, _, hv2⟩ := reallocated_ok h this
        (this.Size + n * this.NumberOfComponents).toNat this.Size.toNat hok (by omega) (by omega)
      constructor
      · rw [scalarAt_of_block k rfl hb1]
        exact hv1 k (by omega) v hv
      · rw [scalarAt_of_block k rfl hb2]
        exact hv2 k (by omega) v hv
    · show this.Size + n * this.NumberOfComponents = n * this.NumberOfComponents + this.Size
      omega

/-- C24, on the example array read as pairs: one tuple (a shrink to two
scalars) and three tuples (a growth to six scalars). -/
theorem Resize_agrees_with_ResizeAndExtend_witness :
    StorageOk exampleHeap examplePairs ∧
    1 * examplePairs.NumberOfComponents ≤ examplePairs.Size ∧
    (∃ r h1 this1, Resize exampleHeap examplePairs 1 = some (h1, this1) ∧
      ResizeAndExtend exampleHeap examplePairs (1 * examplePairs.NumberOfComponents) =
        some (r, h1, this1)) ∧
    examplePairs.Size < 3 * examplePairs.NumberOfComponents ∧
    exampleHeap.fails exampleHeap.cells.length = false ∧
    (∃ h1 this1 r h2 this2, Resize exampleHeap examplePairs 3 = some (h1, this1) ∧
      ResizeAndExtend exampleHeap examplePairs (3 * examplePairs.NumberOfComponents) =
        some (r, h2, this2) ∧
      this1.MaxId = examplePairs.MaxId ∧ this2.MaxId = examplePairs.MaxId ∧
      (∀ k : Nat, (k : Int) < examplePairs.Size →
        ∀ v, scalarAt exampleHeap examplePairs k = some v →
          scalarAt h1 this1 k = some v ∧ scalarAt h2 this2 k = some v) ∧
      this1.Size = 3 * examplePairs.NumberOfComponents ∧
      this2.Size = this1.Size + examplePairs.Size) :=
  ⟨by decide, by decide,
    (Resize_agrees_with_ResizeAndExtend exampleHeap examplePairs 1 (by decide)).1 (by decide),
    by decide, rfl,
    (Resize_agrees_with_ResizeAndExtend exampleHeap examplePairs 3 (by decide)).2
      (by decide) rfl⟩

/-- C25: for every first value and every list of later values, the loop of
`RandomOrderStatistics` ends with `min_l` equal to the minimum and `max_l` equal
to the maximum of the whole sequence: each of them is a value of the sequence,
`min_l` is below and `max_l` is above every value of the sequence, and
`min_l <= max_l`. -/
theorem localExtrema_correct (first : Int) (later : List Int) :
    (RandomOrderStatistics.localExtrema first later).1 ∈ first :: later ∧
    (∀ x ∈ first :: later, (RandomOrderStatistics.localExtrema first later).1 ≤ x) ∧
    (RandomOrderStatistics.localExtrema first later).2 ∈ first :: later ∧
    (∀ x ∈ first :: later, x ≤ (RandomOrderStatistics.localExtrema first later).2) ∧
    (RandomOrderStatistics.localExtrema first later).1 ≤
      (RandomOrderStatistics.localExtrema first later).2 := by
  obtain ⟨a1, a2, a3, a4, a5⟩ := trackLocalExtrema_spec later first first (le_refl _)
  unfold RandomOrderStatistics.localExtrema
  refine ⟨?_, ?_, ?_, ?_, by omega⟩
  · rcases a3 with a3 | a3
    · rw [a3]; exact List.mem_cons_self _ _
    · exact List.mem_cons_of_mem _ a3
  · intro x hx
    rcases List.mem_cons.mp hx with hx | hx
    · subst hx; exact a1
    · exact (a5 x hx).1
  · rcases a4 with a4 | a4
    · rw [a4]; exact List.mem_cons_self _ _
    · exact List.mem_cons_of_mem _ a4
  · intro x hx
    rcases List.mem_cons.mp hx with hx | hx
    · subst hx; exact a2
    · exact (a5 x hx).2

end VTK
